import Mathlib

/-!
Verification of the artifact-parameter computation core of
prisma-generator-nestjs-dto: the Entity (read-model), Create-input and
Update-input field pipelines.

The three pipeline files are embedded faithfully from the TypeScript source
(compute entity / create-dto / update-dto params).  Helper modules that the
pipelines call but whose source is not part of the repository snapshot
(field classifiers, relation scalar index, relation input synthesizer,
annotation-spec builders, map/zip helpers) are modelled from the
specification; each such definition carries a doc comment starting with
"Modelled from the spec:".

Path tokens and generated artifact names are treated as opaque (the spec
declares output locations "opaque path tokens"), so cross-entity import
sources and imported artifact names are represented structurally instead of
as concatenated strings.  In-place mutations of the shared field records
(the pipelines assign to field.isReadOnly, field.documentation and
field.type) are made explicit: every per-field step returns the
post-mutation field record and the fold collects them, which represents the
state of the caller-supplied field descriptors after the computation.
-/

namespace PgDto

/-- Kind tag of a schema field: scalar, relation (reference to another
entity), nested structured type, or enum (spec data model). -/
inductive FieldKind
  | scalar
  | relation
  | typ
  | enum
deriving DecidableEq, Repr

/-- A schema field descriptor as handed to the core by the
schema-introspection collaborator.  `anns` is the set of directive names
present on the field (directive arguments are not consulted by the three
pipelines, only presence is); `relationFromFields` lists the names of the
foreign-key scalar fields underlying a relation field. -/
structure Field where
  name : String
  type : String
  kind : FieldKind
  isList : Bool
  isRequired : Bool
  isReadOnly : Bool
  hasDefaultValue : Bool
  isId : Bool
  isUpdatedAt : Bool
  documentation : String
  anns : List String
  relationFromFields : List String
deriving DecidableEq, Repr

/-- Output location descriptors of one entity (opaque path tokens, spec §3):
the read-model (entity) directory and the input-artifact (dto) directory. -/
structure ModelOutputPaths where
  entity : String
  dto : String
deriving DecidableEq, Repr

/-- One schema entity: name, ordered field list and output locations. -/
structure Model where
  name : String
  fields : List Field
  output : ModelOutputPaths
deriving DecidableEq, Repr

/-- Configuration threaded through every pipeline call. -/
structure GeneratorConfig where
  noDependencies : Bool
  classValidation : Bool
  prismaClientImportPath : String
deriving DecidableEq, Repr

/-! ## Directive names (annotations module, modelled from the spec) -/

def DTO_ENTITY_HIDDEN : String := "DtoEntityHidden"
def DTO_RELATION_REQUIRED : String := "DtoRelationRequired"
def DTO_CREATE_HIDDEN : String := "DtoCreateHidden"
def DTO_CREATE_OPTIONAL : String := "DtoCreateOptional"
def DTO_UPDATE_HIDDEN : String := "DtoUpdateHidden"
def DTO_UPDATE_OPTIONAL : String := "DtoUpdateOptional"
def DTO_RELATION_INCLUDE_ID : String := "DtoRelationIncludeId"
def DTO_RELATION_CAN_CREATE_ON_CREATE : String := "DtoRelationCanCreateOnCreate"
def DTO_RELATION_CAN_CONNECT_ON_CREATE : String := "DtoRelationCanConnectOnCreate"
def DTO_RELATION_CAN_CREATE_ON_UPDATE : String := "DtoRelationCanCreateOnUpdate"
def DTO_RELATION_CAN_CONNECT_ON_UPDATE : String := "DtoRelationCanConnectOnUpdate"
def DTO_RELATION_CAN_UPDATE_ON_UPDATE : String := "DtoRelationCanUpdateOnUpdate"
def DTO_CREATE_API_RESP : String := "DtoCreateApiResponse"
def DTO_UPDATE_API_RESP : String := "DtoUpdateApiResponse"
def DTO_TYPE_FULL_UPDATE : String := "DtoTypeFullUpdate"

/-- Create-time relation modifier directives (grouping used by the gate in
the Create pipeline). -/
def DTO_RELATION_MODIFIERS_ON_CREATE : List String :=
  [DTO_RELATION_CAN_CREATE_ON_CREATE, DTO_RELATION_CAN_CONNECT_ON_CREATE]

/-- Update-time relation modifier directives. -/
def DTO_RELATION_MODIFIERS_ON_UPDATE : List String :=
  [DTO_RELATION_CAN_CREATE_ON_UPDATE, DTO_RELATION_CAN_CONNECT_ON_UPDATE,
   DTO_RELATION_CAN_UPDATE_ON_UPDATE]

/-! ## Field classifiers (modelled from the spec §4.1: pure total
predicates over a field descriptor and its annotation set) -/

/-- Modelled from the spec: presence of a named directive on the field. -/
def isAnnotatedWith (f : Field) (a : String) : Bool :=
  decide (a ∈ f.anns)

/-- Modelled from the spec: presence of any of a set of named directives. -/
def isAnnotatedWithOneOf (f : Field) (as : List String) : Bool :=
  as.any (fun a => isAnnotatedWith f a)

/-- Modelled from the spec: relation-ness of a field. -/
def isRelation (f : Field) : Bool := decide (f.kind = FieldKind.relation)

/-- Modelled from the spec: is the field a nested structured type. -/
def isType (f : Field) : Bool := decide (f.kind = FieldKind.typ)

/-- Modelled from the spec: schema-level requiredness. -/
def isRequired (f : Field) : Bool := f.isRequired

/-- Modelled from the spec: read-only-ness of a field. -/
def isReadOnly (f : Field) : Bool := f.isReadOnly

/-- Modelled from the spec: identifier-ness of a field. -/
def isId (f : Field) : Bool := f.isId

/-- Modelled from the spec: auto-timestamp-ness of a field. -/
def isUpdatedAt (f : Field) : Bool := f.isUpdatedAt

/-- Modelled from the spec: identifier with a default value. -/
def isIdWithDefaultValue (f : Field) : Bool := f.isId && f.hasDefaultValue

/-- Modelled from the spec: required field carrying a default value. -/
def isRequiredWithDefaultValue (f : Field) : Bool :=
  f.isRequired && f.hasDefaultValue

/-! ## Relation scalar index (modelled from the spec §4.2) -/

/-- Modelled from the spec: the relation field names that own a given
foreign-key scalar name, in declaration order. -/
def ownersOf (fields : List Field) (s : String) : List String :=
  (fields.filter (fun g => isRelation g && decide (s ∈ g.relationFromFields))).map
    (fun g => g.name)

/-- Modelled from the spec: the names of all tracked foreign-key scalar
fields of an entity (every name referenced by some relation field's
`relationFromFields`), in first-reference order. -/
def relationScalarNames (fields : List Field) : List String :=
  (fields.foldl
    (fun acc g => if isRelation g then acc ++ g.relationFromFields else acc)
    []).dedup

/-- Modelled from the spec: mapping from tracked foreign-key scalar name to
the ordered list of relation field names that own it. -/
def getRelationScalars (fields : List Field) : List (String × List String) :=
  (relationScalarNames fields).map (fun s => (s, ownersOf fields s))

/-- Embedded from the Entity pipeline source: is any relation owning the
scalar (given by its owner relation field names) required, either at schema
level or through the relation-required directive.  A name that resolves to
no field counts as not required, as in the source. -/
def anyOwnerRequired (model : Model) (relationNames : List String) : Bool :=
  relationNames.any (fun rn =>
    match model.fields.find? (fun g => decide (g.name = rn)) with
    | none => false
    | some relationField =>
        isRequired relationField ||
        isAnnotatedWith relationField DTO_RELATION_REQUIRED)

/-! ## Names, imports, annotation specs -/

/-- Imported names and type names, represented structurally.  The template
helpers of the source turn an entity name into the artifact class name by a
fixed naming convention; those conventions are external collaborators, so
artifact names are kept as constructors applied to the target entity name.
`relationInput` is the name of a synthesized composite nested-input class
(the Boolean tag selects create-artifact vs update-artifact naming). -/
inductive TypeName
  | raw (s : String)
  | plainDto (t : String)
  | entityRef (t : String)
  | createDto (t : String)
  | updateDto (t : String)
  | connectDto (t : String)
  | relationInput (modelName fieldName : String) (useCreateNaming : Bool)
deriving DecidableEq, Repr

/-- Rendering of a structural name to the class-name string the renderer
would print (used only where the source splices a name into free text). -/
def TypeName.render : TypeName → String
  | .raw s => s
  | .plainDto t => t ++ "Dto"
  | .entityRef t => t
  | .createDto t => "Create" ++ t ++ "Dto"
  | .updateDto t => "Update" ++ t ++ "Dto"
  | .connectDto t => "Connect" ++ t ++ "Dto"
  | .relationInput m f true => "Create" ++ m ++ f ++ "RelationInput"
  | .relationInput m f false => "Update" ++ m ++ f ++ "RelationInput"

/-- A resolved type reference: a name, optionally wrapped in the lazy
type-thunk form (the source's "() => Name" strings). -/
structure TypeRef where
  isThunk : Bool
  name : TypeName
deriving DecidableEq, Repr

/-- Rendering of a type reference to the string the source would build. -/
def TypeRef.render (r : TypeRef) : String :=
  (if r.isThunk then "() => " else "") ++ r.name.render

/-- Source of an import record: a library module, or a cross-entity
relative path computed from two opaque output-location tokens plus the
artifact file token (the source computes a relative path string from
exactly these inputs; paths are opaque to the core). -/
inductive ImportSource
  | lib (name : String)
  | rel (fromDir toDir : String) (file : TypeName)
deriving DecidableEq, Repr

/-- An import-statement record: source plus the imported names. -/
structure ImportStatementParams where
  source : ImportSource
  destruct : List TypeName
deriving DecidableEq, Repr

/-- A documentation-annotation spec (name, value, and whether the value is
inserted verbatim instead of re-encoded as a string). -/
structure IApiProperty where
  name : String
  value : String
  noEncapsulation : Bool
deriving DecidableEq, Repr

/-- A validation-annotation spec: validator name plus optional argument. -/
structure IClassValidator where
  name : String
  value : Option TypeRef
deriving DecidableEq, Repr

/-- The per-field transient override record (spec §3 "Override set"). -/
structure FieldOverrides where
  isRequired : Option Bool := none
  isNullable : Option Bool := none
  type : Option TypeRef := none
  isList : Option Bool := none
  createApiResp : Option Bool := none
  updateApiResp : Option Bool := none
deriving DecidableEq, Repr

/-- A field of the final artifact parameter record: the (possibly
pipeline-mutated) field record, the override set merged over it at the last
step, and the attached annotation specs.  The source spreads the overrides
over the field when building the parsed field; keeping both components and
exposing the merge through accessors preserves exactly that information. -/
structure ParsedField where
  field : Field
  overrides : FieldOverrides
  apiProperties : List IApiProperty
  classValidators : List IClassValidator
deriving DecidableEq, Repr

/-- Modelled from the spec: the final merge of a field with its override
set and decorators into an output field (the source's spread of overrides
and decorators over the field record). -/
def mapDMMFToParsedField (f : Field) (o : FieldOverrides)
    (api : List IApiProperty) (cv : List IClassValidator) : ParsedField :=
  { field := f, overrides := o, apiProperties := api, classValidators := cv }

/-- Resolved requiredness of an output field: the override if present,
otherwise the field's own flag (override spread over field). -/
def ParsedField.resolvedRequired (p : ParsedField) : Bool :=
  p.overrides.isRequired.getD p.field.isRequired

/-- Resolved nullability of an output field: the override if present
(the base field record carries no nullability of its own). -/
def ParsedField.resolvedNullable (p : ParsedField) : Option Bool :=
  p.overrides.isNullable

/-- Name of an output field. -/
def ParsedField.name (p : ParsedField) : String := p.field.name

/-! ## Annotation-spec builders and import helpers (modelled from the spec) -/

/-- Modelled from the spec: the scalar-type-to-format table consulted by the
Entity pipeline (primitive scalar types that carry a format and therefore
need no explicit type annotation). -/
def PrismaScalarToFormat (t : String) : Option String :=
  if t = "Int" then some "int32"
  else if t = "BigInt" then some "int64"
  else if t = "Float" then some "float"
  else if t = "Decimal" then some "double"
  else if t = "DateTime" then some "date-time"
  else none

/-- Modelled from the spec: the documentation-annotation builder.  It
produces annotation specs for requiredness, nullability and (when no type
override suppresses it) a type hint; total, never fails. -/
def parseApiProperty (isReq isNul includeType : Bool) (typeName : String) :
    List IApiProperty :=
  (if isReq then [] else [⟨"required", "false", true⟩]) ++
  (if isNul then [⟨"nullable", "true", true⟩] else []) ++
  (if includeType then [⟨"type", typeName, false⟩] else [])

/-- Modelled from the spec: the validation-annotation builder.  It
synthesizes validator specs per field from its resolved requiredness and
declared type; total, never fails. -/
def parseClassValidators (isReq : Bool) (fieldType : String) :
    List IClassValidator :=
  (if isReq then [⟨"IsNotEmpty", none⟩] else [⟨"IsOptional", none⟩]) ++
  (if fieldType = "String" then [⟨"IsString", none⟩]
   else if fieldType = "Int" then [⟨"IsInt", none⟩]
   else if fieldType = "Boolean" then [⟨"IsBoolean", none⟩]
   else [])

/-- Modelled from the spec: client-module imports required by certain
scalar field types (an external collaborator concern, consulted but not
computed by the pipelines). -/
def makeImportsFromPrismaClient (fields : List ParsedField)
    (clientPath : String) : List ImportStatementParams :=
  if fields.any (fun p => decide (p.field.type = "Decimal")) then
    [⟨ImportSource.lib clientPath, [TypeName.raw "Prisma"]⟩]
  else []

/-- Append the names of `ns` to `ds`, skipping names already present
(duplicate-free union, stable order). -/
def addUniqueNames (ds ns : List TypeName) : List TypeName :=
  ns.foldl (fun acc n => if n ∈ acc then acc else acc ++ [n]) ds

/-- Modelled from the spec §4.7: the import canonicalizer.  One record per
distinct source, holding the duplicate-free stable-ordered union of the
requested names, insertion order preserved. -/
def zipStep (acc : List ImportStatementParams) (it : ImportStatementParams) :
    List ImportStatementParams :=
  if (acc.map (fun r => r.source)).contains it.source then
    acc.map (fun r =>
      if r.source = it.source then
        ⟨r.source, addUniqueNames r.destruct it.destruct⟩
      else r)
  else acc ++ [⟨it.source, addUniqueNames [] it.destruct⟩]

/-- Modelled from the spec §4.7: the import canonicalizer.  One record per
distinct source, holding the duplicate-free stable-ordered union of the
requested names, insertion order preserved. -/
def zipImportStatementParams (items : List ImportStatementParams) :
    List ImportStatementParams :=
  items.foldl zipStep []

/-- Modelled from the spec: concatUniqueIntoArray keyed on the validator
name — push each incoming spec unless a spec of the same name is present. -/
def concatUniqueByName (target source : List IClassValidator) :
    List IClassValidator :=
  source.foldl
    (fun acc s => if acc.any (fun t => decide (t.name = s.name)) then acc
                  else acc ++ [s])
    target

/-- Sorting of validator names, ascending (the source's Array.sort). -/
def sortStrings (l : List String) : List String :=
  l.insertionSort (fun a b => a ≤ b)

/-- Embedded from the pipeline sources: push a single-name cross-entity
record unless an import with the same name and source is already present
("don't double-import the same thing"). -/
def pushFieldImport (ims : List ImportStatementParams)
    (c : Option (ImportSource × TypeName)) : List ImportStatementParams :=
  match c with
  | none => ims
  | some (src, n) =>
      if ims.any (fun it => decide (n ∈ it.destruct) && decide (it.source = src))
      then ims
      else ims ++ [⟨src, [n]⟩]

/-- Embedded from the pipeline sources: the swagger import record built
after the fold from the three accumulated flags. -/
def swaggerImportRecord (hasXM hasApi hasResp : Bool) : ImportStatementParams :=
  ⟨ImportSource.lib "@nestjs/swagger",
   (if hasXM then [TypeName.raw "ApiExtraModels"] else []) ++
   (if hasApi then [TypeName.raw "ApiProperty"] else []) ++
   (if hasResp then [TypeName.raw "ApiResponseProperty"] else [])⟩

/-- Embedded from the Create/Update pipeline sources (identical blocks):
when any class validators were collected, unshift a class-transformer
Type record if a Type validator is present, then unshift the
class-validator record holding every collected name except Type, sorted. -/
def addClassValidatorImports (cv : List IClassValidator)
    (ims : List ImportStatementParams) : List ImportStatementParams :=
  if cv.length ≠ 0 then
    ⟨ImportSource.lib "class-validator",
      (sortStrings ((cv.filter (fun v => decide (v.name ≠ "Type"))).map
        (fun v => v.name))).map TypeName.raw⟩ ::
    (if cv.any (fun v => decide (v.name = "Type")) then
      ⟨ImportSource.lib "class-transformer", [TypeName.raw "Type"]⟩ :: ims
     else ims)
  else ims

/-! ## Relation input synthesizer (modelled from the spec §4.3) -/

/-- The error type of the core: the relation resolution failure.  The
source throws an Error whose message is built from exactly the owning
entity name, the owning field name and the missing target type name; the
message is represented structurally by these three components. -/
structure ResolutionError where
  model : String
  field : String
  target : String
deriving DecidableEq, Repr

/-- A permitted relation mutation mode. -/
inductive RelationMode
  | create
  | connect
  | update
deriving DecidableEq, Repr

/-- Modelled from the spec: the target artifact type referenced by one
enabled relation mutation mode. -/
def modeTypeName (m : RelationMode) (target : String) : TypeName :=
  match m with
  | .create => .createDto target
  | .connect => .connectDto target
  | .update => .updateDto target

/-- Modelled from the spec: the artifact file token referenced by one
enabled relation mutation mode (same naming convention as the class). -/
def modeFile (m : RelationMode) (target : String) : TypeName :=
  modeTypeName m target

/-- Result of the relation input synthesizer. -/
structure RelationInput where
  type : TypeRef
  imports : List ImportStatementParams
  generatedClasses : List TypeName
  apiExtraModels : List String
  classValidators : List IClassValidator
deriving DecidableEq, Repr

/-- Modelled from the spec: the mutation modes enabled on a relation field by the three permission
directives, in create/connect/update order. -/
def relationModes (f : Field) (canCreateAnn canConnectAnn canUpdateAnn : String) :
    List RelationMode :=
  (if isAnnotatedWith f canCreateAnn then [RelationMode.create] else []) ++
  (if isAnnotatedWith f canConnectAnn then [RelationMode.connect] else []) ++
  (if isAnnotatedWith f canUpdateAnn then [RelationMode.update] else [])

/-- Modelled from the spec: the import record needed to reference one enabled mode's target
artifact; a self-referential target contributes none (the spec invariant
that an entity never imports its own generated artifact). -/
def relationModeImport (model target : Model) (f : Field)
    (m : RelationMode) : Option ImportStatementParams :=
  if f.type = model.name then none
  else some ⟨ImportSource.rel model.output.dto target.output.dto
               (modeFile m f.type), [modeTypeName m f.type]⟩

/-- Modelled from the spec §4.3: the relation input synthesizer.  Resolves
the target entity by name in the full entity set and fails with a
resolution error carrying the owning entity and field names if absent (the
only failure condition of the core).  Determines the enabled mutation
modes from the three permission directives.  Exactly one enabled mode
collapses to a direct reference to that mode's target artifact type; any
other number of enabled modes synthesizes a composite nested-input class
that the caller must emit as an auxiliary generated type.  Imports are the
records needed to reference the per-mode target artifacts; per the spec
invariant that an entity never imports its own generated artifact, a
self-referential target contributes no import records.  When validation is
enabled the chosen shape implies a ValidateNested spec and a Type
coercion spec whose value is the thunked reference to the chosen type;
when documentation metadata is enabled the referenced artifact names are
reported as documentation extra models. -/
def buildRelationInput (model target : Model) (cfg : GeneratorConfig)
    (useCreateNaming : Bool)
    (canCreateAnn canConnectAnn canUpdateAnn : String) (f : Field) :
    RelationInput :=
  let modes := relationModes f canCreateAnn canConnectAnn canUpdateAnn
  let mkValidators : TypeName → List IClassValidator := fun tn =>
    if cfg.classValidation then
      [⟨"ValidateNested", none⟩, ⟨"Type", some ⟨true, tn⟩⟩]
    else []
  match modes with
  | [m] =>
      let tn := modeTypeName m f.type
      { type := ⟨false, tn⟩
        imports := modes.filterMap (relationModeImport model target f)
        generatedClasses := []
        apiExtraModels :=
          if !cfg.noDependencies then [tn.render] else []
        classValidators := mkValidators tn }
  | _ =>
      let cn := TypeName.relationInput model.name f.name useCreateNaming
      { type := ⟨false, cn⟩
        imports := modes.filterMap (relationModeImport model target f)
        generatedClasses := [cn]
        apiExtraModels :=
          if !cfg.noDependencies then
            modes.map (fun m => (modeTypeName m f.type).render)
          else []
        classValidators := mkValidators cn }

/-- The synthesizer entry point: resolve the target entity, fail with the
resolution error if absent, otherwise build the relation input shape. -/
def generateRelationInput (model : Model) (allModels : List Model)
    (cfg : GeneratorConfig) (useCreateNaming : Bool)
    (canCreateAnn canConnectAnn canUpdateAnn : String) (f : Field) :
    Except ResolutionError RelationInput :=
  match allModels.find? (fun m => decide (m.name = f.type)) with
  | none => .error ⟨model.name, f.name, f.type⟩
  | some target =>
      .ok (buildRelationInput model target cfg useCreateNaming
        canCreateAnn canConnectAnn canUpdateAnn f)

/-! ## Generic fold over fields with a fatal error

Each pipeline is a reduce over the entity's fields.  The per-field body is
split into a pure `process` function (field in, outcome or resolution
error out — the outcome depends only on the field, the entity, the full
entity set and the configuration) and an `apply` function merging the
outcome into the accumulated state.  This staging mirrors the source: every
early `return result` of the reduce body is an outcome with no parsed
field, and every `throw` is an error. -/

/-- One step of the staged fold. -/
def stepOf {σ ω ε α : Type} (process : α → Except ε ω) (apply : σ → ω → σ)
    (st : σ) (a : α) : Except ε σ :=
  match process a with
  | .error e => .error e
  | .ok o => .ok (apply st o)

/-- The reduce itself: thread the state through the list, aborting at the
first error. -/
def runFold {σ ε α : Type} (step : σ → α → Except ε σ) :
    σ → List α → Except ε σ
  | st, [] => .ok st
  | st, a :: as =>
    match step st a with
    | .error e => .error e
    | .ok st' => runFold step st' as

/-- The per-field contributions to a list-valued component of the state,
in field order (empty for fields whose processing failed). -/
def collectOuts {ω ε α β : Type} (process : α → Except ε ω)
    (out : ω → List β) (l : List α) : List β :=
  (l.map (fun a => match process a with
    | .ok o => out o
    | .error _ => [])).flatten

/-! ## Entity (read-model) pipeline, embedded from the source -/

/-- Per-field outcome of the Entity pipeline reduce body. -/
structure EntityOutcome where
  parsed : Option ParsedField
  mutated : Field
  fieldImport : Option (ImportSource × TypeName)
  unshiftType : Bool
  apiFlag : Bool
deriving DecidableEq, Repr

/-- Accumulated state of the Entity pipeline reduce. -/
structure EntityState where
  hasApiProperty : Bool
  imports : List ImportStatementParams
  apiExtraModels : List String
  fields : List ParsedField
  mutFields : List Field
deriving DecidableEq, Repr

/-- The Entity pipeline reduce body, embedded from the source.  A hidden
field is dropped; a nested-structured-type or relation field resolves its
target (raising the resolution error when the declared type is not the
entity's own name and is absent from the full entity set) and requests a
cross-entity import; a relation field overrides requiredness/nullability
from the relation-required directive; a tracked foreign-key scalar
overrides requiredness/nullability from its owning relations; the
documentation-annotation block runs unless dependencies are disabled; with
dependencies disabled the Json/Decimal type rewrite mutates the field.

This definition is the cross-entity import resolution of the reduce body
(the nested-structured-type and relation import branches of the source),
named separately so the reduce body below stays readable. -/
def entityFieldImport (model : Model) (allModels : List Model) (f0 : Field) :
    Except ResolutionError (Option (ImportSource × TypeName)) :=
  if isType f0 then
    if f0.type = model.name then .ok none
    else
      match allModels.find? (fun m => decide (m.name = f0.type)) with
      | none => .error ⟨model.name, f0.name, f0.type⟩
      | some target =>
          .ok (some (ImportSource.rel model.output.entity
                       target.output.dto (TypeName.plainDto f0.type),
                     TypeName.plainDto f0.type))
  else if isRelation f0 then
    if f0.type = model.name then .ok none
    else
      match allModels.find? (fun m => decide (m.name = f0.type)) with
      | none => .error ⟨model.name, f0.name, f0.type⟩
      | some target =>
          .ok (some (ImportSource.rel model.output.entity
                       target.output.entity (TypeName.entityRef f0.type),
                     TypeName.entityRef f0.type))
  else .ok none

/-- The Entity pipeline reduce body (see `entityFieldImport`). -/
def entityProcessField (model : Model) (allModels : List Model)
    (cfg : GeneratorConfig) (f0 : Field) :
    Except ResolutionError EntityOutcome :=
  let o0 : FieldOverrides :=
    { isRequired := some true, isNullable := some (!f0.isRequired) }
  if isAnnotatedWith f0 DTO_ENTITY_HIDDEN then
    .ok { parsed := none, mutated := f0, fieldImport := none,
          unshiftType := false, apiFlag := false }
  else
    match entityFieldImport model allModels f0 with
    | .error e => .error e
    | .ok fieldImport =>
      let o1 : FieldOverrides :=
        if isRelation f0 then
          { o0 with
            isRequired := some (isAnnotatedWith f0 DTO_RELATION_REQUIRED)
            isNullable := some
              (if f0.isList then false
               else if f0.isRequired then false
               else !isAnnotatedWith f0 DTO_RELATION_REQUIRED) }
        else o0
      let o2 : FieldOverrides :=
        if (relationScalarNames model.fields).contains f0.name then
          { o1 with
            isRequired := some true
            isNullable := some (!anyOwnerRequired model
              (ownersOf model.fields f0.name)) }
        else o1
      let simpleTypes : List String := ["String", "Json", "Boolean"]
      let api : List IApiProperty :=
        if !cfg.noDependencies then
          let props := parseApiProperty f0.isRequired (!f0.isRequired) true f0.type
          match PrismaScalarToFormat f0.type with
          | some _ => props
          | none =>
            let props := props ++
              [⟨"type",
                if simpleTypes.contains f0.type then f0.type
                else "() => " ++ f0.type, true⟩]
            if !simpleTypes.contains f0.type && f0.kind ≠ FieldKind.enum then
              props ++ [⟨"type_decorator", f0.type, true⟩]
            else props
        else []
      let unshiftType : Bool :=
        !cfg.noDependencies && (PrismaScalarToFormat f0.type).isNone &&
        !simpleTypes.contains f0.type && decide (f0.kind ≠ FieldKind.enum)
      let f1 : Field :=
        if cfg.noDependencies then
          if f0.type = "Json" then { f0 with type := "Object" }
          else if f0.type = "Decimal" then { f0 with type := "Float" }
          else f0
        else f0
      .ok { parsed := some (mapDMMFToParsedField f1 o2 api [])
            mutated := f1
            fieldImport := fieldImport
            unshiftType := unshiftType
            apiFlag := api.length ≠ 0 }

/-- Merge one Entity outcome into the accumulated state: the conditional
push of the cross-entity import, then the class-transformer Type unshift,
the parsed field appended, the mutated field recorded. -/
def applyEntity (st : EntityState) (o : EntityOutcome) : EntityState :=
  { hasApiProperty := st.hasApiProperty || o.apiFlag
    imports :=
      (if o.unshiftType then
        [⟨ImportSource.lib "class-transformer", [TypeName.raw "Type"]⟩]
       else []) ++ pushFieldImport st.imports o.fieldImport
    apiExtraModels := st.apiExtraModels
    fields := st.fields ++ o.parsed.toList
    mutFields := st.mutFields ++ [o.mutated] }

/-- The Entity pipeline reduce over all fields of the entity. -/
def entityFold (model : Model) (allModels : List Model)
    (cfg : GeneratorConfig) : Except ResolutionError EntityState :=
  runFold (stepOf (entityProcessField model allModels cfg) applyEntity)
    { hasApiProperty := false, imports := [], apiExtraModels := [],
      fields := [], mutFields := [] } model.fields

/-- The artifact parameter record returned for the Entity artifact. -/
structure EntityParams where
  model : Model
  fields : List ParsedField
  imports : List ImportStatementParams
  apiExtraModels : List String
deriving DecidableEq, Repr

/-- The Entity pipeline entry point, embedded from the source: run the
reduce, then unshift the swagger import when needed, the client-module
imports, and the foundational class-transformer Expose import, and
canonicalize. -/
def computeEntityParams (model : Model) (allModels : List Model)
    (cfg : GeneratorConfig) : Except ResolutionError EntityParams :=
  match entityFold model allModels cfg with
  | .error e => .error e
  | .ok st =>
    let imports1 :=
      if st.apiExtraModels.length ≠ 0 || st.hasApiProperty then
        ⟨ImportSource.lib "@nestjs/swagger",
         (if st.apiExtraModels.length ≠ 0 then [TypeName.raw "ApiExtraModels"]
          else []) ++
         (if st.hasApiProperty then [TypeName.raw "ApiProperty"] else [])⟩ ::
        st.imports
      else st.imports
    let importPrismaClient :=
      makeImportsFromPrismaClient st.fields cfg.prismaClientImportPath
    let imports2 :=
      (⟨ImportSource.lib "class-transformer", [TypeName.raw "Expose"]⟩ :
        ImportStatementParams) :: imports1
    .ok { model := model
          fields := st.fields
          imports := zipImportStatementParams (importPrismaClient ++ imports2)
          apiExtraModels := st.apiExtraModels }

/-! ## Create-input pipeline, embedded from the source -/

/-- Per-field outcome of the Create pipeline reduce body.  `relImports` are
the synthesizer imports appended unconditionally; `fieldImport` is the
conditional nested-structured-type import; `cvAdds` are the validator specs
merged (unique by name) into the accumulator, relation-derived specs first. -/
structure CreateOutcome where
  parsed : Option ParsedField
  mutated : Field
  relImports : List ImportStatementParams
  fieldImport : Option (ImportSource × TypeName)
  extraClasses : List TypeName
  apiExtraModels : List String
  cvAdds : List IClassValidator
  apiFlag : Bool
  apiRespFlag : Bool
deriving DecidableEq, Repr

/-- Accumulated state of the Create pipeline reduce. -/
structure CreateState where
  hasApiProperty : Bool
  hasApiRespProperty : Bool
  imports : List ImportStatementParams
  apiExtraModels : List String
  extraClasses : List TypeName
  classValidators : List IClassValidator
  fields : List ParsedField
  mutFields : List Field
deriving DecidableEq, Repr

/-- An outcome dropping the field with no side effects. -/
def dropCreate (f : Field) : CreateOutcome :=
  { parsed := none, mutated := f, relImports := [], fieldImport := none,
    extraClasses := [], apiExtraModels := [], cvAdds := [],
    apiFlag := false, apiRespFlag := false }

/-- The relation stage of the Create pipeline reduce body: the gate on
create-time modifier directives, the synthesizer call, and the split
between the composite branch (more than one import) and the direct branch
(coercion value stashed into type override and documentation).  Returns
none when the field is dropped by the gate; the tuple carries the possibly
doc-mutated field, the overrides so far, and the relation side effects. -/
def createRelationStage (model : Model) (allModels : List Model)
    (cfg : GeneratorConfig) (o0 : FieldOverrides) (f1 : Field) :
    Except ResolutionError
      (Option (Field × FieldOverrides × List ImportStatementParams ×
               List TypeName × List String × List IClassValidator)) :=
  if isRelation f1 then
    if !isAnnotatedWithOneOf f1 DTO_RELATION_MODIFIERS_ON_CREATE then
      .ok none
    else
      match generateRelationInput model allModels cfg true
          DTO_RELATION_CAN_CREATE_ON_CREATE
          DTO_RELATION_CAN_CONNECT_ON_CREATE
          DTO_RELATION_CAN_UPDATE_ON_UPDATE f1 with
      | .error e => .error e
      | .ok ri =>
        if ri.imports.length > 1 then
          let oA :=
            if isAnnotatedWith f1 DTO_RELATION_REQUIRED then
              { o0 with isRequired := some true }
            else o0
          let oB :=
            if f1.isList then { oA with isRequired := some false } else oA
          .ok (some (f1, { oB with type := some ri.type }, ri.imports,
                     ri.generatedClasses,
                     (if !cfg.noDependencies then ri.apiExtraModels
                      else []),
                     ri.classValidators))
        else
          match ri.classValidators.find?
              (fun cv => decide (cv.name = "Type")) with
          | some cv =>
            match cv.value with
            | some v =>
              .ok (some ({ f1 with documentation :=
                             f1.documentation ++ "\n%" ++
                             TypeRef.render { v with isThunk := false } ++
                             "%" },
                         { o0 with type := some v }, ri.imports,
                         [], [], []))
            | none => .ok (some (f1, o0, ri.imports, [], [], []))
          | none => .ok (some (f1, o0, ri.imports, [], [], []))
  else .ok (some (f1, o0, [], [], [], []))

/-- The nested-structured-type import resolution of the Create pipeline. -/
def createTypeImport (model : Model) (allModels : List Model) (f2 : Field) :
    Except ResolutionError (Option (ImportSource × TypeName)) :=
  if isType f2 then
    if f2.type = model.name then .ok none
    else
      match allModels.find? (fun m => decide (m.name = f2.type)) with
      | none => .error ⟨model.name, f2.name, f2.type⟩
      | some target =>
          .ok (some (ImportSource.rel model.output.dto
                       target.output.dto (TypeName.createDto f2.type),
                     TypeName.createDto f2.type))
  else .ok none

/-- The Create pipeline reduce body, embedded from the source.  In order:
the relation-include-identifier rewrite clears the read-only flag of a
tracked foreign-key scalar (mutating the shared field record); hidden and
read-only fields are dropped; a relation field without a create-time
modifier directive is dropped, otherwise the relation input synthesizer
runs (its resolution failure aborts) and either the composite branch
(more than one import) sets the type override and forces list fields
non-required, or the direct branch stashes a reported coercion value into
the type override and the field's documentation; tracked foreign-key
scalars without the include-identifier directive are dropped (keeping the
already-collected relation side effects); identifier-with-default,
auto-timestamp and required-with-default fields are dropped unless
create-optional is present, which instead forces non-required; a
nested-structured-type field resolves its target and requests an import;
validator and documentation specs are attached per configuration; with
dependencies disabled the Json/Decimal rewrite mutates the field. -/
def createProcessRest (model : Model) (allModels : List Model)
    (cfg : GeneratorConfig) (f1 : Field) :
    Except ResolutionError CreateOutcome :=
  let fkNames := relationScalarNames model.fields
  let o0 : FieldOverrides := { createApiResp := some false }
  if isAnnotatedWith f1 DTO_CREATE_HIDDEN then .ok (dropCreate f1)
  else if isReadOnly f1 then .ok (dropCreate f1)
  else
    match createRelationStage model allModels cfg o0 f1 with
    | .error e => .error e
    | .ok none => .ok (dropCreate f1)
    | .ok (some (f2, o1, relImports, genCls, xm, cvRel)) =>
      if !isAnnotatedWith f2 DTO_RELATION_INCLUDE_ID &&
          fkNames.contains f2.name then
        .ok { (dropCreate f2) with
                relImports := relImports, extraClasses := genCls,
                apiExtraModels := xm, cvAdds := cvRel }
      else
        let isDtoOptional := isAnnotatedWith f2 DTO_CREATE_OPTIONAL
        if !isDtoOptional &&
            (isIdWithDefaultValue f2 || isUpdatedAt f2 ||
             isRequiredWithDefaultValue f2) then
          .ok { (dropCreate f2) with
                  relImports := relImports, extraClasses := genCls,
                  apiExtraModels := xm, cvAdds := cvRel }
        else
          let o2 :=
            if isDtoOptional then { o1 with isRequired := some false } else o1
          match createTypeImport model allModels f2 with
          | .error e => .error e
          | .ok fieldImport =>
            let cvField :=
              if cfg.classValidation then
                parseClassValidators (o2.isRequired.getD f2.isRequired) f2.type
              else []
            let o3 :=
              if !cfg.noDependencies then
                { o2 with
                    createApiResp :=
                      some (isAnnotatedWith f2 DTO_CREATE_API_RESP) }
              else o2
            let api : List IApiProperty :=
              if !cfg.noDependencies then
                parseApiProperty f2.isRequired false o3.type.isNone f2.type ++
                (if f2.isList then [⟨"isArray", "true", false⟩] else []) ++
                (match o3.type with
                 | some v => [⟨"type", v.render, true⟩]
                 | none => [])
              else []
            let f3 : Field :=
              if cfg.noDependencies then
                if f2.type = "Json" then { f2 with type := "Object" }
                else if f2.type = "Decimal" then { f2 with type := "Float" }
                else f2
              else f2
            .ok { parsed := some (mapDMMFToParsedField f3 o3 api cvField)
                  mutated := f3
                  relImports := relImports
                  fieldImport := fieldImport
                  extraClasses := genCls
                  apiExtraModels := xm
                  cvAdds := cvRel ++ cvField
                  apiFlag := api.length ≠ 0
                  apiRespFlag :=
                    !cfg.noDependencies &&
                    isAnnotatedWith f2 DTO_CREATE_API_RESP }

/-- The relation-include-identifier rewrite shared by the Create and
Update pipelines: clear the read-only flag of a tracked foreign-key scalar
carrying the directive (an in-place mutation of the shared field record in
the source). -/
def rewriteIncludeId (model : Model) (f0 : Field) : Field :=
  if isAnnotatedWith f0 DTO_RELATION_INCLUDE_ID &&
      (relationScalarNames model.fields).contains f0.name
  then { f0 with isReadOnly := false } else f0

/-- The Create pipeline reduce body: the relation-include-identifier
rewrite, then the rest of the body on the rewritten field. -/
def createProcessField (model : Model) (allModels : List Model)
    (cfg : GeneratorConfig) (f0 : Field) :
    Except ResolutionError CreateOutcome :=
  createProcessRest model allModels cfg (rewriteIncludeId model f0)

/-- Merge one Create outcome into the accumulated state. -/
def applyCreate (st : CreateState) (o : CreateOutcome) : CreateState :=
  { hasApiProperty := st.hasApiProperty || o.apiFlag
    hasApiRespProperty := st.hasApiRespProperty || o.apiRespFlag
    imports := pushFieldImport (st.imports ++ o.relImports) o.fieldImport
    apiExtraModels := st.apiExtraModels ++ o.apiExtraModels
    extraClasses := st.extraClasses ++ o.extraClasses
    classValidators := concatUniqueByName st.classValidators o.cvAdds
    fields := st.fields ++ o.parsed.toList
    mutFields := st.mutFields ++ [o.mutated] }

/-- The Create pipeline reduce over all fields of the entity. -/
def createFold (model : Model) (allModels : List Model)
    (cfg : GeneratorConfig) : Except ResolutionError CreateState :=
  runFold (stepOf (createProcessField model allModels cfg) applyCreate)
    { hasApiProperty := false, hasApiRespProperty := false, imports := [],
      apiExtraModels := [], extraClasses := [], classValidators := [],
      fields := [], mutFields := [] } model.fields

/-- The artifact parameter record returned for the Create artifact. -/
structure CreateDtoParams where
  model : Model
  fields : List ParsedField
  imports : List ImportStatementParams
  extraClasses : List TypeName
  apiExtraModels : List String
deriving DecidableEq, Repr

/-- The Create pipeline entry point, embedded from the source: run the
reduce, unshift the swagger import when needed, then the validator-library
imports, then prepend the client-module imports and canonicalize. -/
def computeCreateDtoParams (model : Model) (allModels : List Model)
    (cfg : GeneratorConfig) : Except ResolutionError CreateDtoParams :=
  match createFold model allModels cfg with
  | .error e => .error e
  | .ok st =>
    let imports1 :=
      if st.apiExtraModels.length ≠ 0 || st.hasApiProperty ||
          st.hasApiRespProperty then
        swaggerImportRecord (st.apiExtraModels.length ≠ 0) st.hasApiProperty
          st.hasApiRespProperty :: st.imports
      else st.imports
    let imports2 := addClassValidatorImports st.classValidators imports1
    let importPrismaClient :=
      makeImportsFromPrismaClient st.fields cfg.prismaClientImportPath
    .ok { model := model
          fields := st.fields
          imports := zipImportStatementParams (importPrismaClient ++ imports2)
          extraClasses := st.extraClasses
          apiExtraModels := st.apiExtraModels }

/-! ## Update-input pipeline, embedded from the source -/

/-- Per-field outcome of the Update pipeline reduce body. -/
structure UpdateOutcome where
  parsed : Option ParsedField
  mutated : Field
  relImports : List ImportStatementParams
  fieldImport : Option (ImportSource × TypeName)
  extraClasses : List TypeName
  apiExtraModels : List String
  cvAdds : List IClassValidator
  apiFlag : Bool
  apiRespFlag : Bool
deriving DecidableEq, Repr

/-- Accumulated state of the Update pipeline reduce. -/
structure UpdateState where
  hasApiProperty : Bool
  hasApiRespProperty : Bool
  imports : List ImportStatementParams
  apiExtraModels : List String
  extraClasses : List TypeName
  classValidators : List IClassValidator
  fields : List ParsedField
  mutFields : List Field
deriving DecidableEq, Repr

/-- An outcome dropping the field with no side effects. -/
def dropUpdate (f : Field) : UpdateOutcome :=
  { parsed := none, mutated := f, relImports := [], fieldImport := none,
    extraClasses := [], apiExtraModels := [], cvAdds := [],
    apiFlag := false, apiRespFlag := false }

/-- The relation stage of the Update pipeline reduce body: the gate on
update-time modifier directives and the synthesizer call; a surviving
relation field always collapses to a direct reference. -/
def updateRelationStage (model : Model) (allModels : List Model)
    (cfg : GeneratorConfig) (o0 : FieldOverrides) (f1 : Field) :
    Except ResolutionError
      (Option (FieldOverrides × List ImportStatementParams ×
               List TypeName × List String × List IClassValidator)) :=
  if isRelation f1 then
    if !isAnnotatedWithOneOf f1 DTO_RELATION_MODIFIERS_ON_UPDATE then
      .ok none
    else
      match generateRelationInput model allModels cfg false
          DTO_RELATION_CAN_CREATE_ON_UPDATE
          DTO_RELATION_CAN_CONNECT_ON_UPDATE
          DTO_RELATION_CAN_UPDATE_ON_UPDATE f1 with
      | .error e => .error e
      | .ok ri =>
        .ok (some ({ o0 with
                       type := some ri.type, isList := some false,
                       isNullable := some false },
                   ri.imports, ri.generatedClasses,
                   (if !cfg.noDependencies then ri.apiExtraModels else []),
                   ri.classValidators))
  else .ok (some (o0, [], [], [], []))

/-- The nested-structured-type import resolution of the Update pipeline:
full-update-on-update selects the create-artifact naming. -/
def updateTypeImport (model : Model) (allModels : List Model)
    (doFullUpdate : Bool) (f1 : Field) :
    Except ResolutionError (Option (ImportSource × TypeName)) :=
  if isType f1 then
    if f1.type = model.name then .ok none
    else
      match allModels.find? (fun m => decide (m.name = f1.type)) with
      | none => .error ⟨model.name, f1.name, f1.type⟩
      | some target =>
          .ok (some (ImportSource.rel model.output.dto
                       target.output.dto
                       (if doFullUpdate then TypeName.createDto f1.type
                        else TypeName.updateDto f1.type),
                     (if doFullUpdate then TypeName.createDto f1.type
                      else TypeName.updateDto f1.type)))
  else .ok none

/-- The Update pipeline reduce body, embedded from the source.  Like the
Create body with inverted defaults (base requiredness false, nullability
the negation of declared requiredness): the include-identifier rewrite,
then hidden/read-only drops, then the relation gate on update-time
modifiers; a surviving relation field always collapses to a direct
reference (type override set, list-ness and nullability forced off);
tracked foreign-key scalars without include-identifier are dropped;
identifier, auto-timestamp and required-with-default fields are dropped
unless update-optional; a nested-structured-type field resolves its target
using the create-artifact naming when full-update-on-update is present,
else the update-artifact naming. -/
def updateProcessRest (model : Model) (allModels : List Model)
    (cfg : GeneratorConfig) (f1 : Field) :
    Except ResolutionError UpdateOutcome :=
  let fkNames := relationScalarNames model.fields
  let o0 : FieldOverrides :=
    { isRequired := some false, isNullable := some (!f1.isRequired),
      updateApiResp := some false }
  if isAnnotatedWith f1 DTO_UPDATE_HIDDEN then .ok (dropUpdate f1)
  else if isReadOnly f1 then .ok (dropUpdate f1)
  else
    match updateRelationStage model allModels cfg o0 f1 with
    | .error e => .error e
    | .ok none => .ok (dropUpdate f1)
    | .ok (some (o1, relImports, genCls, xm, cvRel)) =>
      if !isAnnotatedWith f1 DTO_RELATION_INCLUDE_ID &&
          fkNames.contains f1.name then
        .ok { (dropUpdate f1) with
                relImports := relImports, extraClasses := genCls,
                apiExtraModels := xm, cvAdds := cvRel }
      else
        let isDtoOptional := isAnnotatedWith f1 DTO_UPDATE_OPTIONAL
        let doFullUpdate := isAnnotatedWith f1 DTO_TYPE_FULL_UPDATE
        if !isDtoOptional &&
            (isId f1 || isUpdatedAt f1 || isRequiredWithDefaultValue f1) then
          .ok { (dropUpdate f1) with
                  relImports := relImports, extraClasses := genCls,
                  apiExtraModels := xm, cvAdds := cvRel }
        else
          match updateTypeImport model allModels doFullUpdate f1 with
          | .error e => .error e
          | .ok fieldImport =>
            let cvField :=
              if cfg.classValidation then
                parseClassValidators (o1.isRequired.getD f1.isRequired) f1.type
              else []
            let o3 :=
              if !cfg.noDependencies then
                { o1 with
                    updateApiResp :=
                      some (isAnnotatedWith f1 DTO_UPDATE_API_RESP) }
              else o1
            let api : List IApiProperty :=
              if !cfg.noDependencies then
                parseApiProperty (o3.isRequired.getD f1.isRequired)
                  (!f1.isRequired) o3.type.isNone f1.type ++
                (match o3.type with
                 | some v => [⟨"type", v.render, true⟩]
                 | none => [])
              else []
            let f3 : Field :=
              if cfg.noDependencies then
                if f1.type = "Json" then { f1 with type := "Object" }
                else if f1.type = "Decimal" then { f1 with type := "Float" }
                else f1
              else f1
            .ok { parsed := some (mapDMMFToParsedField f3 o3 api cvField)
                  mutated := f3
                  relImports := relImports
                  fieldImport := fieldImport
                  extraClasses := genCls
                  apiExtraModels := xm
                  cvAdds := cvRel ++ cvField
                  apiFlag := api.length ≠ 0
                  apiRespFlag :=
                    !cfg.noDependencies &&
                    isAnnotatedWith f1 DTO_UPDATE_API_RESP }

/-- The Update pipeline reduce body: the relation-include-identifier
rewrite, then the rest of the body on the rewritten field.  The base
override record reads the schema requiredness of the incoming field, which
the rewrite does not touch. -/
def updateProcessField (model : Model) (allModels : List Model)
    (cfg : GeneratorConfig) (f0 : Field) :
    Except ResolutionError UpdateOutcome :=
  updateProcessRest model allModels cfg (rewriteIncludeId model f0)

/-- Merge one Update outcome into the accumulated state. -/
def applyUpdate (st : UpdateState) (o : UpdateOutcome) : UpdateState :=
  { hasApiProperty := st.hasApiProperty || o.apiFlag
    hasApiRespProperty := st.hasApiRespProperty || o.apiRespFlag
    imports := pushFieldImport (st.imports ++ o.relImports) o.fieldImport
    apiExtraModels := st.apiExtraModels ++ o.apiExtraModels
    extraClasses := st.extraClasses ++ o.extraClasses
    classValidators := concatUniqueByName st.classValidators o.cvAdds
    fields := st.fields ++ o.parsed.toList
    mutFields := st.mutFields ++ [o.mutated] }

/-- The Update pipeline reduce over all fields of the entity. -/
def updateFold (model : Model) (allModels : List Model)
    (cfg : GeneratorConfig) : Except ResolutionError UpdateState :=
  runFold (stepOf (updateProcessField model allModels cfg) applyUpdate)
    { hasApiProperty := false, hasApiRespProperty := false, imports := [],
      apiExtraModels := [], extraClasses := [], classValidators := [],
      fields := [], mutFields := [] } model.fields

/-- The artifact parameter record returned for the Update artifact. -/
structure UpdateDtoParams where
  model : Model
  fields : List ParsedField
  imports : List ImportStatementParams
  extraClasses : List TypeName
  apiExtraModels : List String
deriving DecidableEq, Repr

/-- The Update pipeline entry point, embedded from the source. -/
def computeUpdateDtoParams (model : Model) (allModels : List Model)
    (cfg : GeneratorConfig) : Except ResolutionError UpdateDtoParams :=
  match updateFold model allModels cfg with
  | .error e => .error e
  | .ok st =>
    let imports1 :=
      if st.apiExtraModels.length ≠ 0 || st.hasApiProperty ||
          st.hasApiRespProperty then
        swaggerImportRecord (st.apiExtraModels.length ≠ 0) st.hasApiProperty
          st.hasApiRespProperty :: st.imports
      else st.imports
    let imports2 := addClassValidatorImports st.classValidators imports1
    let importPrismaClient :=
      makeImportsFromPrismaClient st.fields cfg.prismaClientImportPath
    .ok { model := model
          fields := st.fields
          imports := zipImportStatementParams (importPrismaClient ++ imports2)
          extraClasses := st.extraClasses
          apiExtraModels := st.apiExtraModels }

/-! ## Claim-level predicates -/

/-- The resolution-failure condition of the Entity pipeline, read off the
claim: a processed (non-hidden) relation or nested-structured-type field
whose declared type differs from the owning entity's own name and is
absent from the full entity set. -/
def entityResolutionFails (model : Model) (allModels : List Model)
    (f : Field) : Bool :=
  !isAnnotatedWith f DTO_ENTITY_HIDDEN && (isType f || isRelation f) &&
  decide (f.type ≠ model.name) &&
  (allModels.find? (fun m => decide (m.name = f.type))).isNone

/-- Read-only flag of a field as seen by the Create/Update pipelines after
the relation-include-identifier rewrite. -/
def readOnlyAfterRewrite (model : Model) (f : Field) : Bool :=
  if isAnnotatedWith f DTO_RELATION_INCLUDE_ID &&
      (relationScalarNames model.fields).contains f.name then false
  else f.isReadOnly

/-- Does a field reach the type-resolution point of the Create pipeline:
not hidden, not read-only after the rewrite, and either a relation field
carrying a create-time modifier, or a nested-structured-type field
surviving the foreign-key-scalar and default-classification drops. -/
def createProcessedAtResolution (model : Model) (f : Field) : Bool :=
  !isAnnotatedWith f DTO_CREATE_HIDDEN && !readOnlyAfterRewrite model f &&
  ((isRelation f && isAnnotatedWithOneOf f DTO_RELATION_MODIFIERS_ON_CREATE) ||
   (isType f &&
    (isAnnotatedWith f DTO_RELATION_INCLUDE_ID ||
     !(relationScalarNames model.fields).contains f.name) &&
    (isAnnotatedWith f DTO_CREATE_OPTIONAL ||
     !(isIdWithDefaultValue f || isUpdatedAt f ||
       isRequiredWithDefaultValue f))))

/-- The resolution-failure condition of the Create pipeline, read off the
claim: a processed relation or nested-structured-type field whose declared
type differs from the entity's own name and is absent from the set. -/
def createResolutionFails (model : Model) (allModels : List Model)
    (f : Field) : Bool :=
  createProcessedAtResolution model f && decide (f.type ≠ model.name) &&
  (allModels.find? (fun m => decide (m.name = f.type))).isNone

/-- Does a field reach the type-resolution point of the Update pipeline. -/
def updateProcessedAtResolution (model : Model) (f : Field) : Bool :=
  !isAnnotatedWith f DTO_UPDATE_HIDDEN && !readOnlyAfterRewrite model f &&
  ((isRelation f && isAnnotatedWithOneOf f DTO_RELATION_MODIFIERS_ON_UPDATE) ||
   (isType f &&
    (isAnnotatedWith f DTO_RELATION_INCLUDE_ID ||
     !(relationScalarNames model.fields).contains f.name) &&
    (isAnnotatedWith f DTO_UPDATE_OPTIONAL ||
     !(isId f || isUpdatedAt f || isRequiredWithDefaultValue f))))

/-- The resolution-failure condition of the Update pipeline. -/
def updateResolutionFails (model : Model) (allModels : List Model)
    (f : Field) : Bool :=
  updateProcessedAtResolution model f && decide (f.type ≠ model.name) &&
  (allModels.find? (fun m => decide (m.name = f.type))).isNone

/-- Is the name an artifact name generated for the given entity name (any
of the five artifact naming conventions applied to it)? -/
def isArtifactNameOf (t : String) (n : TypeName) : Prop :=
  n = TypeName.plainDto t ∨ n = TypeName.entityRef t ∨
  n = TypeName.createDto t ∨ n = TypeName.updateDto t ∨
  n = TypeName.connectDto t

instance (t : String) (n : TypeName) : Decidable (isArtifactNameOf t n) := by
  unfold isArtifactNameOf; infer_instance

/-! ## Concrete schemas used by the witnesses and counterexamples -/

/-- A field with every flag off; concrete fields are built by updating it. -/
def baseField (n t : String) (k : FieldKind) : Field :=
  { name := n, type := t, kind := k, isList := false, isRequired := false,
    isReadOnly := false, hasDefaultValue := false, isId := false,
    isUpdatedAt := false, documentation := "", anns := [],
    relationFromFields := [] }

def cfgPlain : GeneratorConfig :=
  { noDependencies := true, classValidation := false,
    prismaClientImportPath := "@prisma/client" }

def cfgValid : GeneratorConfig :=
  { noDependencies := true, classValidation := true,
    prismaClientImportPath := "@prisma/client" }

def outAuthor : ModelOutputPaths :=
  { entity := "src/author/entities", dto := "src/author/dto" }

def outBook : ModelOutputPaths :=
  { entity := "src/book/entities", dto := "src/book/dto" }

def bookModel : Model :=
  { name := "Book"
    fields := [{ baseField "id" "Int" FieldKind.scalar with
                   isRequired := true, isId := true, hasDefaultValue := true }]
    output := outBook }

def authorNameField : Field :=
  { baseField "name" "String" FieldKind.scalar with isRequired := true }

def authorBookIdField : Field :=
  { baseField "bookId" "Int" FieldKind.scalar with
      isRequired := true, isReadOnly := true }

def authorBookField : Field :=
  { baseField "book" "Book" FieldKind.relation with
      isRequired := true, relationFromFields := ["bookId"] }

def authorBooksField : Field :=
  { baseField "books" "Book" FieldKind.relation with
      isList := true
      anns := [DTO_RELATION_CAN_CREATE_ON_CREATE,
               DTO_RELATION_CAN_CONNECT_ON_CREATE,
               DTO_RELATION_REQUIRED,
               DTO_RELATION_CAN_CREATE_ON_UPDATE,
               DTO_RELATION_CAN_CONNECT_ON_UPDATE] }

/-- An author with a required relation tracked by a foreign-key scalar and
a list relation carrying both create-time and update-time modifiers. -/
def authorModel : Model :=
  { name := "Author"
    fields := [authorNameField, authorBookIdField, authorBookField,
               authorBooksField]
    output := outAuthor }

def authorBookModels : List Model := [authorModel, bookModel]

/-- An entity with a nested-structured-type field whose target is missing
from the entity set. -/
def writerModel : Model :=
  { name := "Writer"
    fields := [{ baseField "profile" "Ghost" FieldKind.typ with
                   isRequired := true }]
    output := outAuthor }

/-- An entity with a self-referential relation permitted to connect. -/
def catModel : Model :=
  { name := "Cat"
    fields := [{ baseField "parent" "Cat" FieldKind.relation with
                   anns := [DTO_RELATION_CAN_CONNECT_ON_CREATE,
                            DTO_RELATION_CAN_CONNECT_ON_UPDATE] }]
    output := outAuthor }

/-- A read-only tracked foreign-key scalar carrying the
relation-include-identifier directive, plus its owning relation (which
carries no modifier directives and is therefore dropped by the input
pipelines before resolution). -/
def postModel : Model :=
  { name := "Post"
    fields :=
      [{ baseField "authorId" "Int" FieldKind.scalar with
           isReadOnly := true, anns := [DTO_RELATION_INCLUDE_ID] },
       { baseField "author" "Person" FieldKind.relation with
           relationFromFields := ["authorId"] }]
    output := outAuthor }

/-- An auto-timestamp field annotated both create-optional and
hidden-from-create. -/
def eventModel : Model :=
  { name := "Event"
    fields := [{ baseField "createdAt" "DateTime" FieldKind.scalar with
                   isUpdatedAt := true
                   anns := [DTO_CREATE_OPTIONAL, DTO_CREATE_HIDDEN] }]
    output := outAuthor }

/-- A relation field with exactly one enabled mode (connect on create). -/
def paperModel : Model :=
  { name := "Paper"
    fields := [{ baseField "book" "Book" FieldKind.relation with
                   anns := [DTO_RELATION_CAN_CONNECT_ON_CREATE] }]
    output := outAuthor }

def paperBookModels : List Model := [paperModel, bookModel]

/-- An entity with an identifier-with-default field (no directives) and an
auto-timestamp field carrying create-optional. -/
def logModel : Model :=
  { name := "Log"
    fields :=
      [{ baseField "id" "Int" FieldKind.scalar with
           isId := true, hasDefaultValue := true, isRequired := true },
       { baseField "createdAt" "DateTime" FieldKind.scalar with
           isUpdatedAt := true, anns := [DTO_CREATE_OPTIONAL] }]
    output := outAuthor }

/-! # Proofs

## Generic lemmas about the staged fold -/

theorem runFold_nil {σ ε α : Type} (step : σ → α → Except ε σ) (st : σ) :
    runFold step st [] = .ok st := rfl

theorem runFold_cons {σ ε α : Type} (step : σ → α → Except ε σ) (st : σ)
    (a : α) (as : List α) :
    runFold step st (a :: as) =
      match step st a with
      | .error e => .error e
      | .ok st' => runFold step st' as := rfl

theorem stepOf_eq {σ ω ε α : Type} (process : α → Except ε ω)
    (apply : σ → ω → σ) (st : σ) (a : α) :
    stepOf process apply st a =
      match process a with
      | .error e => .error e
      | .ok o => .ok (apply st o) := rfl

/-- The staged fold fails exactly when the per-field processing of some
field of the list fails. -/
theorem runFold_stepOf_error_iff {σ ω ε α : Type}
    (process : α → Except ε ω) (apply : σ → ω → σ) (st : σ) (l : List α) :
    (∃ e, runFold (stepOf process apply) st l = .error e) ↔
      ∃ a ∈ l, ∃ e, process a = .error e := by
  induction l generalizing st with
  | nil => simp [runFold]
  | cons a as ih =>
    cases h : process a with
    | error e =>
      refine ⟨fun _ => ⟨a, by simp, e, h⟩, fun _ => ?_⟩
      rw [runFold_cons, stepOf_eq, h]
      exact ⟨e, rfl⟩
    | ok o =>
      simp only [runFold_cons, stepOf_eq, h, ih]
      constructor
      · rintro ⟨b, hb, hbe⟩; exact ⟨b, by simp [hb], hbe⟩
      · rintro ⟨b, hb, e, hbe⟩
        rcases List.mem_cons.mp hb with rfl | hb
        · rw [h] at hbe; cases hbe
        · exact ⟨b, hb, e, hbe⟩

/-- Any error the staged fold returns is the error of the processing of
some field of the list. -/
theorem runFold_stepOf_error_mem {σ ω ε α : Type}
    (process : α → Except ε ω) (apply : σ → ω → σ) (st : σ) (l : List α)
    (e : ε) (h : runFold (stepOf process apply) st l = .error e) :
    ∃ a ∈ l, process a = .error e := by
  induction l generalizing st with
  | nil => simp [runFold] at h
  | cons a as ih =>
    rw [runFold_cons, stepOf_eq] at h
    cases hp : process a with
    | error e' =>
      rw [hp] at h
      cases h
      exact ⟨a, by simp, hp⟩
    | ok o =>
      rw [hp] at h
      obtain ⟨b, hb, hbe⟩ := ih _ h
      exact ⟨b, by simp [hb], hbe⟩

/-- When the staged fold succeeds, every field of the list was processed
successfully. -/
theorem runFold_stepOf_ok {σ ω ε α : Type}
    (process : α → Except ε ω) (apply : σ → ω → σ) (st st' : σ) (l : List α)
    (h : runFold (stepOf process apply) st l = .ok st') :
    ∀ a ∈ l, ∃ o, process a = .ok o := by
  induction l generalizing st with
  | nil => simp
  | cons a as ih =>
    rw [runFold_cons, stepOf_eq] at h
    cases hp : process a with
    | error e' => rw [hp] at h; cases h
    | ok o =>
      rw [hp] at h
      intro b hb
      rcases List.mem_cons.mp hb with rfl | hb
      · exact ⟨o, hp⟩
      · exact ih _ h b hb

/-- A list-valued component of the state that every application extends by
the outcome's contribution equals, after a successful fold, the initial
component followed by the per-field contributions in field order. -/
theorem runFold_stepOf_proj {σ ω ε α β : Type}
    (process : α → Except ε ω) (apply : σ → ω → σ)
    (proj : σ → List β) (out : ω → List β)
    (happly : ∀ st o, proj (apply st o) = proj st ++ out o)
    (st st' : σ) (l : List α)
    (h : runFold (stepOf process apply) st l = .ok st') :
    proj st' = proj st ++ collectOuts process out l := by
  induction l generalizing st with
  | nil =>
    rw [runFold_nil] at h
    cases h
    simp [collectOuts]
  | cons a as ih =>
    rw [runFold_cons, stepOf_eq] at h
    cases hp : process a with
    | error e' => rw [hp] at h; cases h
    | ok o =>
      rw [hp] at h
      rw [ih _ h, happly, List.append_assoc]
      simp [collectOuts, hp]

/-- Membership in a per-field contribution implies membership in the
collected contributions. -/
theorem collectOuts_mem_of {ω ε α β : Type}
    (process : α → Except ε ω) (out : ω → List β) (l : List α)
    (a : α) (ha : a ∈ l) (o : ω) (ho : process a = .ok o)
    (b : β) (hb : b ∈ out o) : b ∈ collectOuts process out l := by
  unfold collectOuts
  rw [List.mem_flatten]
  refine ⟨out o, ?_, hb⟩
  rw [List.mem_map]
  exact ⟨a, ha, by rw [ho]⟩

/-- Every collected contribution comes from the successful processing of
some field of the list. -/
theorem collectOuts_mem {ω ε α β : Type}
    (process : α → Except ε ω) (out : ω → List β) (l : List α)
    (b : β) (hb : b ∈ collectOuts process out l) :
    ∃ a ∈ l, ∃ o, process a = .ok o ∧ b ∈ out o := by
  unfold collectOuts at hb
  rw [List.mem_flatten] at hb
  obtain ⟨c, hc, hbc⟩ := hb
  rw [List.mem_map] at hc
  obtain ⟨a, ha, hac⟩ := hc
  refine ⟨a, ha, ?_⟩
  cases hp : process a with
  | error e => rw [hp] at hac; subst hac; cases hbc
  | ok o => rw [hp] at hac; subst hac; exact ⟨o, rfl, hbc⟩

/-- Any member of a monotone list-valued component of the final state is
either initial or contributed by the outcome of some field of the list. -/
theorem runFold_stepOf_mem {σ ω ε α β : Type}
    (process : α → Except ε ω) (apply : σ → ω → σ)
    (proj : σ → List β) (cand : ω → List β)
    (happly : ∀ st o b, b ∈ proj (apply st o) → b ∈ proj st ∨ b ∈ cand o)
    (st st' : σ) (l : List α)
    (h : runFold (stepOf process apply) st l = .ok st') :
    ∀ b ∈ proj st', b ∈ proj st ∨ ∃ a ∈ l, ∃ o, process a = .ok o ∧ b ∈ cand o := by
  induction l generalizing st with
  | nil =>
    rw [runFold_nil] at h
    cases h
    exact fun b hb => Or.inl hb
  | cons a as ih =>
    rw [runFold_cons, stepOf_eq] at h
    cases hp : process a with
    | error e' => rw [hp] at h; cases h
    | ok o =>
      rw [hp] at h
      intro b hb
      rcases ih _ h b hb with hb' | ⟨c, hc, o', ho', hbo'⟩
      · rcases happly st o b hb' with hb'' | hb''
        · exact Or.inl hb''
        · exact Or.inr ⟨a, by simp, o, hp, hb''⟩
      · exact Or.inr ⟨c, by simp [hc], o', ho', hbo'⟩

/-- An invariant preserved by every application holds of the final state of
a successful fold. -/
theorem runFold_stepOf_inv {σ ω ε α : Type}
    (process : α → Except ε ω) (apply : σ → ω → σ)
    (Inv : σ → Prop)
    (happly : ∀ st o, Inv st → Inv (apply st o))
    (st st' : σ) (l : List α)
    (h : runFold (stepOf process apply) st l = .ok st') (h0 : Inv st) :
    Inv st' := by
  induction l generalizing st with
  | nil => rw [runFold_nil] at h; cases h; exact h0
  | cons a as ih =>
    rw [runFold_cons, stepOf_eq] at h
    cases hp : process a with
    | error e' => rw [hp] at h; cases h
    | ok o =>
      rw [hp] at h
      exact ih _ h (happly st o h0)

/-! ## Lemmas about the import and validator helpers -/

theorem addUniqueNames_cons (ds : List TypeName) (m : TypeName)
    (ms : List TypeName) :
    addUniqueNames ds (m :: ms) =
      addUniqueNames (if m ∈ ds then ds else ds ++ [m]) ms := rfl

theorem mem_addUniqueNames {n : TypeName} (ds ns : List TypeName) :
    n ∈ addUniqueNames ds ns ↔ n ∈ ds ∨ n ∈ ns := by
  induction ns generalizing ds with
  | nil => simp [addUniqueNames]
  | cons m ms ih =>
    rw [addUniqueNames_cons, ih]
    by_cases hm : m ∈ ds
    · rw [if_pos hm]
      simp only [List.mem_cons]
      constructor
      · rintro (h | h)
        · exact Or.inl h
        · exact Or.inr (Or.inr h)
      · rintro (h | rfl | h)
        · exact Or.inl h
        · exact Or.inl hm
        · exact Or.inr h
    · rw [if_neg hm]
      simp only [List.mem_append, List.mem_singleton, List.mem_cons]
      tauto

theorem addUniqueNames_of_subset {ds ns : List TypeName}
    (h : ∀ x ∈ ns, x ∈ ds) : addUniqueNames ds ns = ds := by
  induction ns generalizing ds with
  | nil => rfl
  | cons m ms ih =>
    rw [addUniqueNames_cons, if_pos (h m (by simp))]
    exact ih fun x hx => h x (by simp [hx])

theorem addUniqueNames_of_disjoint {ds ns : List TypeName}
    (hd : ∀ x ∈ ns, x ∉ ds) (hn : ns.Nodup) :
    addUniqueNames ds ns = ds ++ ns := by
  induction ns generalizing ds with
  | nil => simp [addUniqueNames]
  | cons m ms ih =>
    rw [addUniqueNames_cons, if_neg (hd m (by simp))]
    rw [List.nodup_cons] at hn
    rw [ih ?_ hn.2]
    · simp
    · intro x hx
      rw [List.mem_append, List.mem_singleton]
      rintro (h | rfl)
      · exact hd x (by simp [hx]) h
      · exact hn.1 hx

theorem addUniqueNames_nil_of_nodup {ns : List TypeName} (hn : ns.Nodup) :
    addUniqueNames [] ns = ns := by
  rw [addUniqueNames_of_disjoint (by simp) hn]
  simp

/-- Every name in a canonicalizer-step output comes from the accumulator or
from the incoming record. -/
theorem zipStep_destruct_mem (acc : List ImportStatementParams)
    (it r : ImportStatementParams) (hr : r ∈ zipStep acc it)
    (n : TypeName) (hn : n ∈ r.destruct) :
    (∃ r' ∈ acc, n ∈ r'.destruct) ∨ n ∈ it.destruct := by
  unfold zipStep at hr
  split at hr
  · rw [List.mem_map] at hr
    obtain ⟨r', hr', hmap⟩ := hr
    by_cases hsrc : r'.source = it.source
    · rw [if_pos hsrc] at hmap
      subst hmap
      simp only at hn
      rcases (mem_addUniqueNames _ _).mp hn with h | h
      · exact Or.inl ⟨r', hr', h⟩
      · exact Or.inr h
    · rw [if_neg hsrc] at hmap
      subst hmap
      exact Or.inl ⟨r', hr', hn⟩
  · rw [List.mem_append, List.mem_singleton] at hr
    rcases hr with hr | rfl
    · exact Or.inl ⟨r, hr, hn⟩
    · simp only at hn
      rcases (mem_addUniqueNames _ _).mp hn with h | h
      · cases h
      · exact Or.inr h

/-- A property of names holding of every input record holds of every
record of the canonicalizer's fold from an accumulator satisfying it. -/
theorem zip_foldl_destruct (P : TypeName → Prop)
    (items acc : List ImportStatementParams)
    (hacc : ∀ r ∈ acc, ∀ n ∈ r.destruct, P n)
    (hits : ∀ r ∈ items, ∀ n ∈ r.destruct, P n) :
    ∀ r ∈ items.foldl zipStep acc, ∀ n ∈ r.destruct, P n := by
  induction items generalizing acc with
  | nil => exact hacc
  | cons it its ih =>
    rw [List.foldl_cons]
    refine ih (zipStep acc it) ?_ fun r hr => hits r (by simp [hr])
    intro r hr n hn
    rcases zipStep_destruct_mem acc it r hr n hn with ⟨r', hr', hn'⟩ | hn'
    · exact hacc r' hr' n hn'
    · exact hits it (by simp) n hn'

/-- A property of names holding of every input record holds of every
record of the canonicalized output. -/
theorem zip_destruct (P : TypeName → Prop)
    (items : List ImportStatementParams)
    (hits : ∀ r ∈ items, ∀ n ∈ r.destruct, P n) :
    ∀ r ∈ zipImportStatementParams items, ∀ n ∈ r.destruct, P n := by
  unfold zipImportStatementParams
  exact zip_foldl_destruct P items [] (by simp) hits

/-- One canonicalizer step preserves "every record of the given source is
the canonical record", when the incoming record of that source (if it is
of that source) carries the designated names. -/
theorem zipStep_canonical (s : ImportSource) (d : List TypeName)
    (acc : List ImportStatementParams) (it : ImportStatementParams)
    (hcan : ∀ r ∈ acc, r.source = s → r = ⟨s, addUniqueNames [] d⟩)
    (hit : it.source = s → it.destruct = d) :
    ∀ r ∈ zipStep acc it, r.source = s → r = ⟨s, addUniqueNames [] d⟩ := by
  intro r hr hs
  unfold zipStep at hr
  split at hr
  · rw [List.mem_map] at hr
    obtain ⟨r', hr', hmap⟩ := hr
    by_cases hsrc : r'.source = it.source
    · rw [if_pos hsrc] at hmap
      subst hmap
      simp only at hs
      have hr's : r'.source = s := hs
      have hcr' := hcan r' hr' hr's
      have hits : it.source = s := by rw [← hsrc]; exact hr's
      have hd := hit hits
      rw [hcr']
      simp only
      rw [hd]
      congr 1
      exact addUniqueNames_of_subset fun x hx =>
        (mem_addUniqueNames _ _).mpr (Or.inr hx)
    · rw [if_neg hsrc] at hmap
      subst hmap
      exact hcan _ hr' hs
  · rw [List.mem_append, List.mem_singleton] at hr
    rcases hr with hr | rfl
    · exact hcan r hr hs
    · simp only at hs
      rw [hit hs]
      simp [hs]

/-- One canonicalizer step keeps the canonical record present. -/
theorem zipStep_keeps (s : ImportSource) (d : List TypeName)
    (acc : List ImportStatementParams) (it : ImportStatementParams)
    (hit : it.source = s → it.destruct = d)
    (hmem : (⟨s, addUniqueNames [] d⟩ : ImportStatementParams) ∈ acc) :
    (⟨s, addUniqueNames [] d⟩ : ImportStatementParams) ∈ zipStep acc it := by
  unfold zipStep
  split
  · rw [List.mem_map]
    refine ⟨⟨s, addUniqueNames [] d⟩, hmem, ?_⟩
    simp only
    by_cases hsrc : s = it.source
    · rw [if_pos hsrc, hit hsrc.symm,
        addUniqueNames_of_subset (fun x hx =>
          (mem_addUniqueNames _ _).mpr (Or.inr hx))]
    · rw [if_neg hsrc]
  · exact List.mem_append_left _ hmem

/-- Over a fold of canonicalizer steps, when every input record of a given
source carries the same names, every output record of that source is the
canonical one, and it is present as soon as some input record (or the
accumulator) carries the source. -/
theorem zip_foldl_single (s : ImportSource) (d : List TypeName)
    (items : List ImportStatementParams) :
    ∀ acc : List ImportStatementParams,
    (∀ r ∈ acc, r.source = s → r = ⟨s, addUniqueNames [] d⟩) →
    (∀ r ∈ items, r.source = s → r.destruct = d) →
    (∀ r ∈ items.foldl zipStep acc, r.source = s →
        r = ⟨s, addUniqueNames [] d⟩) ∧
    (((⟨s, addUniqueNames [] d⟩ : ImportStatementParams) ∈ acc ∨
        ∃ r ∈ items, r.source = s) →
      (⟨s, addUniqueNames [] d⟩ : ImportStatementParams) ∈
        items.foldl zipStep acc) := by
  induction items with
  | nil =>
    intro acc hacc _
    refine ⟨hacc, ?_⟩
    rintro (h | ⟨r, hr, _⟩)
    · exact h
    · cases hr
  | cons it its ih =>
    intro acc hacc hits
    have hit : it.source = s → it.destruct = d := hits it (by simp)
    have hits' : ∀ r ∈ its, r.source = s → r.destruct = d :=
      fun r hr => hits r (by simp [hr])
    have hacc' := zipStep_canonical s d acc it hacc hit
    rw [List.foldl_cons]
    obtain ⟨ih1, ih2⟩ := ih (zipStep acc it) hacc' hits'
    refine ⟨ih1, ?_⟩
    rintro (hmem | ⟨r, hr, hrs⟩)
    · exact ih2 (Or.inl (zipStep_keeps s d acc it hit hmem))
    · rcases List.mem_cons.mp hr with rfl | hr'
      · refine ih2 (Or.inl ?_)
        unfold zipStep
        split
        · next hcont =>
          have hmm : r.source ∈ acc.map (fun x => x.source) := by
            simpa using hcont
          rw [List.mem_map] at hmm
          obtain ⟨r', hr', hsrceq⟩ := hmm
          have hr'c := hacc r' hr' (by rw [hsrceq, hrs])
          have hcm : (⟨s, addUniqueNames [] d⟩ : ImportStatementParams) ∈ acc := by
            rw [← hr'c]; exact hr'
          rw [List.mem_map]
          refine ⟨⟨s, addUniqueNames [] d⟩, hcm, ?_⟩
          simp only
          have hseq : s = r.source := hrs.symm
          rw [if_pos hseq, hit hrs, addUniqueNames_of_subset
            (fun x hx => (mem_addUniqueNames _ _).mpr (Or.inr hx))]
        · rw [hit hrs]
          refine List.mem_append_right _ ?_
          rw [List.mem_singleton, hrs]
      · exact ih2 (Or.inr ⟨r, hr', hrs⟩)

/-- The canonicalized list of a record list whose source-matching records
all carry the same names contains exactly one canonical record for that
source. -/
theorem zip_single_source (s : ImportSource) (d : List TypeName)
    (items : List ImportStatementParams)
    (hone : ∃ r ∈ items, r.source = s)
    (hall : ∀ r ∈ items, r.source = s → r.destruct = d) :
    (⟨s, addUniqueNames [] d⟩ : ImportStatementParams) ∈
      zipImportStatementParams items ∧
    ∀ r ∈ zipImportStatementParams items, r.source = s →
      r = ⟨s, addUniqueNames [] d⟩ := by
  obtain ⟨h1, h2⟩ := zip_foldl_single s d items [] (by simp) hall
  exact ⟨h2 (Or.inr hone), h1⟩

/-- Every record of a pushed import list is an original record or the
pushed single-name record. -/
theorem mem_pushFieldImport (ims : List ImportStatementParams)
    (c : Option (ImportSource × TypeName)) (r : ImportStatementParams)
    (hr : r ∈ pushFieldImport ims c) :
    r ∈ ims ∨ ∃ src n, c = some (src, n) ∧ r = ⟨src, [n]⟩ := by
  cases c with
  | none => exact Or.inl hr
  | some p =>
    obtain ⟨src, n⟩ := p
    simp only [pushFieldImport] at hr
    split at hr
    · exact Or.inl hr
    · rw [List.mem_append, List.mem_singleton] at hr
      rcases hr with hr | rfl
      · exact Or.inl hr
      · exact Or.inr ⟨src, n, rfl, rfl⟩

/-- Merging validator specs unique-by-name preserves name distinctness. -/
theorem concatUniqueByName_nodup (t source : List IClassValidator)
    (ht : (t.map (fun v => v.name)).Nodup) :
    ((concatUniqueByName t source).map (fun v => v.name)).Nodup := by
  induction source generalizing t with
  | nil => exact ht
  | cons v vs ih =>
    have hstep : concatUniqueByName t (v :: vs) =
        concatUniqueByName
          (if t.any (fun x => decide (x.name = v.name)) then t else t ++ [v])
          vs := rfl
    rw [hstep]
    by_cases hv : t.any (fun x => decide (x.name = v.name))
    · rw [if_pos hv]; exact ih t ht
    · rw [if_neg hv]
      refine ih _ ?_
      rw [List.map_append, List.map_singleton]
      rw [List.nodup_append]
      refine ⟨ht, List.nodup_singleton _, ?_⟩
      intro x hx
      rw [List.mem_singleton]
      rintro rfl
      rw [List.mem_map] at hx
      obtain ⟨y, hy, hyn⟩ := hx
      rw [List.any_eq_true] at hv
      exact hv ⟨y, hy, by rw [decide_eq_true_iff, hyn]⟩

/-- Sorting validator names yields a sorted permutation. -/
theorem sortStrings_sorted (l : List String) :
    (sortStrings l).Sorted (· ≤ ·) := by
  unfold sortStrings
  have := List.sorted_insertionSort (α := String) (r := (· ≤ ·)) l
  exact this

/-- Sorting validator names preserves the multiset of names. -/
theorem sortStrings_perm (l : List String) : (sortStrings l).Perm l :=
  List.perm_insertionSort _ l

theorem mem_sortStrings {x : String} (l : List String) :
    x ∈ sortStrings l ↔ x ∈ l :=
  (sortStrings_perm l).mem_iff

theorem sortStrings_nodup {l : List String} (h : l.Nodup) :
    (sortStrings l).Nodup :=
  (sortStrings_perm l).nodup_iff.mpr h

/-! ## Per-field error characterizations -/

theorem entityFieldImport_error_iff (model : Model) (allModels : List Model)
    (f : Field) :
    (∃ e, entityFieldImport model allModels f = .error e) ↔
      ((isType f = true ∨ isRelation f = true) ∧ f.type ≠ model.name ∧
        allModels.find? (fun m => decide (m.name = f.type)) = none) := by
  unfold entityFieldImport
  by_cases ht : isType f
  · by_cases hn : f.type = model.name
    · simp [ht, hn]
    · cases hfind : allModels.find? (fun m => decide (m.name = f.type)) with
      | none => simp [ht, hn, hfind]
      | some target => simp [ht, hn, hfind]
  · by_cases hr : isRelation f
    · by_cases hn : f.type = model.name
      · simp [ht, hr, hn]
      · cases hfind : allModels.find? (fun m => decide (m.name = f.type)) with
        | none => simp [ht, hr, hn, hfind]
        | some target => simp [ht, hr, hn, hfind]
    · simp [ht, hr]

theorem entityFieldImport_error_val (model : Model) (allModels : List Model)
    (f : Field) (e : ResolutionError)
    (h : entityFieldImport model allModels f = .error e) :
    e = ⟨model.name, f.name, f.type⟩ := by
  unfold entityFieldImport at h
  split at h <;> [skip; split at h] <;>
    first
    | (split at h
       · cases h
       · split at h
         · cases h; rfl
         · cases h)
    | cases h

theorem generateRelationInput_error_iff (model : Model)
    (allModels : List Model) (cfg : GeneratorConfig) (b : Bool)
    (c1 c2 c3 : String) (f : Field) :
    (∃ e, generateRelationInput model allModels cfg b c1 c2 c3 f = .error e) ↔
      allModels.find? (fun m => decide (m.name = f.type)) = none := by
  unfold generateRelationInput
  cases hfind : allModels.find? (fun m => decide (m.name = f.type)) with
  | none => simp
  | some target => simp

theorem generateRelationInput_error_val (model : Model)
    (allModels : List Model) (cfg : GeneratorConfig) (b : Bool)
    (c1 c2 c3 : String) (f : Field) (e : ResolutionError)
    (h : generateRelationInput model allModels cfg b c1 c2 c3 f = .error e) :
    e = ⟨model.name, f.name, f.type⟩ := by
  unfold generateRelationInput at h
  split at h
  · cases h; rfl
  · cases h

theorem createRelationStage_error_iff (model : Model)
    (allModels : List Model) (cfg : GeneratorConfig) (o0 : FieldOverrides)
    (f : Field) :
    (∃ e, createRelationStage model allModels cfg o0 f = .error e) ↔
      (isRelation f = true ∧
        isAnnotatedWithOneOf f DTO_RELATION_MODIFIERS_ON_CREATE = true ∧
        allModels.find? (fun m => decide (m.name = f.type)) = none) := by
  unfold createRelationStage
  by_cases hr : isRelation f
  · by_cases hm : isAnnotatedWithOneOf f DTO_RELATION_MODIFIERS_ON_CREATE
    · cases hg : generateRelationInput model allModels cfg true
          DTO_RELATION_CAN_CREATE_ON_CREATE DTO_RELATION_CAN_CONNECT_ON_CREATE
          DTO_RELATION_CAN_UPDATE_ON_UPDATE f with
      | error e =>
        have := (generateRelationInput_error_iff model allModels cfg true
          DTO_RELATION_CAN_CREATE_ON_CREATE DTO_RELATION_CAN_CONNECT_ON_CREATE
          DTO_RELATION_CAN_UPDATE_ON_UPDATE f).mp ⟨e, hg⟩
        simp [hr, hm, hg, this]
      | ok ri =>
        have hne : ¬ allModels.find? (fun m => decide (m.name = f.type)) = none := by
          intro hc
          obtain ⟨e, he⟩ := (generateRelationInput_error_iff model allModels
            cfg true DTO_RELATION_CAN_CREATE_ON_CREATE
            DTO_RELATION_CAN_CONNECT_ON_CREATE
            DTO_RELATION_CAN_UPDATE_ON_UPDATE f).mpr hc
          rw [hg] at he; cases he
        by_cases hlen : ri.imports.length > 1
        · simp [hr, hm, hg, hlen, hne]
        · cases hcv : ri.classValidators.find?
              (fun cv => decide (cv.name = "Type")) with
          | none => simp [hr, hm, hg, hlen, hcv, hne]
          | some cv =>
            cases hv : cv.value with
            | none => simp [hr, hm, hg, hlen, hcv, hv, hne]
            | some v => simp [hr, hm, hg, hlen, hcv, hv, hne]
    · simp [hr, hm]
  · simp [hr]

theorem createRelationStage_error_val (model : Model)
    (allModels : List Model) (cfg : GeneratorConfig) (o0 : FieldOverrides)
    (f : Field) (e : ResolutionError)
    (h : createRelationStage model allModels cfg o0 f = .error e) :
    e = ⟨model.name, f.name, f.type⟩ := by
  unfold createRelationStage at h
  split at h
  · split at h
    · cases h
    · split at h
      · next e' heq =>
          cases h
          exact generateRelationInput_error_val _ _ _ _ _ _ _ _ _ heq
      · split at h
        · cases h
        · split at h
          · split at h <;> cases h
          · cases h
  · cases h

theorem createTypeImport_error_iff (model : Model) (allModels : List Model)
    (f : Field) :
    (∃ e, createTypeImport model allModels f = .error e) ↔
      (isType f = true ∧ f.type ≠ model.name ∧
        allModels.find? (fun m => decide (m.name = f.type)) = none) := by
  unfold createTypeImport
  by_cases ht : isType f
  · by_cases hn : f.type = model.name
    · simp [ht, hn]
    · cases hfind : allModels.find? (fun m => decide (m.name = f.type)) with
      | none => simp [ht, hn, hfind]
      | some target => simp [ht, hn, hfind]
  · simp [ht]

theorem createTypeImport_error_val (model : Model) (allModels : List Model)
    (f : Field) (e : ResolutionError)
    (h : createTypeImport model allModels f = .error e) :
    e = ⟨model.name, f.name, f.type⟩ := by
  unfold createTypeImport at h
  split at h
  · split at h
    · cases h
    · split at h
      · cases h; rfl
      · cases h
  · cases h

theorem updateRelationStage_error_iff (model : Model)
    (allModels : List Model) (cfg : GeneratorConfig) (o0 : FieldOverrides)
    (f : Field) :
    (∃ e, updateRelationStage model allModels cfg o0 f = .error e) ↔
      (isRelation f = true ∧
        isAnnotatedWithOneOf f DTO_RELATION_MODIFIERS_ON_UPDATE = true ∧
        allModels.find? (fun m => decide (m.name = f.type)) = none) := by
  unfold updateRelationStage
  by_cases hr : isRelation f
  · by_cases hm : isAnnotatedWithOneOf f DTO_RELATION_MODIFIERS_ON_UPDATE
    · cases hg : generateRelationInput model allModels cfg false
          DTO_RELATION_CAN_CREATE_ON_UPDATE DTO_RELATION_CAN_CONNECT_ON_UPDATE
          DTO_RELATION_CAN_UPDATE_ON_UPDATE f with
      | error e =>
        have := (generateRelationInput_error_iff model allModels cfg false
          DTO_RELATION_CAN_CREATE_ON_UPDATE DTO_RELATION_CAN_CONNECT_ON_UPDATE
          DTO_RELATION_CAN_UPDATE_ON_UPDATE f).mp ⟨e, hg⟩
        simp [hr, hm, hg, this]
      | ok ri =>
        have hne : ¬ allModels.find? (fun m => decide (m.name = f.type)) = none := by
          intro hc
          obtain ⟨e, he⟩ := (generateRelationInput_error_iff model allModels
            cfg false DTO_RELATION_CAN_CREATE_ON_UPDATE
            DTO_RELATION_CAN_CONNECT_ON_UPDATE
            DTO_RELATION_CAN_UPDATE_ON_UPDATE f).mpr hc
          rw [hg] at he; cases he
        simp [hr, hm, hg, hne]
    · simp [hr, hm]
  · simp [hr]

theorem updateRelationStage_error_val (model : Model)
    (allModels : List Model) (cfg : GeneratorConfig) (o0 : FieldOverrides)
    (f : Field) (e : ResolutionError)
    (h : updateRelationStage model allModels cfg o0 f = .error e) :
    e = ⟨model.name, f.name, f.type⟩ := by
  unfold updateRelationStage at h
  split at h
  · split at h
    · cases h
    · split at h
      · next e' heq =>
          cases h
          exact generateRelationInput_error_val _ _ _ _ _ _ _ _ _ heq
      · cases h
  · cases h

theorem updateTypeImport_error_iff (model : Model) (allModels : List Model)
    (b : Bool) (f : Field) :
    (∃ e, updateTypeImport model allModels b f = .error e) ↔
      (isType f = true ∧ f.type ≠ model.name ∧
        allModels.find? (fun m => decide (m.name = f.type)) = none) := by
  unfold updateTypeImport
  by_cases ht : isType f
  · by_cases hn : f.type = model.name
    · simp [ht, hn]
    · cases hfind : allModels.find? (fun m => decide (m.name = f.type)) with
      | none => simp [ht, hn, hfind]
      | some target => simp [ht, hn, hfind]
  · simp [ht]

theorem updateTypeImport_error_val (model : Model) (allModels : List Model)
    (b : Bool) (f : Field) (e : ResolutionError)
    (h : updateTypeImport model allModels b f = .error e) :
    e = ⟨model.name, f.name, f.type⟩ := by
  unfold updateTypeImport at h
  split at h
  · split at h
    · cases h
    · split at h
      · cases h; rfl
      · cases h
  · cases h

/-! ## Flow characterization of the reduce bodies -/

theorem isType_eq_false_of_isRelation {f : Field} (h : isRelation f = true) :
    isType f = false := by
  unfold isRelation at h
  unfold isType
  rw [decide_eq_true_iff] at h
  rw [decide_eq_false_iff_not, h]
  intro hc
  cases hc

theorem isRelation_eq_false_of_isType {f : Field} (h : isType f = true) :
    isRelation f = false := by
  unfold isType at h
  unfold isRelation
  rw [decide_eq_true_iff] at h
  rw [decide_eq_false_iff_not, h]
  intro hc
  cases hc

theorem createRelationStage_none_iff (model : Model) (allModels : List Model)
    (cfg : GeneratorConfig) (o0 : FieldOverrides) (f : Field) :
    createRelationStage model allModels cfg o0 f = .ok none ↔
      (isRelation f = true ∧
        isAnnotatedWithOneOf f DTO_RELATION_MODIFIERS_ON_CREATE = false) := by
  unfold createRelationStage
  by_cases hr : isRelation f = true
  · by_cases hm : isAnnotatedWithOneOf f DTO_RELATION_MODIFIERS_ON_CREATE = true
    · cases hg : generateRelationInput model allModels cfg true
          DTO_RELATION_CAN_CREATE_ON_CREATE DTO_RELATION_CAN_CONNECT_ON_CREATE
          DTO_RELATION_CAN_UPDATE_ON_UPDATE f with
      | error e => simp [hr, hm, hg]
      | ok ri =>
        by_cases hlen : ri.imports.length > 1
        · simp [hr, hm, hg, hlen]
        · cases hcv : ri.classValidators.find?
              (fun cv => decide (cv.name = "Type")) with
          | none => simp [hr, hm, hg, hlen, hcv]
          | some cv =>
            cases hv : cv.value with
            | none => simp [hr, hm, hg, hlen, hcv, hv]
            | some v => simp [hr, hm, hg, hlen, hcv, hv]
    · simp [hr, hm, Bool.eq_false_iff]
  · simp [hr]

theorem updateRelationStage_none_iff (model : Model) (allModels : List Model)
    (cfg : GeneratorConfig) (o0 : FieldOverrides) (f : Field) :
    updateRelationStage model allModels cfg o0 f = .ok none ↔
      (isRelation f = true ∧
        isAnnotatedWithOneOf f DTO_RELATION_MODIFIERS_ON_UPDATE = false) := by
  unfold updateRelationStage
  by_cases hr : isRelation f = true
  · by_cases hm : isAnnotatedWithOneOf f DTO_RELATION_MODIFIERS_ON_UPDATE = true
    · cases hg : generateRelationInput model allModels cfg false
          DTO_RELATION_CAN_CREATE_ON_UPDATE DTO_RELATION_CAN_CONNECT_ON_UPDATE
          DTO_RELATION_CAN_UPDATE_ON_UPDATE f with
      | error e => simp [hr, hm, hg]
      | ok ri => simp [hr, hm, hg]
    · simp [hr, hm, Bool.eq_false_iff]
  · simp [hr]

/-- A field coming out of the Create relation stage differs from the
incoming field at most in its documentation. -/
theorem createRelationStage_ok_some (model : Model) (allModels : List Model)
    (cfg : GeneratorConfig) (o0 : FieldOverrides) (f : Field)
    (f2 : Field) (rest : FieldOverrides × List ImportStatementParams ×
      List TypeName × List String × List IClassValidator)
    (h : createRelationStage model allModels cfg o0 f = .ok (some (f2, rest))) :
    ∃ d, f2 = { f with documentation := d } := by
  unfold createRelationStage at h
  split at h
  · split at h
    · cases h
    · split at h
      · cases h
      · split at h
        · cases h
          exact ⟨f.documentation, by cases f; rfl⟩
        · split at h
          · split at h
            · cases h
              next v _ _ =>
                exact ⟨_, rfl⟩
            · cases h
              exact ⟨f.documentation, by cases f; rfl⟩
          · cases h
            exact ⟨f.documentation, by cases f; rfl⟩
  · cases h
    exact ⟨f.documentation, by cases f; rfl⟩

theorem entityResolutionFails_iff (model : Model) (allModels : List Model)
    (f : Field) :
    entityResolutionFails model allModels f = true ↔
      (isAnnotatedWith f DTO_ENTITY_HIDDEN = false ∧
       (isType f = true ∨ isRelation f = true) ∧ f.type ≠ model.name ∧
       allModels.find? (fun m => decide (m.name = f.type)) = none) := by
  unfold entityResolutionFails
  simp [Bool.and_eq_true, Bool.or_eq_true, Option.isNone_iff_eq_none,
    Bool.not_eq_true', and_assoc]

/-- The Entity reduce body fails exactly under the claim's condition. -/
theorem entityProcess_error_iff (model : Model) (allModels : List Model)
    (cfg : GeneratorConfig) (f : Field) :
    (∃ e, entityProcessField model allModels cfg f = .error e) ↔
      entityResolutionFails model allModels f = true := by
  rw [entityResolutionFails_iff]
  by_cases hh : isAnnotatedWith f DTO_ENTITY_HIDDEN = true
  · simp only [entityProcessField, hh, if_true]
    simp [hh]
  · have hh' : isAnnotatedWith f DTO_ENTITY_HIDDEN = false :=
      Bool.eq_false_iff.mpr hh
    cases hfi : entityFieldImport model allModels f with
    | error e =>
      obtain ⟨hk, hn, hfind⟩ :=
        (entityFieldImport_error_iff model allModels f).mp ⟨e, hfi⟩
      simp only [entityProcessField, hh, if_false, hfi]
      simp [hh', hk, hn, hfind]
    | ok fi =>
      simp only [entityProcessField, hh, if_false, hfi]
      constructor
      · rintro ⟨e, he⟩
        simp at he
      · rintro ⟨-, hk, hn, hfind⟩
        obtain ⟨e, he⟩ :=
          (entityFieldImport_error_iff model allModels f).mpr ⟨hk, hn, hfind⟩
        rw [hfi] at he
        cases he

/-- Any error of the Entity reduce body carries the owning entity name and
the field's name and type. -/
theorem entityProcess_error_val (model : Model) (allModels : List Model)
    (cfg : GeneratorConfig) (f : Field) (e : ResolutionError)
    (h : entityProcessField model allModels cfg f = .error e) :
    e = ⟨model.name, f.name, f.type⟩ := by
  simp only [entityProcessField] at h
  split at h
  · cases h
  · split at h
    · next e' heq =>
        cases h
        exact entityFieldImport_error_val _ _ _ _ heq
    · cases h

/-! ## Classifier values under the two in-place field mutations -/

@[simp] theorem isAnnotatedWith_setDoc (f : Field) (d a : String) :
    isAnnotatedWith { f with documentation := d } a = isAnnotatedWith f a := rfl

@[simp] theorem isType_setDoc (f : Field) (d : String) :
    isType { f with documentation := d } = isType f := rfl

@[simp] theorem isRelation_setDoc (f : Field) (d : String) :
    isRelation { f with documentation := d } = isRelation f := rfl

@[simp] theorem isReadOnly_setDoc (f : Field) (d : String) :
    isReadOnly { f with documentation := d } = isReadOnly f := rfl

@[simp] theorem isUpdatedAt_setDoc (f : Field) (d : String) :
    isUpdatedAt { f with documentation := d } = isUpdatedAt f := rfl

@[simp] theorem isId_setDoc (f : Field) (d : String) :
    isId { f with documentation := d } = isId f := rfl

@[simp] theorem isIdWithDefaultValue_setDoc (f : Field) (d : String) :
    isIdWithDefaultValue { f with documentation := d } =
      isIdWithDefaultValue f := rfl

@[simp] theorem isRequiredWithDefaultValue_setDoc (f : Field) (d : String) :
    isRequiredWithDefaultValue { f with documentation := d } =
      isRequiredWithDefaultValue f := rfl

@[simp] theorem isAnnotatedWithOneOf_setDoc (f : Field) (d : String)
    (as : List String) :
    isAnnotatedWithOneOf { f with documentation := d } as =
      isAnnotatedWithOneOf f as := rfl

@[simp] theorem isAnnotatedWith_setRO (f : Field) (b : Bool) (a : String) :
    isAnnotatedWith { f with isReadOnly := b } a = isAnnotatedWith f a := rfl

@[simp] theorem isType_setRO (f : Field) (b : Bool) :
    isType { f with isReadOnly := b } = isType f := rfl

@[simp] theorem isRelation_setRO (f : Field) (b : Bool) :
    isRelation { f with isReadOnly := b } = isRelation f := rfl

@[simp] theorem isReadOnly_setRO (f : Field) (b : Bool) :
    isReadOnly { f with isReadOnly := b } = b := rfl

@[simp] theorem isUpdatedAt_setRO (f : Field) (b : Bool) :
    isUpdatedAt { f with isReadOnly := b } = isUpdatedAt f := rfl

@[simp] theorem isId_setRO (f : Field) (b : Bool) :
    isId { f with isReadOnly := b } = isId f := rfl

@[simp] theorem isIdWithDefaultValue_setRO (f : Field) (b : Bool) :
    isIdWithDefaultValue { f with isReadOnly := b } =
      isIdWithDefaultValue f := rfl

@[simp] theorem isRequiredWithDefaultValue_setRO (f : Field) (b : Bool) :
    isRequiredWithDefaultValue { f with isReadOnly := b } =
      isRequiredWithDefaultValue f := rfl

@[simp] theorem isAnnotatedWithOneOf_setRO (f : Field) (b : Bool)
    (as : List String) :
    isAnnotatedWithOneOf { f with isReadOnly := b } as =
      isAnnotatedWithOneOf f as := rfl

theorem createTypeImport_of_not_type (model : Model) (allModels : List Model)
    (f : Field) (h : isType f = false) :
    createTypeImport model allModels f = .ok none := by
  unfold createTypeImport
  simp [h]

theorem updateTypeImport_of_not_type (model : Model) (allModels : List Model)
    (b : Bool) (f : Field) (h : isType f = false) :
    updateTypeImport model allModels b f = .ok none := by
  unfold updateTypeImport
  simp [h]

/-- The Create reduce body (after the include-identifier rewrite) fails
exactly when a relation field carrying a create-time modifier, or a
nested-structured-type field surviving the drops, names a target type that
is absent (for the nested-type route, also different from the entity's own
name; the relation route resolves unconditionally). -/
theorem createProcessRest_error_iff (model : Model) (allModels : List Model)
    (cfg : GeneratorConfig) (f1 : Field) :
    (∃ e, createProcessRest model allModels cfg f1 = .error e) ↔
      (isAnnotatedWith f1 DTO_CREATE_HIDDEN = false ∧ isReadOnly f1 = false ∧
       ((isRelation f1 = true ∧
         isAnnotatedWithOneOf f1 DTO_RELATION_MODIFIERS_ON_CREATE = true ∧
         allModels.find? (fun m => decide (m.name = f1.type)) = none) ∨
        (isType f1 = true ∧
         (isAnnotatedWith f1 DTO_RELATION_INCLUDE_ID = true ∨
          (relationScalarNames model.fields).contains f1.name = false) ∧
         (isAnnotatedWith f1 DTO_CREATE_OPTIONAL = true ∨
          (isIdWithDefaultValue f1 || isUpdatedAt f1 ||
           isRequiredWithDefaultValue f1) = false) ∧
         f1.type ≠ model.name ∧
         allModels.find? (fun m => decide (m.name = f1.type)) = none))) := by
  by_cases hh : isAnnotatedWith f1 DTO_CREATE_HIDDEN = true
  · simp only [createProcessRest, hh, if_true]
    simp [hh]
  · have hh' : isAnnotatedWith f1 DTO_CREATE_HIDDEN = false :=
      Bool.eq_false_iff.mpr hh
    by_cases hro : isReadOnly f1 = true
    · simp only [createProcessRest, hh, hro]
      simp [hh', hro]
    · have hro' : isReadOnly f1 = false := Bool.eq_false_iff.mpr hro
      cases hstage : createRelationStage model allModels cfg
          { createApiResp := some false } f1 with
      | error e =>
        obtain ⟨hr, hm, hfind⟩ :=
          (createRelationStage_error_iff model allModels cfg
            { createApiResp := some false } f1).mp ⟨e, hstage⟩
        have ht := isType_eq_false_of_isRelation hr
        simp only [createProcessRest, hh, hro, hstage]
        simp [hh', hro', hr, hm, hfind, ht]
      | ok stage =>
        have hnrel : ¬ (isRelation f1 = true ∧
            isAnnotatedWithOneOf f1 DTO_RELATION_MODIFIERS_ON_CREATE = true ∧
            allModels.find? (fun m => decide (m.name = f1.type)) = none) := by
          rintro ⟨ha, hb, hc⟩
          obtain ⟨e, he⟩ := (createRelationStage_error_iff model allModels cfg
            { createApiResp := some false } f1).mpr ⟨ha, hb, hc⟩
          rw [hstage] at he
          cases he
        cases stage with
        | none =>
          obtain ⟨hr, hm⟩ :=
            (createRelationStage_none_iff model allModels cfg
              { createApiResp := some false } f1).mp hstage
          have ht := isType_eq_false_of_isRelation hr
          simp only [createProcessRest, hh, hro, hstage]
          simp [hh', hro', hr, hm, ht]
        | some s =>
          obtain ⟨f2, o1, ri, gc, xm, cv⟩ := s
          obtain ⟨d, hf2⟩ :=
            createRelationStage_ok_some model allModels cfg
              { createApiResp := some false } f1 f2 (o1, ri, gc, xm, cv) hstage
          subst hf2
          by_cases hrel : isRelation f1 = true
          · have ht : isType f1 = false := isType_eq_false_of_isRelation hrel
            have hfindne : ¬ allModels.find?
                (fun m => decide (m.name = f1.type)) = none := by
              intro hc
              by_cases hm : isAnnotatedWithOneOf f1
                  DTO_RELATION_MODIFIERS_ON_CREATE = true
              · exact hnrel ⟨hrel, hm, hc⟩
              · have hn := (createRelationStage_none_iff model allModels cfg
                  { createApiResp := some false } f1).mpr
                  ⟨hrel, Bool.eq_false_iff.mpr hm⟩
                rw [hstage] at hn
                simp at hn
            have hti := createTypeImport_of_not_type model allModels
              { f1 with documentation := d } (by simp [ht])
            refine iff_of_false ?_ ?_
            · rintro ⟨e, he⟩
              simp only [createProcessRest, hh, hro, hstage] at he
              by_cases hinc : isAnnotatedWith f1 DTO_RELATION_INCLUDE_ID = true <;>
                by_cases hcont : f1.name ∈ relationScalarNames model.fields <;>
                by_cases hopt : isAnnotatedWith f1 DTO_CREATE_OPTIONAL = true <;>
                by_cases hbad : (isIdWithDefaultValue f1 || isUpdatedAt f1 ||
                  isRequiredWithDefaultValue f1) = true <;>
                simp [hh', hro', hti, hinc, hcont, hopt, hbad] at he
            · rintro ⟨-, -, hbad | hbad⟩
              · exact absurd hbad hnrel
              · rw [ht] at hbad
                exact absurd hbad.1 (by simp)
          · have hrel' : isRelation f1 = false := Bool.eq_false_iff.mpr hrel
            simp only [createProcessRest, hh, hro, hstage]
            cases hti : createTypeImport model allModels
                { f1 with documentation := d } with
            | error e =>
              obtain ⟨ht2, hn2, hfind2⟩ :=
                (createTypeImport_error_iff model allModels
                  { f1 with documentation := d }).mp ⟨e, hti⟩
              rw [isType_setDoc] at ht2
              simp only at hn2 hfind2
              by_cases hinc : isAnnotatedWith f1 DTO_RELATION_INCLUDE_ID = true
              · by_cases hbad : (isIdWithDefaultValue f1 || isUpdatedAt f1 ||
                    isRequiredWithDefaultValue f1) = true
                · by_cases hopt : isAnnotatedWith f1 DTO_CREATE_OPTIONAL = true
                  · simp [hh', hro', hrel', hti, hinc, hbad, hopt, ht2, hn2,
                      hfind2]
                  · simp [hh', hro', hrel', hti, hinc, hbad,
                      Bool.eq_false_iff.mpr hopt, ht2, hn2, hfind2]
                · simp [hh', hro', hrel', hti, hinc,
                    Bool.eq_false_iff.mpr hbad, ht2, hn2, hfind2]
              · have hinc' := Bool.eq_false_iff.mpr hinc
                by_cases hcont : f1.name ∈ relationScalarNames model.fields
                · simp [hh', hro', hrel', hinc', hcont, ht2, hn2, hfind2]
                · have hcont' := hcont
                  by_cases hbad : (isIdWithDefaultValue f1 || isUpdatedAt f1 ||
                      isRequiredWithDefaultValue f1) = true
                  · by_cases hopt : isAnnotatedWith f1 DTO_CREATE_OPTIONAL = true
                    · simp [hh', hro', hrel', hti, hinc', hcont', hbad, hopt,
                        ht2, hn2, hfind2]
                    · simp [hh', hro', hrel', hti, hinc', hcont', hbad,
                        Bool.eq_false_iff.mpr hopt, ht2, hn2, hfind2]
                  · simp [hh', hro', hrel', hti, hinc', hcont',
                      Bool.eq_false_iff.mpr hbad, ht2, hn2, hfind2]
            | ok fi =>
              have hnty : ¬ (isType f1 = true ∧ f1.type ≠ model.name ∧
                  allModels.find? (fun m => decide (m.name = f1.type)) = none) := by
                rintro ⟨ha, hb, hc⟩
                obtain ⟨e, he⟩ := (createTypeImport_error_iff model allModels
                  { f1 with documentation := d }).mpr
                  ⟨by simp [ha], by simpa using hb, by simpa using hc⟩
                rw [hti] at he
                cases he
              refine iff_of_false ?_ ?_
              · rintro ⟨e, he⟩
                simp only [createProcessRest, hh, hro, hstage] at he
                by_cases hinc : isAnnotatedWith f1 DTO_RELATION_INCLUDE_ID = true <;>
                  by_cases hcont : f1.name ∈ relationScalarNames model.fields <;>
                  by_cases hopt : isAnnotatedWith f1 DTO_CREATE_OPTIONAL = true <;>
                  by_cases hbad : (isIdWithDefaultValue f1 || isUpdatedAt f1 ||
                    isRequiredWithDefaultValue f1) = true <;>
                  simp [hh', hro', hti, hinc, hcont, hopt, hbad] at he
              · rintro ⟨-, -, hbad | ⟨ha, -, -, hb, hc⟩⟩
                · exact absurd hbad hnrel
                · exact absurd ⟨ha, hb, hc⟩ hnty

/-! ## The include-identifier rewrite and the claim-form predicates -/

@[simp] theorem isAnnotatedWith_rewrite (model : Model) (f : Field)
    (a : String) :
    isAnnotatedWith (rewriteIncludeId model f) a = isAnnotatedWith f a := by
  unfold rewriteIncludeId
  split <;> simp

@[simp] theorem isAnnotatedWithOneOf_rewrite (model : Model) (f : Field)
    (as : List String) :
    isAnnotatedWithOneOf (rewriteIncludeId model f) as =
      isAnnotatedWithOneOf f as := by
  unfold rewriteIncludeId
  split <;> simp

@[simp] theorem isType_rewrite (model : Model) (f : Field) :
    isType (rewriteIncludeId model f) = isType f := by
  unfold rewriteIncludeId
  split <;> simp

@[simp] theorem isRelation_rewrite (model : Model) (f : Field) :
    isRelation (rewriteIncludeId model f) = isRelation f := by
  unfold rewriteIncludeId
  split <;> simp

@[simp] theorem isUpdatedAt_rewrite (model : Model) (f : Field) :
    isUpdatedAt (rewriteIncludeId model f) = isUpdatedAt f := by
  unfold rewriteIncludeId
  split <;> simp

@[simp] theorem isId_rewrite (model : Model) (f : Field) :
    isId (rewriteIncludeId model f) = isId f := by
  unfold rewriteIncludeId
  split <;> simp

@[simp] theorem isIdWithDefaultValue_rewrite (model : Model) (f : Field) :
    isIdWithDefaultValue (rewriteIncludeId model f) =
      isIdWithDefaultValue f := by
  unfold rewriteIncludeId
  split <;> simp

@[simp] theorem isRequiredWithDefaultValue_rewrite (model : Model)
    (f : Field) :
    isRequiredWithDefaultValue (rewriteIncludeId model f) =
      isRequiredWithDefaultValue f := by
  unfold rewriteIncludeId
  split <;> simp

@[simp] theorem name_rewrite (model : Model) (f : Field) :
    (rewriteIncludeId model f).name = f.name := by
  unfold rewriteIncludeId
  split <;> rfl

@[simp] theorem type_rewrite (model : Model) (f : Field) :
    (rewriteIncludeId model f).type = f.type := by
  unfold rewriteIncludeId
  split <;> rfl

@[simp] theorem isRequired_rewrite (model : Model) (f : Field) :
    (rewriteIncludeId model f).isRequired = f.isRequired := by
  unfold rewriteIncludeId
  split <;> rfl

@[simp] theorem isList_rewrite (model : Model) (f : Field) :
    (rewriteIncludeId model f).isList = f.isList := by
  unfold rewriteIncludeId
  split <;> rfl

@[simp] theorem documentation_rewrite (model : Model) (f : Field) :
    (rewriteIncludeId model f).documentation = f.documentation := by
  unfold rewriteIncludeId
  split <;> rfl

theorem isReadOnly_rewrite (model : Model) (f : Field) :
    isReadOnly (rewriteIncludeId model f) = readOnlyAfterRewrite model f := by
  unfold rewriteIncludeId readOnlyAfterRewrite
  split <;> [simp; rfl]

/-- A found entity exists whenever the entity's own name is the target and
the entity belongs to the supplied set. -/
theorem find_ne_none_of_self (model : Model) (allModels : List Model)
    (f : Field) (hmem : model ∈ allModels) (h : f.type = model.name) :
    allModels.find? (fun m => decide (m.name = f.type)) ≠ none := by
  intro hc
  have := List.find?_eq_none.mp hc model hmem
  rw [h] at this
  simp at this

/-- The Create reduce body of the pipeline fails exactly under the claim's
condition, provided the entity belongs to the supplied set. -/
theorem createProcess_error_iff (model : Model) (allModels : List Model)
    (cfg : GeneratorConfig) (f : Field) (hmem : model ∈ allModels) :
    (∃ e, createProcessField model allModels cfg f = .error e) ↔
      createResolutionFails model allModels f = true := by
  unfold createProcessField
  rw [createProcessRest_error_iff]
  unfold createResolutionFails createProcessedAtResolution
  simp only [isAnnotatedWith_rewrite, isAnnotatedWithOneOf_rewrite,
    isType_rewrite, isRelation_rewrite, isUpdatedAt_rewrite,
    isIdWithDefaultValue_rewrite, isRequiredWithDefaultValue_rewrite,
    name_rewrite, type_rewrite, isReadOnly_rewrite]
  simp only [Bool.and_eq_true, Bool.or_eq_true, Bool.not_eq_true',
    Option.isNone_iff_eq_none, decide_eq_true_iff, and_assoc]
  constructor
  · rintro ⟨hh, hro, hcase⟩
    rcases hcase with ⟨hr, hm, hfind⟩ | ⟨ht, hsv1, hsv2, hne, hfind⟩
    · have hne : f.type ≠ model.name := fun hc =>
        find_ne_none_of_self model allModels f hmem hc hfind
      exact ⟨hh, hro, Or.inl ⟨hr, hm⟩, hne, hfind⟩
    · exact ⟨hh, hro, Or.inr ⟨ht, hsv1, hsv2⟩, hne, hfind⟩
  · rintro ⟨hh, hro, hcase, hne, hfind⟩
    rcases hcase with ⟨hr, hm⟩ | ⟨ht, hsv1, hsv2⟩
    · exact ⟨hh, hro, Or.inl ⟨hr, hm, hfind⟩⟩
    · exact ⟨hh, hro, Or.inr ⟨ht, hsv1, hsv2, hne, hfind⟩⟩

/-- Any error of the Create reduce body carries the owning entity name and
the field's name and type. -/
theorem createProcessRest_error_val (model : Model) (allModels : List Model)
    (cfg : GeneratorConfig) (f1 : Field) (e : ResolutionError)
    (h : createProcessRest model allModels cfg f1 = .error e) :
    e = ⟨model.name, f1.name, f1.type⟩ := by
  simp only [createProcessRest] at h
  split at h
  · cases h
  · split at h
    · cases h
    · split at h
      · next e' heq =>
          cases h
          exact createRelationStage_error_val _ _ _ _ _ _ heq
      · cases h
      · next f2 o1 ri gc xm cv heq =>
          obtain ⟨d, hf2⟩ := createRelationStage_ok_some model allModels cfg
            { createApiResp := some false } f1 f2 (o1, ri, gc, xm, cv) heq
          subst hf2
          split at h
          · cases h
          · split at h
            · cases h
            · split at h
              · next e' heq2 =>
                  cases h
                  have := createTypeImport_error_val _ _ _ _ heq2
                  simpa using this
              · cases h

theorem createProcess_error_val (model : Model) (allModels : List Model)
    (cfg : GeneratorConfig) (f : Field) (e : ResolutionError)
    (h : createProcessField model allModels cfg f = .error e) :
    e = ⟨model.name, f.name, f.type⟩ := by
  unfold createProcessField at h
  have := createProcessRest_error_val _ _ _ _ _ h
  simpa using this

/-- The Update reduce body (after the include-identifier rewrite) fails
exactly when a relation field carrying an update-time modifier, or a
nested-structured-type field surviving the drops, names a target type that
is absent (for the nested-type route, also different from the entity's own
name). -/
theorem updateProcessRest_error_iff (model : Model) (allModels : List Model)
    (cfg : GeneratorConfig) (f1 : Field) :
    (∃ e, updateProcessRest model allModels cfg f1 = .error e) ↔
      (isAnnotatedWith f1 DTO_UPDATE_HIDDEN = false ∧ isReadOnly f1 = false ∧
       ((isRelation f1 = true ∧
         isAnnotatedWithOneOf f1 DTO_RELATION_MODIFIERS_ON_UPDATE = true ∧
         allModels.find? (fun m => decide (m.name = f1.type)) = none) ∨
        (isType f1 = true ∧
         (isAnnotatedWith f1 DTO_RELATION_INCLUDE_ID = true ∨
          (relationScalarNames model.fields).contains f1.name = false) ∧
         (isAnnotatedWith f1 DTO_UPDATE_OPTIONAL = true ∨
          (isId f1 || isUpdatedAt f1 ||
           isRequiredWithDefaultValue f1) = false) ∧
         f1.type ≠ model.name ∧
         allModels.find? (fun m => decide (m.name = f1.type)) = none))) := by
  by_cases hh : isAnnotatedWith f1 DTO_UPDATE_HIDDEN = true
  · simp only [updateProcessRest, hh, if_true]
    simp [hh]
  · have hh' : isAnnotatedWith f1 DTO_UPDATE_HIDDEN = false :=
      Bool.eq_false_iff.mpr hh
    by_cases hro : isReadOnly f1 = true
    · simp only [updateProcessRest, hh, hro]
      simp [hh', hro]
    · have hro' : isReadOnly f1 = false := Bool.eq_false_iff.mpr hro
      cases hstage : updateRelationStage model allModels cfg
          { isRequired := some false, isNullable := some (!f1.isRequired),
            updateApiResp := some false } f1 with
      | error e =>
        obtain ⟨hr, hm, hfind⟩ :=
          (updateRelationStage_error_iff model allModels cfg
            { isRequired := some false, isNullable := some (!f1.isRequired),
              updateApiResp := some false } f1).mp ⟨e, hstage⟩
        have ht := isType_eq_false_of_isRelation hr
        simp only [updateProcessRest, hh, hro, hstage]
        simp [hh', hro', hr, hm, hfind, ht]
      | ok stage =>
        have hnrel : ¬ (isRelation f1 = true ∧
            isAnnotatedWithOneOf f1 DTO_RELATION_MODIFIERS_ON_UPDATE = true ∧
            allModels.find? (fun m => decide (m.name = f1.type)) = none) := by
          rintro ⟨ha, hb, hc⟩
          obtain ⟨e, he⟩ := (updateRelationStage_error_iff model allModels cfg
            { isRequired := some false, isNullable := some (!f1.isRequired),
              updateApiResp := some false } f1).mpr ⟨ha, hb, hc⟩
          rw [hstage] at he
          cases he
        cases stage with
        | none =>
          obtain ⟨hr, hm⟩ :=
            (updateRelationStage_none_iff model allModels cfg
              { isRequired := some false, isNullable := some (!f1.isRequired),
                updateApiResp := some false } f1).mp hstage
          have ht := isType_eq_false_of_isRelation hr
          simp only [updateProcessRest, hh, hro, hstage]
          simp [hh', hro', hr, hm, ht]
        | some s =>
          obtain ⟨o1, ri, gc, xm, cv⟩ := s
          by_cases hrel : isRelation f1 = true
          · have ht : isType f1 = false := isType_eq_false_of_isRelation hrel
            have hfindne : ¬ allModels.find?
                (fun m => decide (m.name = f1.type)) = none := by
              intro hc
              by_cases hm : isAnnotatedWithOneOf f1
                  DTO_RELATION_MODIFIERS_ON_UPDATE = true
              · exact hnrel ⟨hrel, hm, hc⟩
              · have hn := (updateRelationStage_none_iff model allModels cfg
                  { isRequired := some false,
                    isNullable := some (!f1.isRequired),
                    updateApiResp := some false } f1).mpr
                  ⟨hrel, Bool.eq_false_iff.mpr hm⟩
                rw [hstage] at hn
                simp at hn
            have hti := updateTypeImport_of_not_type model allModels
              (isAnnotatedWith f1 DTO_TYPE_FULL_UPDATE) f1 ht
            refine iff_of_false ?_ ?_
            · rintro ⟨e, he⟩
              simp only [updateProcessRest, hh, hro, hstage] at he
              by_cases hinc : isAnnotatedWith f1 DTO_RELATION_INCLUDE_ID = true <;>
                by_cases hcont : f1.name ∈ relationScalarNames model.fields <;>
                by_cases hopt : isAnnotatedWith f1 DTO_UPDATE_OPTIONAL = true <;>
                by_cases hbad : (isId f1 || isUpdatedAt f1 ||
                  isRequiredWithDefaultValue f1) = true <;>
                simp [hh', hro', hti, hinc, hcont, hopt, hbad] at he
            · rintro ⟨-, -, hbad | hbad⟩
              · exact absurd hbad hnrel
              · rw [ht] at hbad
                exact absurd hbad.1 (by simp)
          · have hrel' : isRelation f1 = false := Bool.eq_false_iff.mpr hrel
            simp only [updateProcessRest, hh, hro, hstage]
            cases hti : updateTypeImport model allModels
                (isAnnotatedWith f1 DTO_TYPE_FULL_UPDATE) f1 with
            | error e =>
              obtain ⟨ht2, hn2, hfind2⟩ :=
                (updateTypeImport_error_iff model allModels
                  (isAnnotatedWith f1 DTO_TYPE_FULL_UPDATE) f1).mp ⟨e, hti⟩
              by_cases hinc : isAnnotatedWith f1 DTO_RELATION_INCLUDE_ID = true
              · by_cases hbad : (isId f1 || isUpdatedAt f1 ||
                    isRequiredWithDefaultValue f1) = true
                · by_cases hopt : isAnnotatedWith f1 DTO_UPDATE_OPTIONAL = true
                  · simp [hh', hro', hrel', hti, hinc, hbad, hopt, ht2, hn2,
                      hfind2]
                  · simp [hh', hro', hrel', hti, hinc, hbad,
                      Bool.eq_false_iff.mpr hopt, ht2, hn2, hfind2]
                · simp [hh', hro', hrel', hti, hinc,
                    Bool.eq_false_iff.mpr hbad, ht2, hn2, hfind2]
              · have hinc' := Bool.eq_false_iff.mpr hinc
                by_cases hcont : f1.name ∈ relationScalarNames model.fields
                · simp [hh', hro', hrel', hinc', hcont, ht2, hn2, hfind2]
                · have hcont' := hcont
                  by_cases hbad : (isId f1 || isUpdatedAt f1 ||
                      isRequiredWithDefaultValue f1) = true
                  · by_cases hopt : isAnnotatedWith f1 DTO_UPDATE_OPTIONAL = true
                    · simp [hh', hro', hrel', hti, hinc', hcont', hbad, hopt,
                        ht2, hn2, hfind2]
                    · simp [hh', hro', hrel', hti, hinc', hcont', hbad,
                        Bool.eq_false_iff.mpr hopt, ht2, hn2, hfind2]
                  · simp [hh', hro', hrel', hti, hinc', hcont',
                      Bool.eq_false_iff.mpr hbad, ht2, hn2, hfind2]
            | ok fi =>
              have hnty : ¬ (isType f1 = true ∧ f1.type ≠ model.name ∧
                  allModels.find? (fun m => decide (m.name = f1.type)) = none) := by
                rintro ⟨ha, hb, hc⟩
                obtain ⟨e, he⟩ := (updateTypeImport_error_iff model allModels
                  (isAnnotatedWith f1 DTO_TYPE_FULL_UPDATE) f1).mpr ⟨ha, hb, hc⟩
                rw [hti] at he
                cases he
              refine iff_of_false ?_ ?_
              · rintro ⟨e, he⟩
                simp only [updateProcessRest, hh, hro, hstage] at he
                by_cases hinc : isAnnotatedWith f1 DTO_RELATION_INCLUDE_ID = true <;>
                  by_cases hcont : f1.name ∈ relationScalarNames model.fields <;>
                  by_cases hopt : isAnnotatedWith f1 DTO_UPDATE_OPTIONAL = true <;>
                  by_cases hbad : (isId f1 || isUpdatedAt f1 ||
                    isRequiredWithDefaultValue f1) = true <;>
                  simp [hh', hro', hti, hinc, hcont, hopt, hbad] at he
              · rintro ⟨-, -, hbad | ⟨ha, -, -, hb, hc⟩⟩
                · exact absurd hbad hnrel
                · exact absurd ⟨ha, hb, hc⟩ hnty

/-- The Update reduce body of the pipeline fails exactly under the claim's
condition, provided the entity belongs to the supplied set. -/
theorem updateProcess_error_iff (model : Model) (allModels : List Model)
    (cfg : GeneratorConfig) (f : Field) (hmem : model ∈ allModels) :
    (∃ e, updateProcessField model allModels cfg f = .error e) ↔
      updateResolutionFails model allModels f = true := by
  unfold updateProcessField
  rw [updateProcessRest_error_iff]
  unfold updateResolutionFails updateProcessedAtResolution
  simp only [isAnnotatedWith_rewrite, isAnnotatedWithOneOf_rewrite,
    isType_rewrite, isRelation_rewrite, isUpdatedAt_rewrite, isId_rewrite,
    isIdWithDefaultValue_rewrite, isRequiredWithDefaultValue_rewrite,
    name_rewrite, type_rewrite, isReadOnly_rewrite]
  simp only [Bool.and_eq_true, Bool.or_eq_true, Bool.not_eq_true',
    Option.isNone_iff_eq_none, decide_eq_true_iff, and_assoc]
  constructor
  · rintro ⟨hh, hro, hcase⟩
    rcases hcase with ⟨hr, hm, hfind⟩ | ⟨ht, hsv1, hsv2, hne, hfind⟩
    · have hne : f.type ≠ model.name := fun hc =>
        find_ne_none_of_self model allModels f hmem hc hfind
      exact ⟨hh, hro, Or.inl ⟨hr, hm⟩, hne, hfind⟩
    · exact ⟨hh, hro, Or.inr ⟨ht, hsv1, hsv2⟩, hne, hfind⟩
  · rintro ⟨hh, hro, hcase, hne, hfind⟩
    rcases hcase with ⟨hr, hm⟩ | ⟨ht, hsv1, hsv2⟩
    · exact ⟨hh, hro, Or.inl ⟨hr, hm, hfind⟩⟩
    · exact ⟨hh, hro, Or.inr ⟨ht, hsv1, hsv2, hne, hfind⟩⟩

/-- Any error of the Update reduce body carries the owning entity name and
the field's name and type. -/
theorem updateProcessRest_error_val (model : Model) (allModels : List Model)
    (cfg : GeneratorConfig) (f1 : Field) (e : ResolutionError)
    (h : updateProcessRest model allModels cfg f1 = .error e) :
    e = ⟨model.name, f1.name, f1.type⟩ := by
  simp only [updateProcessRest] at h
  split at h
  · cases h
  · split at h
    · cases h
    · split at h
      · next e' heq =>
          cases h
          exact updateRelationStage_error_val _ _ _ _ _ _ heq
      · cases h
      · split at h
        · cases h
        · split at h
          · cases h
          · split at h
            · next e' heq2 =>
                cases h
                exact updateTypeImport_error_val _ _ _ _ _ heq2
            · cases h

theorem updateProcess_error_val (model : Model) (allModels : List Model)
    (cfg : GeneratorConfig) (f : Field) (e : ResolutionError)
    (h : updateProcessField model allModels cfg f = .error e) :
    e = ⟨model.name, f.name, f.type⟩ := by
  unfold updateProcessField at h
  have := updateProcessRest_error_val _ _ _ _ _ h
  simpa using this

/-! ## Pipeline entry points versus their folds -/

theorem computeEntityParams_error (model : Model) (allModels : List Model)
    (cfg : GeneratorConfig) (e : ResolutionError) :
    computeEntityParams model allModels cfg = .error e ↔
      entityFold model allModels cfg = .error e := by
  unfold computeEntityParams
  cases hfold : entityFold model allModels cfg with
  | error e' => simp
  | ok st => simp

theorem computeCreateDtoParams_error (model : Model) (allModels : List Model)
    (cfg : GeneratorConfig) (e : ResolutionError) :
    computeCreateDtoParams model allModels cfg = .error e ↔
      createFold model allModels cfg = .error e := by
  unfold computeCreateDtoParams
  cases hfold : createFold model allModels cfg with
  | error e' => simp
  | ok st => simp

theorem computeUpdateDtoParams_error (model : Model) (allModels : List Model)
    (cfg : GeneratorConfig) (e : ResolutionError) :
    computeUpdateDtoParams model allModels cfg = .error e ↔
      updateFold model allModels cfg = .error e := by
  unfold computeUpdateDtoParams
  cases hfold : updateFold model allModels cfg with
  | error e' => simp
  | ok st => simp

/-- C1: in each of the three pipelines, the computation raises an error if
and only if some processed relation or nested-structured-type field's
declared type names an entity that is absent from the supplied full entity
set and differs from the owning entity's own name; every raised error
carries the owning entity name and the failing field's name; no other
input condition raises an error. -/
theorem resolution_failure_characterization (model : Model)
    (allModels : List Model) (cfg : GeneratorConfig)
    (hmem : model ∈ allModels) :
    ((∃ e, computeEntityParams model allModels cfg = .error e) ↔
      ∃ f ∈ model.fields, entityResolutionFails model allModels f = true) ∧
    ((∃ e, computeCreateDtoParams model allModels cfg = .error e) ↔
      ∃ f ∈ model.fields, createResolutionFails model allModels f = true) ∧
    ((∃ e, computeUpdateDtoParams model allModels cfg = .error e) ↔
      ∃ f ∈ model.fields, updateResolutionFails model allModels f = true) ∧
    (∀ e, computeEntityParams model allModels cfg = .error e →
      e.model = model.name ∧ ∃ f ∈ model.fields, e.field = f.name ∧
        entityResolutionFails model allModels f = true) ∧
    (∀ e, computeCreateDtoParams model allModels cfg = .error e →
      e.model = model.name ∧ ∃ f ∈ model.fields, e.field = f.name ∧
        createResolutionFails model allModels f = true) ∧
    (∀ e, computeUpdateDtoParams model allModels cfg = .error e →
      e.model = model.name ∧ ∃ f ∈ model.fields, e.field = f.name ∧
        updateResolutionFails model allModels f = true) := by
  refine ⟨?_, ?_, ?_, ?_, ?_, ?_⟩
  · constructor
    · rintro ⟨e, he⟩
      have hfold := (computeEntityParams_error model allModels cfg e).mp he
      obtain ⟨f, hf, hfe⟩ := runFold_stepOf_error_mem _ _ _ _ _ hfold
      exact ⟨f, hf, (entityProcess_error_iff model allModels cfg f).mp ⟨e, hfe⟩⟩
    · rintro ⟨f, hf, hbad⟩
      obtain ⟨e, he⟩ := (runFold_stepOf_error_iff
        (entityProcessField model allModels cfg) applyEntity _ _).mpr
        ⟨f, hf, (entityProcess_error_iff model allModels cfg f).mpr hbad⟩
      exact ⟨e, (computeEntityParams_error model allModels cfg e).mpr he⟩
  · constructor
    · rintro ⟨e, he⟩
      have hfold := (computeCreateDtoParams_error model allModels cfg e).mp he
      obtain ⟨f, hf, hfe⟩ := runFold_stepOf_error_mem _ _ _ _ _ hfold
      exact ⟨f, hf,
        (createProcess_error_iff model allModels cfg f hmem).mp ⟨e, hfe⟩⟩
    · rintro ⟨f, hf, hbad⟩
      obtain ⟨e, he⟩ := (runFold_stepOf_error_iff
        (createProcessField model allModels cfg) applyCreate _ _).mpr
        ⟨f, hf, (createProcess_error_iff model allModels cfg f hmem).mpr hbad⟩
      exact ⟨e, (computeCreateDtoParams_error model allModels cfg e).mpr he⟩
  · constructor
    · rintro ⟨e, he⟩
      have hfold := (computeUpdateDtoParams_error model allModels cfg e).mp he
      obtain ⟨f, hf, hfe⟩ := runFold_stepOf_error_mem _ _ _ _ _ hfold
      exact ⟨f, hf,
        (updateProcess_error_iff model allModels cfg f hmem).mp ⟨e, hfe⟩⟩
    · rintro ⟨f, hf, hbad⟩
      obtain ⟨e, he⟩ := (runFold_stepOf_error_iff
        (updateProcessField model allModels cfg) applyUpdate _ _).mpr
        ⟨f, hf, (updateProcess_error_iff model allModels cfg f hmem).mpr hbad⟩
      exact ⟨e, (computeUpdateDtoParams_error model allModels cfg e).mpr he⟩
  · intro e he
    have hfold := (computeEntityParams_error model allModels cfg e).mp he
    obtain ⟨f, hf, hfe⟩ := runFold_stepOf_error_mem _ _ _ _ _ hfold
    have hval := entityProcess_error_val model allModels cfg f e hfe
    subst hval
    exact ⟨rfl, f, hf, rfl,
      (entityProcess_error_iff model allModels cfg f).mp ⟨_, hfe⟩⟩
  · intro e he
    have hfold := (computeCreateDtoParams_error model allModels cfg e).mp he
    obtain ⟨f, hf, hfe⟩ := runFold_stepOf_error_mem _ _ _ _ _ hfold
    have hval := createProcess_error_val model allModels cfg f e hfe
    subst hval
    exact ⟨rfl, f, hf, rfl,
      (createProcess_error_iff model allModels cfg f hmem).mp ⟨_, hfe⟩⟩
  · intro e he
    have hfold := (computeUpdateDtoParams_error model allModels cfg e).mp he
    obtain ⟨f, hf, hfe⟩ := runFold_stepOf_error_mem _ _ _ _ _ hfold
    have hval := updateProcess_error_val model allModels cfg f e hfe
    subst hval
    exact ⟨rfl, f, hf, rfl,
      (updateProcess_error_iff model allModels cfg f hmem).mp ⟨_, hfe⟩⟩

/-- Witness for C1 at a concrete schema: an entity with a
nested-structured-type field whose target is missing makes all three
pipelines fail, by the characterization. -/
theorem resolution_failure_characterization_witness :
    (∃ e, computeEntityParams writerModel [writerModel] cfgPlain = .error e) ∧
    (∃ e, computeCreateDtoParams writerModel [writerModel] cfgPlain = .error e) ∧
    (∃ e, computeUpdateDtoParams writerModel [writerModel] cfgPlain = .error e) := by
  have h := resolution_failure_characterization writerModel [writerModel]
    cfgPlain (by decide)
  refine ⟨h.1.mpr ?_, h.2.1.mpr ?_, h.2.2.1.mpr ?_⟩
  · exact ⟨{ baseField "profile" "Ghost" FieldKind.typ with isRequired := true },
      by decide, by decide⟩
  · exact ⟨{ baseField "profile" "Ghost" FieldKind.typ with isRequired := true },
      by decide, by decide⟩
  · exact ⟨{ baseField "profile" "Ghost" FieldKind.typ with isRequired := true },
      by decide, by decide⟩

/-! ## Entity pipeline output facts -/

theorem computeEntityParams_ok (model : Model) (allModels : List Model)
    (cfg : GeneratorConfig) (out : EntityParams)
    (h : computeEntityParams model allModels cfg = .ok out) :
    ∃ st, entityFold model allModels cfg = .ok st ∧
      out.fields = st.fields := by
  unfold computeEntityParams at h
  cases hfold : entityFold model allModels cfg with
  | error e => rw [hfold] at h; cases h
  | ok st =>
    rw [hfold] at h
    cases h
    exact ⟨st, rfl, rfl⟩

theorem entityFold_fields (model : Model) (allModels : List Model)
    (cfg : GeneratorConfig) (st : EntityState)
    (h : entityFold model allModels cfg = .ok st) :
    st.fields = collectOuts (entityProcessField model allModels cfg)
      (fun o => o.parsed.toList) model.fields := by
  unfold entityFold at h
  have := runFold_stepOf_proj (entityProcessField model allModels cfg)
    applyEntity (fun s => s.fields) (fun o => o.parsed.toList)
    (fun s o => rfl) _ _ _ h
  simpa using this

/-- Shape of the Entity outcome for an included relation field that is not
a tracked foreign-key scalar name. -/
theorem entityProcess_relation_overrides (model : Model)
    (allModels : List Model) (cfg : GeneratorConfig) (f : Field)
    (o : EntityOutcome)
    (hh : isAnnotatedWith f DTO_ENTITY_HIDDEN = false)
    (hrel : isRelation f = true)
    (hfk : (relationScalarNames model.fields).contains f.name = false)
    (h : entityProcessField model allModels cfg f = .ok o) :
    ∃ pf, o.parsed = some pf ∧ pf.field.name = f.name ∧
      pf.overrides.isRequired =
        some (isAnnotatedWith f DTO_RELATION_REQUIRED) ∧
      pf.overrides.isNullable =
        some (if f.isList then false
              else if f.isRequired then false
              else !isAnnotatedWith f DTO_RELATION_REQUIRED) := by
  simp only [entityProcessField, hh] at h
  simp only [Bool.false_eq_true, if_false] at h
  cases hfi : entityFieldImport model allModels f with
  | error e => rw [hfi] at h; cases h
  | ok fi =>
    rw [hfi] at h
    cases h
    refine ⟨_, rfl, ?_, ?_, ?_⟩
    · simp only [mapDMMFToParsedField]
      repeat' first
        | rfl
        | split
    · have hfk' : f.name ∉ relationScalarNames model.fields := by
        simpa using hfk
      simp [mapDMMFToParsedField, hfk', hrel]
    · have hfk' : f.name ∉ relationScalarNames model.fields := by
        simpa using hfk
      simp [mapDMMFToParsedField, hfk', hrel]

/-- Shape of the Entity outcome for an included tracked foreign-key scalar
field. -/
theorem entityProcess_fk_overrides (model : Model)
    (allModels : List Model) (cfg : GeneratorConfig) (f : Field)
    (o : EntityOutcome)
    (hh : isAnnotatedWith f DTO_ENTITY_HIDDEN = false)
    (hfk : (relationScalarNames model.fields).contains f.name = true)
    (h : entityProcessField model allModels cfg f = .ok o) :
    ∃ pf, o.parsed = some pf ∧ pf.field.name = f.name ∧
      pf.overrides.isRequired = some true ∧
      pf.overrides.isNullable =
        some (!anyOwnerRequired model (ownersOf model.fields f.name)) := by
  simp only [entityProcessField, hh] at h
  simp only [Bool.false_eq_true, if_false] at h
  cases hfi : entityFieldImport model allModels f with
  | error e => rw [hfi] at h; cases h
  | ok fi =>
    rw [hfi] at h
    cases h
    refine ⟨_, rfl, ?_, ?_, ?_⟩
    · simp only [mapDMMFToParsedField]
      repeat' first
        | rfl
        | split
    · have hfk' : f.name ∈ relationScalarNames model.fields := by
        simpa using hfk
      simp [mapDMMFToParsedField, hfk']
    · have hfk' : f.name ∈ relationScalarNames model.fields := by
        simpa using hfk
      simp [mapDMMFToParsedField, hfk']

/-- C2: for every relation field that the Entity pipeline includes in its
output (not hidden, and not shadowed by a tracked foreign-key scalar of
the same name), the resolved requiredness equals the presence of the
relation-required directive and the resolved nullability is false for list
fields, else false for schema-required fields, else the negation of the
directive's presence. -/
theorem entity_relation_requiredness_nullability (model : Model)
    (allModels : List Model) (cfg : GeneratorConfig) (out : EntityParams)
    (f : Field)
    (hok : computeEntityParams model allModels cfg = .ok out)
    (hf : f ∈ model.fields)
    (hrel : isRelation f = true)
    (hh : isAnnotatedWith f DTO_ENTITY_HIDDEN = false)
    (hfk : (relationScalarNames model.fields).contains f.name = false) :
    ∃ pf ∈ out.fields, pf.field.name = f.name ∧
      pf.resolvedRequired = isAnnotatedWith f DTO_RELATION_REQUIRED ∧
      pf.resolvedNullable =
        some (if f.isList then false
              else if f.isRequired then false
              else !isAnnotatedWith f DTO_RELATION_REQUIRED) := by
  obtain ⟨st, hfold, hfields⟩ := computeEntityParams_ok _ _ _ _ hok
  have hfold' := hfold
  unfold entityFold at hfold'
  obtain ⟨o, ho⟩ := runFold_stepOf_ok _ _ _ _ _ hfold' f hf
  obtain ⟨pf, hparsed, hname, hreq, hnul⟩ :=
    entityProcess_relation_overrides model allModels cfg f o hh hrel hfk ho
  refine ⟨pf, ?_, hname, ?_, ?_⟩
  · rw [hfields, entityFold_fields _ _ _ _ hfold]
    exact collectOuts_mem_of _ _ _ f hf o ho pf (by simp [hparsed])
  · simp [ParsedField.resolvedRequired, hreq]
  · simp [ParsedField.resolvedNullable, hnul]

/-- Witness for C2 at a concrete schema: the required single relation
field of the author entity comes out not required (no relation-required
directive) and not nullable. -/
theorem entity_relation_requiredness_nullability_witness :
    ∃ out, computeEntityParams authorModel authorBookModels cfgPlain =
        .ok out ∧
      ∃ pf ∈ out.fields, pf.field.name = "book" ∧
        pf.resolvedRequired = false ∧ pf.resolvedNullable = some false := by
  have hIsOk : (computeEntityParams authorModel authorBookModels
      cfgPlain).isOk = true := by decide
  cases h : computeEntityParams authorModel authorBookModels cfgPlain with
  | error e =>
    rw [h] at hIsOk
    simp [Except.isOk, Except.toBool] at hIsOk
  | ok out =>
    obtain ⟨pf, hpf, hname, hreq, hnul⟩ :=
      entity_relation_requiredness_nullability authorModel authorBookModels
        cfgPlain out authorBookField h (by decide) (by decide) (by decide)
        (by decide)
    refine ⟨out, rfl, pf, hpf, ?_, ?_, ?_⟩
    · rw [hname]; rfl
    · rw [hreq]; decide
    · rw [hnul]; decide

/-- With distinct field names, the find of the Entity pipeline's owner
check returns the relation field itself. -/
theorem find_name_nodup (fields : List Field) (g : Field)
    (hg : g ∈ fields) (hnd : (fields.map Field.name).Nodup) :
    fields.find? (fun x => decide (x.name = g.name)) = some g := by
  induction fields with
  | nil => cases hg
  | cons a as ih =>
    rw [List.map_cons, List.nodup_cons] at hnd
    rcases List.mem_cons.mp hg with rfl | hg'
    · simp [List.find?]
    · have hne : a.name ≠ g.name := by
        intro hc
        exact hnd.1 (hc ▸ List.mem_map.mpr ⟨g, hg', rfl⟩)
      rw [List.find?]
      have hdf : (decide (a.name = g.name)) = false := by simp [hne]
      rw [hdf]
      exact ih hg' hnd.2

/-- The Entity pipeline's owner-requiredness check agrees with the
declarative reading: some relation field owning the scalar is
schema-required or carries the relation-required directive. -/
theorem anyOwnerRequired_iff (model : Model) (s : String)
    (hnd : (model.fields.map Field.name).Nodup) :
    anyOwnerRequired model (ownersOf model.fields s) = true ↔
      ∃ g ∈ model.fields, isRelation g = true ∧
        s ∈ g.relationFromFields ∧
        (g.isRequired = true ∨
          isAnnotatedWith g DTO_RELATION_REQUIRED = true) := by
  unfold anyOwnerRequired ownersOf
  rw [List.any_eq_true]
  constructor
  · rintro ⟨rn, hrn, hmatch⟩
    rw [List.mem_map] at hrn
    obtain ⟨g, hgf, rfl⟩ := hrn
    rw [List.mem_filter] at hgf
    obtain ⟨hgmem, hgpred⟩ := hgf
    rw [Bool.and_eq_true, decide_eq_true_iff] at hgpred
    rw [find_name_nodup model.fields g hgmem hnd] at hmatch
    simp only [isRequired, Bool.or_eq_true] at hmatch
    exact ⟨g, hgmem, hgpred.1, hgpred.2, hmatch⟩
  · rintro ⟨g, hgmem, hgrel, hgs, hgreq⟩
    refine ⟨g.name, ?_, ?_⟩
    · rw [List.mem_map]
      exact ⟨g, List.mem_filter.mpr ⟨hgmem,
        by rw [Bool.and_eq_true, decide_eq_true_iff]; exact ⟨hgrel, hgs⟩⟩, rfl⟩
    · rw [find_name_nodup model.fields g hgmem hnd]
      simp only [isRequired, Bool.or_eq_true]
      exact hgreq

/-- C3: a scalar field tracked as the foreign key of at least one relation
field, when included in the Entity output, is marked required, and is
nullable exactly when no owning relation is required (schema-required or
carrying the relation-required directive). -/
theorem entity_fk_scalar_requiredness_nullability (model : Model)
    (allModels : List Model) (cfg : GeneratorConfig) (out : EntityParams)
    (f : Field)
    (hok : computeEntityParams model allModels cfg = .ok out)
    (hf : f ∈ model.fields)
    (_hscalar : f.kind = FieldKind.scalar)
    (hh : isAnnotatedWith f DTO_ENTITY_HIDDEN = false)
    (hfk : (relationScalarNames model.fields).contains f.name = true)
    (hnd : (model.fields.map Field.name).Nodup) :
    ∃ pf ∈ out.fields, pf.field.name = f.name ∧
      pf.resolvedRequired = true ∧
      ∃ b, pf.resolvedNullable = some b ∧
        (b = false ↔ ∃ g ∈ model.fields, isRelation g = true ∧
          f.name ∈ g.relationFromFields ∧
          (g.isRequired = true ∨
            isAnnotatedWith g DTO_RELATION_REQUIRED = true)) := by
  obtain ⟨st, hfold, hfields⟩ := computeEntityParams_ok _ _ _ _ hok
  have hfold' := hfold
  unfold entityFold at hfold'
  obtain ⟨o, ho⟩ := runFold_stepOf_ok _ _ _ _ _ hfold' f hf
  obtain ⟨pf, hparsed, hname, hreq, hnul⟩ :=
    entityProcess_fk_overrides model allModels cfg f o hh hfk ho
  refine ⟨pf, ?_, hname, ?_,
    !anyOwnerRequired model (ownersOf model.fields f.name), ?_, ?_⟩
  · rw [hfields, entityFold_fields _ _ _ _ hfold]
    exact collectOuts_mem_of _ _ _ f hf o ho pf (by simp [hparsed])
  · simp [ParsedField.resolvedRequired, hreq]
  · simp [ParsedField.resolvedNullable, hnul]
  · rw [Bool.not_eq_false']
    exact anyOwnerRequired_iff model f.name hnd

/-- Witness for C3 at a concrete schema: the tracked foreign-key scalar of
the author entity comes out required and non-nullable, its owning relation
being schema-required. -/
theorem entity_fk_scalar_requiredness_nullability_witness :
    ∃ out, computeEntityParams authorModel authorBookModels cfgPlain =
        .ok out ∧
      ∃ pf ∈ out.fields, pf.field.name = "bookId" ∧
        pf.resolvedRequired = true ∧ pf.resolvedNullable = some false := by
  have hIsOk : (computeEntityParams authorModel authorBookModels
      cfgPlain).isOk = true := by decide
  cases h : computeEntityParams authorModel authorBookModels cfgPlain with
  | error e =>
    rw [h] at hIsOk
    simp [Except.isOk, Except.toBool] at hIsOk
  | ok out =>
    obtain ⟨pf, hpf, hname, hreq, b, hnul, hb⟩ :=
      entity_fk_scalar_requiredness_nullability authorModel authorBookModels
        cfgPlain out authorBookIdField h (by decide) (by decide) (by decide)
        (by decide) (by decide)
    have hbf : b = false := hb.mpr
      ⟨authorBookField, by decide, by decide, by decide, Or.inl (by decide)⟩
    refine ⟨out, rfl, pf, hpf, ?_, hreq, ?_⟩
    · rw [hname]; rfl
    · rw [hnul, hbf]

/-! ## Create pipeline output facts -/

theorem computeCreateDtoParams_ok (model : Model) (allModels : List Model)
    (cfg : GeneratorConfig) (out : CreateDtoParams)
    (h : computeCreateDtoParams model allModels cfg = .ok out) :
    ∃ st, createFold model allModels cfg = .ok st ∧
      out.fields = st.fields := by
  unfold computeCreateDtoParams at h
  cases hfold : createFold model allModels cfg with
  | error e => rw [hfold] at h; cases h
  | ok st =>
    rw [hfold] at h
    cases h
    exact ⟨st, rfl, rfl⟩

theorem createFold_fields (model : Model) (allModels : List Model)
    (cfg : GeneratorConfig) (st : CreateState)
    (h : createFold model allModels cfg = .ok st) :
    st.fields = collectOuts (createProcessField model allModels cfg)
      (fun o => o.parsed.toList) model.fields := by
  unfold createFold at h
  have := runFold_stepOf_proj (createProcessField model allModels cfg)
    applyCreate (fun s => s.fields) (fun o => o.parsed.toList)
    (fun s o => rfl) _ _ _ h
  simpa using this

theorem generateRelationInput_setRO (model : Model) (allModels : List Model)
    (cfg : GeneratorConfig) (b : Bool) (c1 c2 c3 : String) (f : Field)
    (bval : Bool) :
    generateRelationInput model allModels cfg b c1 c2 c3
        { f with isReadOnly := bval } =
      generateRelationInput model allModels cfg b c1 c2 c3 f := rfl

theorem generateRelationInput_rewrite (model : Model)
    (allModels : List Model) (cfg : GeneratorConfig) (b : Bool)
    (c1 c2 c3 : String) (model' : Model) (f : Field) :
    generateRelationInput model allModels cfg b c1 c2 c3
        (rewriteIncludeId model' f) =
      generateRelationInput model allModels cfg b c1 c2 c3 f := by
  unfold rewriteIncludeId
  split
  · exact generateRelationInput_setRO model allModels cfg b c1 c2 c3 f false
  · rfl

/-- Shape of the Create outcome for a surviving relation field whose
synthesizer result takes the composite branch: the parsed field's
requiredness override is false when the field is a list. -/
theorem createProcessRest_composite (model : Model) (allModels : List Model)
    (cfg : GeneratorConfig) (f1 : Field) (o : CreateOutcome)
    (ri : RelationInput)
    (hh : isAnnotatedWith f1 DTO_CREATE_HIDDEN = false)
    (hro : isReadOnly f1 = false)
    (hrel : isRelation f1 = true)
    (hm : isAnnotatedWithOneOf f1 DTO_RELATION_MODIFIERS_ON_CREATE = true)
    (hg : generateRelationInput model allModels cfg true
      DTO_RELATION_CAN_CREATE_ON_CREATE DTO_RELATION_CAN_CONNECT_ON_CREATE
      DTO_RELATION_CAN_UPDATE_ON_UPDATE f1 = .ok ri)
    (hlen : ri.imports.length > 1)
    (hlist : f1.isList = true)
    (hfks : isAnnotatedWith f1 DTO_RELATION_INCLUDE_ID = true ∨
      (relationScalarNames model.fields).contains f1.name = false)
    (hsurv : isAnnotatedWith f1 DTO_CREATE_OPTIONAL = true ∨
      (isIdWithDefaultValue f1 || isUpdatedAt f1 ||
        isRequiredWithDefaultValue f1) = false)
    (h : createProcessRest model allModels cfg f1 = .ok o) :
    ∃ pf, o.parsed = some pf ∧ pf.field.name = f1.name ∧
      pf.overrides.isRequired = some false := by
  have hstage : createRelationStage model allModels cfg
      { createApiResp := some false } f1 =
    .ok (some (f1,
      { isRequired := some false, isNullable := none,
        type := some ri.type, isList := none,
        createApiResp := some false, updateApiResp := none },
      ri.imports, ri.generatedClasses,
      (if !cfg.noDependencies then ri.apiExtraModels else []),
      ri.classValidators)) := by
    unfold createRelationStage
    rw [hrel, hm, hg]
    simp only [Bool.not_true, Bool.false_eq_true, if_false, if_true, hlen,
      hlist]
    split <;> simp [hlist]
  have hdrop : ((!isAnnotatedWith f1 DTO_RELATION_INCLUDE_ID) &&
      (relationScalarNames model.fields).contains f1.name) = false := by
    rcases hfks with hinc | hcont
    · simp [hinc]
    · have hcont' : f1.name ∉ relationScalarNames model.fields := by
        simpa using hcont
      cases hb : isAnnotatedWith f1 DTO_RELATION_INCLUDE_ID <;>
        simp [hb, hcont']
  have hti := createTypeImport_of_not_type model allModels f1
    (isType_eq_false_of_isRelation hrel)
  simp only [createProcessRest, hh, hro, hstage] at h
  simp only [Bool.false_eq_true, if_false] at h
  by_cases hopt : isAnnotatedWith f1 DTO_CREATE_OPTIONAL = true
  · simp only [hdrop, hopt, hti] at h
    simp only [Bool.false_eq_true, if_false, Bool.not_true,
      Bool.false_and] at h
    cases h
    refine ⟨_, rfl, ?_, ?_⟩
    · simp only [mapDMMFToParsedField]
      repeat' first
      | rfl
      | split
    · simp [mapDMMFToParsedField]
      split <;> simp
  · have hbad : (isIdWithDefaultValue f1 || isUpdatedAt f1 ||
        isRequiredWithDefaultValue f1) = false := by
      rcases hsurv with h' | h'
      · exact absurd h' hopt
      · exact h'
    simp only [hdrop, hopt, hbad, hti] at h
    simp only [Bool.false_eq_true, if_false, Bool.not_false, Bool.true_and,
      Bool.and_false] at h
    cases h
    refine ⟨_, rfl, ?_, ?_⟩
    · simp only [mapDMMFToParsedField]
      repeat' first
      | rfl
      | split
    · simp [mapDMMFToParsedField, hopt]
      split <;> simp

/-- C4: a list-cardinality relation field that the Create pipeline
processes and that collapses to a composite nested-input type (more than
one synthesizer import) has resolved outer-level requiredness false, even
when it carries the relation-required directive. -/
theorem create_composite_list_never_required (model : Model)
    (allModels : List Model) (cfg : GeneratorConfig) (out : CreateDtoParams)
    (f : Field) (ri : RelationInput)
    (hok : computeCreateDtoParams model allModels cfg = .ok out)
    (hf : f ∈ model.fields)
    (hrel : isRelation f = true)
    (hlist : f.isList = true)
    (hh : isAnnotatedWith f DTO_CREATE_HIDDEN = false)
    (hro : readOnlyAfterRewrite model f = false)
    (hm : isAnnotatedWithOneOf f DTO_RELATION_MODIFIERS_ON_CREATE = true)
    (hg : generateRelationInput model allModels cfg true
      DTO_RELATION_CAN_CREATE_ON_CREATE DTO_RELATION_CAN_CONNECT_ON_CREATE
      DTO_RELATION_CAN_UPDATE_ON_UPDATE f = .ok ri)
    (hlen : ri.imports.length > 1)
    (hfks : isAnnotatedWith f DTO_RELATION_INCLUDE_ID = true ∨
      (relationScalarNames model.fields).contains f.name = false)
    (hsurv : isAnnotatedWith f DTO_CREATE_OPTIONAL = true ∨
      (isIdWithDefaultValue f || isUpdatedAt f ||
        isRequiredWithDefaultValue f) = false) :
    ∃ pf ∈ out.fields, pf.field.name = f.name ∧
      pf.resolvedRequired = false := by
  obtain ⟨st, hfold, hfields⟩ := computeCreateDtoParams_ok _ _ _ _ hok
  have hfold' := hfold
  unfold createFold at hfold'
  obtain ⟨o, ho⟩ := runFold_stepOf_ok _ _ _ _ _ hfold' f hf
  have ho' : createProcessRest model allModels cfg
      (rewriteIncludeId model f) = .ok o := ho
  obtain ⟨pf, hparsed, hname, hreq⟩ :=
    createProcessRest_composite model allModels cfg
      (rewriteIncludeId model f) o ri
      (by simpa using hh) (by rw [isReadOnly_rewrite]; exact hro)
      (by simpa using hrel) (by simpa using hm)
      (by rw [generateRelationInput_rewrite]; exact hg) hlen
      (by simpa using hlist) (by simpa using hfks) (by simpa using hsurv) ho'
  refine ⟨pf, ?_, by simpa using hname, ?_⟩
  · rw [hfields, createFold_fields _ _ _ _ hfold]
    exact collectOuts_mem_of _ _ _ f hf o ho pf (by simp [hparsed])
  · simp [ParsedField.resolvedRequired, hreq]

/-- Witness for C4 at a concrete schema: the list relation of the author
entity, annotated relation-required and with two enabled create modes,
comes out not required. -/
theorem create_composite_list_never_required_witness :
    ∃ out, computeCreateDtoParams authorModel authorBookModels cfgPlain =
        .ok out ∧
      ∃ pf ∈ out.fields, pf.field.name = "books" ∧
        pf.resolvedRequired = false := by
  have hIsOk : (computeCreateDtoParams authorModel authorBookModels
      cfgPlain).isOk = true := by decide
  have hlenB : (match generateRelationInput authorModel authorBookModels
      cfgPlain true DTO_RELATION_CAN_CREATE_ON_CREATE
      DTO_RELATION_CAN_CONNECT_ON_CREATE DTO_RELATION_CAN_UPDATE_ON_UPDATE
      authorBooksField with
    | .ok ri => decide (ri.imports.length > 1)
    | .error _ => false) = true := by decide
  cases h : computeCreateDtoParams authorModel authorBookModels cfgPlain with
  | error e =>
    rw [h] at hIsOk
    simp [Except.isOk, Except.toBool] at hIsOk
  | ok out =>
    cases hg : generateRelationInput authorModel authorBookModels cfgPlain
        true DTO_RELATION_CAN_CREATE_ON_CREATE
        DTO_RELATION_CAN_CONNECT_ON_CREATE DTO_RELATION_CAN_UPDATE_ON_UPDATE
        authorBooksField with
    | error e =>
      rw [hg] at hlenB
      simp at hlenB
    | ok ri =>
      rw [hg] at hlenB
      have hlen : ri.imports.length > 1 := of_decide_eq_true hlenB
      obtain ⟨pf, hpf, hname, hreq⟩ :=
        create_composite_list_never_required authorModel authorBookModels
          cfgPlain out authorBooksField ri h (by decide) (by decide)
          (by decide) (by decide) (by decide) (by decide) hg hlen
          (Or.inr (by decide)) (Or.inr (by decide))
      exact ⟨out, rfl, pf, hpf, by rw [hname]; rfl, hreq⟩

/-! ## No-self-import safety -/

theorem buildRelationInput_imports_eq (model target : Model)
    (cfg : GeneratorConfig) (b : Bool) (c1 c2 c3 : String) (f : Field) :
    (buildRelationInput model target cfg b c1 c2 c3 f).imports =
      (relationModes f c1 c2 c3).filterMap
        (relationModeImport model target f) := by
  unfold buildRelationInput
  dsimp only
  split <;> rfl

theorem relationModeImport_safe (model target : Model) (f : Field)
    (m : RelationMode) (r : ImportStatementParams)
    (h : relationModeImport model target f m = some r)
    (n : TypeName) (hn : n ∈ r.destruct) :
    ¬ isArtifactNameOf model.name n := by
  unfold relationModeImport at h
  split at h
  · cases h
  · next hne =>
    cases h
    rw [List.mem_singleton] at hn
    subst hn
    cases m <;> simp [modeTypeName, isArtifactNameOf] <;>
      intro hc <;> exact hne hc

theorem buildRelationInput_imports_safe (model target : Model)
    (cfg : GeneratorConfig) (b : Bool) (c1 c2 c3 : String) (f : Field)
    (r : ImportStatementParams)
    (hr : r ∈ (buildRelationInput model target cfg b c1 c2 c3 f).imports)
    (n : TypeName) (hn : n ∈ r.destruct) :
    ¬ isArtifactNameOf model.name n := by
  rw [buildRelationInput_imports_eq] at hr
  rw [List.mem_filterMap] at hr
  obtain ⟨m, hm, hmk⟩ := hr
  exact relationModeImport_safe model target f m r hmk n hn

theorem generateRelationInput_imports_safe (model : Model)
    (allModels : List Model) (cfg : GeneratorConfig) (b : Bool)
    (c1 c2 c3 : String) (f : Field) (ri : RelationInput)
    (h : generateRelationInput model allModels cfg b c1 c2 c3 f = .ok ri)
    (r : ImportStatementParams) (hr : r ∈ ri.imports)
    (n : TypeName) (hn : n ∈ r.destruct) :
    ¬ isArtifactNameOf model.name n := by
  unfold generateRelationInput at h
  split at h
  · cases h
  · cases h
    exact buildRelationInput_imports_safe _ _ _ _ _ _ _ _ _ hr _ hn

theorem entityFieldImport_safe (model : Model) (allModels : List Model)
    (f : Field) (src : ImportSource) (n : TypeName)
    (h : entityFieldImport model allModels f = .ok (some (src, n))) :
    ¬ isArtifactNameOf model.name n := by
  unfold entityFieldImport at h
  split at h
  · split at h
    · cases h
    · next hne =>
      split at h
      · cases h
      · cases h
        simp [isArtifactNameOf]
        intro hc
        exact hne hc
  · split at h
    · split at h
      · cases h
      · next hne =>
        split at h
        · cases h
        · cases h
          simp [isArtifactNameOf]
          intro hc
          exact hne hc
    · cases h

theorem createTypeImport_safe (model : Model) (allModels : List Model)
    (f : Field) (src : ImportSource) (n : TypeName)
    (h : createTypeImport model allModels f = .ok (some (src, n))) :
    ¬ isArtifactNameOf model.name n := by
  unfold createTypeImport at h
  split at h
  · split at h
    · cases h
    · next hne =>
      split at h
      · cases h
      · cases h
        simp [isArtifactNameOf]
        intro hc
        exact hne hc
  · cases h

theorem updateTypeImport_safe (model : Model) (allModels : List Model)
    (b : Bool) (f : Field) (src : ImportSource) (n : TypeName)
    (h : updateTypeImport model allModels b f = .ok (some (src, n))) :
    ¬ isArtifactNameOf model.name n := by
  unfold updateTypeImport at h
  split at h
  · split at h
    · cases h
    · next hne =>
      split at h
      · cases h
      · cases h
        split <;>
          · simp [isArtifactNameOf]
            intro hc
            exact hne hc
  · cases h

theorem raw_not_artifact (t x : String) :
    ¬ isArtifactNameOf t (TypeName.raw x) := by
  simp [isArtifactNameOf]

theorem createRelationStage_imports_safe (model : Model)
    (allModels : List Model) (cfg : GeneratorConfig) (o0 : FieldOverrides)
    (f1 f2 : Field) (o1 : FieldOverrides)
    (rims : List ImportStatementParams) (gc : List TypeName)
    (xm : List String) (cv : List IClassValidator)
    (h : createRelationStage model allModels cfg o0 f1 =
      .ok (some (f2, o1, rims, gc, xm, cv))) :
    ∀ r ∈ rims, ∀ n ∈ r.destruct, ¬ isArtifactNameOf model.name n := by
  unfold createRelationStage at h
  split at h
  · split at h
    · cases h
    · split at h
      · cases h
      · next ri heq =>
          have hsafe : ∀ r ∈ ri.imports, ∀ n ∈ r.destruct,
              ¬ isArtifactNameOf model.name n :=
            fun r hr n hn =>
              generateRelationInput_imports_safe _ _ _ _ _ _ _ _ _ heq
                r hr n hn
          split at h
          · cases h
            exact hsafe
          · split at h
            · split at h
              · cases h
                exact hsafe
              · cases h
                exact hsafe
            · cases h
              exact hsafe
  · cases h
    intro r hr
    simp at hr

theorem updateRelationStage_imports_safe (model : Model)
    (allModels : List Model) (cfg : GeneratorConfig) (o0 : FieldOverrides)
    (f1 : Field) (o1 : FieldOverrides)
    (rims : List ImportStatementParams) (gc : List TypeName)
    (xm : List String) (cv : List IClassValidator)
    (h : updateRelationStage model allModels cfg o0 f1 =
      .ok (some (o1, rims, gc, xm, cv))) :
    ∀ r ∈ rims, ∀ n ∈ r.destruct, ¬ isArtifactNameOf model.name n := by
  unfold updateRelationStage at h
  split at h
  · split at h
    · cases h
    · split at h
      · cases h
      · next ri heq =>
          cases h
          exact fun r hr n hn =>
            generateRelationInput_imports_safe _ _ _ _ _ _ _ _ _ heq r hr n hn
  · cases h
    intro r hr
    simp at hr

theorem entityProcessField_fieldImport (model : Model)
    (allModels : List Model) (cfg : GeneratorConfig) (f : Field)
    (o : EntityOutcome)
    (h : entityProcessField model allModels cfg f = .ok o) :
    o.fieldImport = none ∨
      entityFieldImport model allModels f = .ok o.fieldImport := by
  simp only [entityProcessField] at h
  split at h
  · cases h
    exact Or.inl rfl
  · split at h
    · cases h
    · next fi heq =>
        cases h
        exact Or.inr heq

theorem entityFold_imports_safe (model : Model) (allModels : List Model)
    (cfg : GeneratorConfig) (st : EntityState)
    (h : entityFold model allModels cfg = .ok st) :
    ∀ r ∈ st.imports, ∀ n ∈ r.destruct, ¬ isArtifactNameOf model.name n := by
  intro r hr n hn
  unfold entityFold at h
  have happly : ∀ (s : EntityState) (o : EntityOutcome)
      (b : ImportStatementParams),
      b ∈ (applyEntity s o).imports → b ∈ s.imports ∨
        b ∈ (if o.unshiftType then
              [(⟨ImportSource.lib "class-transformer",
                 [TypeName.raw "Type"]⟩ : ImportStatementParams)]
             else []) ++
            (match o.fieldImport with
             | some (src, m) => [(⟨src, [m]⟩ : ImportStatementParams)]
             | none => []) := by
    intro s o b hb
    simp only [applyEntity] at hb
    rw [List.mem_append] at hb
    rcases hb with hb | hb
    · exact Or.inr (List.mem_append_left _ hb)
    · rcases mem_pushFieldImport _ _ _ hb with hb' | ⟨src, m, hc, rfl⟩
      · exact Or.inl hb'
      · refine Or.inr (List.mem_append_right _ ?_)
        rw [hc]
        simp
  rcases runFold_stepOf_mem _ _ _ _ happly _ _ _ h r hr with
    h0 | ⟨f, _hf, o, ho, hcand⟩
  · simp at h0
  · rw [List.mem_append] at hcand
    rcases hcand with hct | hfi
    · split at hct
      · have hr2 : r = ⟨ImportSource.lib "class-transformer",
            [TypeName.raw "Type"]⟩ := List.mem_singleton.mp hct
        subst hr2
        have hn2 : n = TypeName.raw "Type" := List.mem_singleton.mp hn
        subst hn2
        exact raw_not_artifact _ _
      · simp at hct
    · cases hfio : o.fieldImport with
      | none => rw [hfio] at hfi; simp at hfi
      | some p =>
        obtain ⟨src, m⟩ := p
        rw [hfio] at hfi
        have hr2 : r = ⟨src, [m]⟩ := List.mem_singleton.mp hfi
        subst hr2
        have hn2 : n = m := List.mem_singleton.mp hn
        subst hn2
        rcases entityProcessField_fieldImport _ _ _ _ _ ho with hnone | hok
        · rw [hnone] at hfio
          cases hfio
        · rw [hfio] at hok
          exact entityFieldImport_safe _ _ _ _ _ hok

theorem createProcessRest_imports_safe (model : Model)
    (allModels : List Model) (cfg : GeneratorConfig) (f1 : Field)
    (o : CreateOutcome)
    (h : createProcessRest model allModels cfg f1 = .ok o) :
    (∀ r ∈ o.relImports, ∀ n ∈ r.destruct,
        ¬ isArtifactNameOf model.name n) ∧
    (∀ src n, o.fieldImport = some (src, n) →
        ¬ isArtifactNameOf model.name n) := by
  simp only [createProcessRest] at h
  split at h
  · cases h
    constructor
    · intro r hr
      simp [dropCreate] at hr
    · intro src n hc
      simp [dropCreate] at hc
  · split at h
    · cases h
      constructor
      · intro r hr
        simp [dropCreate] at hr
      · intro src n hc
        simp [dropCreate] at hc
    · split at h
      · cases h
      · cases h
        constructor
        · intro r hr
          simp [dropCreate] at hr
        · intro src n hc
          simp [dropCreate] at hc
      · next f2 o1 rims gc xm cv heq =>
          have hsafe := createRelationStage_imports_safe model allModels cfg
            { createApiResp := some false } f1 f2 o1 rims gc xm cv heq
          split at h
          · cases h
            refine ⟨fun r hr => hsafe r hr, ?_⟩
            intro src n hc
            simp [dropCreate] at hc
          · split at h
            · cases h
              refine ⟨fun r hr => hsafe r hr, ?_⟩
              intro src n hc
              simp [dropCreate] at hc
            · split at h
              · cases h
              · next fi heq2 =>
                  cases h
                  refine ⟨fun r hr => hsafe r hr, ?_⟩
                  intro src n hc
                  have hc' : fi = some (src, n) := hc
                  rw [hc'] at heq2
                  exact createTypeImport_safe _ _ _ _ _ heq2

theorem createFold_imports_safe (model : Model) (allModels : List Model)
    (cfg : GeneratorConfig) (st : CreateState)
    (h : createFold model allModels cfg = .ok st) :
    ∀ r ∈ st.imports, ∀ n ∈ r.destruct, ¬ isArtifactNameOf model.name n := by
  intro r hr n hn
  unfold createFold at h
  have happly : ∀ (s : CreateState) (o : CreateOutcome)
      (b : ImportStatementParams),
      b ∈ (applyCreate s o).imports → b ∈ s.imports ∨
        b ∈ o.relImports ++
            (match o.fieldImport with
             | some (src, m) => [(⟨src, [m]⟩ : ImportStatementParams)]
             | none => []) := by
    intro s o b hb
    simp only [applyCreate] at hb
    rcases mem_pushFieldImport _ _ _ hb with hb' | ⟨src, m, hc, rfl⟩
    · rw [List.mem_append] at hb'
      rcases hb' with hb'' | hb''
      · exact Or.inl hb''
      · exact Or.inr (List.mem_append_left _ hb'')
    · refine Or.inr (List.mem_append_right _ ?_)
      rw [hc]
      simp
  rcases runFold_stepOf_mem _ _ _ _ happly _ _ _ h r hr with
    h0 | ⟨f, _hf, o, ho, hcand⟩
  · simp at h0
  · obtain ⟨hrel, hfi⟩ := createProcessRest_imports_safe model allModels cfg
      (rewriteIncludeId model f) o ho
    rw [List.mem_append] at hcand
    rcases hcand with hri | hpi
    · exact hrel r hri n hn
    · cases hfio : o.fieldImport with
      | none => rw [hfio] at hpi; simp at hpi
      | some p =>
        obtain ⟨src, m⟩ := p
        rw [hfio] at hpi
        have hr2 : r = ⟨src, [m]⟩ := List.mem_singleton.mp hpi
        subst hr2
        have hn2 : n = m := List.mem_singleton.mp hn
        subst hn2
        exact hfi src n hfio

theorem updateProcessRest_imports_safe (model : Model)
    (allModels : List Model) (cfg : GeneratorConfig) (f1 : Field)
    (o : UpdateOutcome)
    (h : updateProcessRest model allModels cfg f1 = .ok o) :
    (∀ r ∈ o.relImports, ∀ n ∈ r.destruct,
        ¬ isArtifactNameOf model.name n) ∧
    (∀ src n, o.fieldImport = some (src, n) →
        ¬ isArtifactNameOf model.name n) := by
  simp only [updateProcessRest] at h
  split at h
  · cases h
    constructor
    · intro r hr
      simp [dropUpdate] at hr
    · intro src n hc
      simp [dropUpdate] at hc
  · split at h
    · cases h
      constructor
      · intro r hr
        simp [dropUpdate] at hr
      · intro src n hc
        simp [dropUpdate] at hc
    · split at h
      · cases h
      · cases h
        constructor
        · intro r hr
          simp [dropUpdate] at hr
        · intro src n hc
          simp [dropUpdate] at hc
      · next o1 rims gc xm cv heq =>
          have hsafe := updateRelationStage_imports_safe model allModels cfg
            { isRequired := some false, isNullable := some (!f1.isRequired),
              updateApiResp := some false } f1 o1 rims gc xm cv heq
          split at h
          · cases h
            refine ⟨fun r hr => hsafe r hr, ?_⟩
            intro src n hc
            simp [dropUpdate] at hc
          · split at h
            · cases h
              refine ⟨fun r hr => hsafe r hr, ?_⟩
              intro src n hc
              simp [dropUpdate] at hc
            · split at h
              · cases h
              · next fi heq2 =>
                  cases h
                  refine ⟨fun r hr => hsafe r hr, ?_⟩
                  intro src n hc
                  have hc' : fi = some (src, n) := hc
                  rw [hc'] at heq2
                  exact updateTypeImport_safe _ _ _ _ _ _ heq2

theorem updateFold_imports_safe (model : Model) (allModels : List Model)
    (cfg : GeneratorConfig) (st : UpdateState)
    (h : updateFold model allModels cfg = .ok st) :
    ∀ r ∈ st.imports, ∀ n ∈ r.destruct, ¬ isArtifactNameOf model.name n := by
  intro r hr n hn
  unfold updateFold at h
  have happly : ∀ (s : UpdateState) (o : UpdateOutcome)
      (b : ImportStatementParams),
      b ∈ (applyUpdate s o).imports → b ∈ s.imports ∨
        b ∈ o.relImports ++
            (match o.fieldImport with
             | some (src, m) => [(⟨src, [m]⟩ : ImportStatementParams)]
             | none => []) := by
    intro s o b hb
    simp only [applyUpdate] at hb
    rcases mem_pushFieldImport _ _ _ hb with hb' | ⟨src, m, hc, rfl⟩
    · rw [List.mem_append] at hb'
      rcases hb' with hb'' | hb''
      · exact Or.inl hb''
      · exact Or.inr (List.mem_append_left _ hb'')
    · refine Or.inr (List.mem_append_right _ ?_)
      rw [hc]
      simp
  rcases runFold_stepOf_mem _ _ _ _ happly _ _ _ h r hr with
    h0 | ⟨f, _hf, o, ho, hcand⟩
  · simp at h0
  · obtain ⟨hrel, hfi⟩ := updateProcessRest_imports_safe model allModels cfg
      (rewriteIncludeId model f) o ho
    rw [List.mem_append] at hcand
    rcases hcand with hri | hpi
    · exact hrel r hri n hn
    · cases hfio : o.fieldImport with
      | none => rw [hfio] at hpi; simp at hpi
      | some p =>
        obtain ⟨src, m⟩ := p
        rw [hfio] at hpi
        have hr2 : r = ⟨src, [m]⟩ := List.mem_singleton.mp hpi
        subst hr2
        have hn2 : n = m := List.mem_singleton.mp hn
        subst hn2
        exact hfi src n hfio

theorem makeImportsFromPrismaClient_raw (fields : List ParsedField)
    (p : String) (r : ImportStatementParams)
    (hr : r ∈ makeImportsFromPrismaClient fields p)
    (n : TypeName) (hn : n ∈ r.destruct) : ∃ x, n = TypeName.raw x := by
  unfold makeImportsFromPrismaClient at hr
  split at hr
  · have hr2 : r = ⟨ImportSource.lib p, [TypeName.raw "Prisma"]⟩ :=
      List.mem_singleton.mp hr
    subst hr2
    exact ⟨"Prisma", List.mem_singleton.mp hn⟩
  · simp at hr

theorem swaggerImportRecord_raw (a b c : Bool) (n : TypeName)
    (hn : n ∈ (swaggerImportRecord a b c).destruct) :
    ∃ x, n = TypeName.raw x := by
  unfold swaggerImportRecord at hn
  rcases List.mem_append.mp hn with h2 | h2
  · rcases List.mem_append.mp h2 with h3 | h3
    · split at h3
      · exact ⟨"ApiExtraModels", List.mem_singleton.mp h3⟩
      · simp at h3
    · split at h3
      · exact ⟨"ApiProperty", List.mem_singleton.mp h3⟩
      · simp at h3
  · split at h2
    · exact ⟨"ApiResponseProperty", List.mem_singleton.mp h2⟩
    · simp at h2

theorem addClassValidatorImports_mem (cv : List IClassValidator)
    (ims : List ImportStatementParams) (r : ImportStatementParams)
    (hr : r ∈ addClassValidatorImports cv ims) :
    r ∈ ims ∨ ∀ n ∈ r.destruct, ∃ x, n = TypeName.raw x := by
  unfold addClassValidatorImports at hr
  split at hr
  · rw [List.mem_cons] at hr
    rcases hr with rfl | hr
    · right
      intro n hn
      obtain ⟨x, _, hmap⟩ := List.mem_map.mp hn
      exact ⟨x, hmap.symm⟩
    · split at hr
      · rw [List.mem_cons] at hr
        rcases hr with rfl | hr
        · right
          intro n hn
          exact ⟨"Type", List.mem_singleton.mp hn⟩
        · exact Or.inl hr
      · exact Or.inl hr
  · exact Or.inl hr

theorem computeEntityParams_imports_safe (model : Model)
    (allModels : List Model) (cfg : GeneratorConfig) (out : EntityParams)
    (h : computeEntityParams model allModels cfg = .ok out) :
    ∀ r ∈ out.imports, ∀ n ∈ r.destruct,
      ¬ isArtifactNameOf model.name n := by
  unfold computeEntityParams at h
  cases hfold : entityFold model allModels cfg with
  | error e => rw [hfold] at h; cases h
  | ok st =>
    rw [hfold] at h
    cases h
    intro r hr n hn
    refine zip_destruct (fun m => ¬ isArtifactNameOf model.name m)
      (makeImportsFromPrismaClient st.fields cfg.prismaClientImportPath ++
        ((⟨ImportSource.lib "class-transformer", [TypeName.raw "Expose"]⟩ :
           ImportStatementParams) ::
         (if st.apiExtraModels.length ≠ 0 || st.hasApiProperty then
            (⟨ImportSource.lib "@nestjs/swagger",
              (if st.apiExtraModels.length ≠ 0 then
                 [TypeName.raw "ApiExtraModels"] else []) ++
              (if st.hasApiProperty then [TypeName.raw "ApiProperty"]
               else [])⟩ : ImportStatementParams) :: st.imports
          else st.imports)))
      ?_ r hr n hn
    intro r' hr' n' hn'
    rw [List.mem_append] at hr'
    rcases hr' with hp | hi
    · obtain ⟨x, rfl⟩ := makeImportsFromPrismaClient_raw _ _ _ hp _ hn'
      exact raw_not_artifact _ _
    · rw [List.mem_cons] at hi
      rcases hi with rfl | hi
      · have hn2 : n' = TypeName.raw "Expose" := List.mem_singleton.mp hn'
        subst hn2
        exact raw_not_artifact _ _
      · split at hi
        · rw [List.mem_cons] at hi
          rcases hi with rfl | hi
          · rcases List.mem_append.mp hn' with h2 | h2
            · split at h2
              · have hn2 : n' = TypeName.raw "ApiExtraModels" :=
                  List.mem_singleton.mp h2
                subst hn2
                exact raw_not_artifact _ _
              · simp at h2
            · split at h2
              · have hn2 : n' = TypeName.raw "ApiProperty" :=
                  List.mem_singleton.mp h2
                subst hn2
                exact raw_not_artifact _ _
              · simp at h2
          · exact entityFold_imports_safe _ _ _ _ hfold r' hi n' hn'
        · exact entityFold_imports_safe _ _ _ _ hfold r' hi n' hn'

theorem computeCreateDtoParams_imports_safe (model : Model)
    (allModels : List Model) (cfg : GeneratorConfig) (out : CreateDtoParams)
    (h : computeCreateDtoParams model allModels cfg = .ok out) :
    ∀ r ∈ out.imports, ∀ n ∈ r.destruct,
      ¬ isArtifactNameOf model.name n := by
  unfold computeCreateDtoParams at h
  cases hfold : createFold model allModels cfg with
  | error e => rw [hfold] at h; cases h
  | ok st =>
    rw [hfold] at h
    cases h
    intro r hr n hn
    refine zip_destruct (fun m => ¬ isArtifactNameOf model.name m)
      (makeImportsFromPrismaClient st.fields cfg.prismaClientImportPath ++
        addClassValidatorImports st.classValidators
          (if st.apiExtraModels.length ≠ 0 || st.hasApiProperty ||
              st.hasApiRespProperty then
             swaggerImportRecord (st.apiExtraModels.length ≠ 0)
               st.hasApiProperty st.hasApiRespProperty :: st.imports
           else st.imports))
      ?_ r hr n hn
    intro r' hr' n' hn'
    rw [List.mem_append] at hr'
    rcases hr' with hp | hi
    · obtain ⟨x, rfl⟩ := makeImportsFromPrismaClient_raw _ _ _ hp _ hn'
      exact raw_not_artifact _ _
    · rcases addClassValidatorImports_mem _ _ _ hi with hi' | hraw
      · split at hi'
        · rw [List.mem_cons] at hi'
          rcases hi' with rfl | hi'
          · obtain ⟨x, rfl⟩ := swaggerImportRecord_raw _ _ _ _ hn'
            exact raw_not_artifact _ _
          · exact createFold_imports_safe _ _ _ _ hfold r' hi' n' hn'
        · exact createFold_imports_safe _ _ _ _ hfold r' hi' n' hn'
      · obtain ⟨x, rfl⟩ := hraw n' hn'
        exact raw_not_artifact _ _

theorem computeUpdateDtoParams_imports_safe (model : Model)
    (allModels : List Model) (cfg : GeneratorConfig) (out : UpdateDtoParams)
    (h : computeUpdateDtoParams model allModels cfg = .ok out) :
    ∀ r ∈ out.imports, ∀ n ∈ r.destruct,
      ¬ isArtifactNameOf model.name n := by
  unfold computeUpdateDtoParams at h
  cases hfold : updateFold model allModels cfg with
  | error e => rw [hfold] at h; cases h
  | ok st =>
    rw [hfold] at h
    cases h
    intro r hr n hn
    refine zip_destruct (fun m => ¬ isArtifactNameOf model.name m)
      (makeImportsFromPrismaClient st.fields cfg.prismaClientImportPath ++
        addClassValidatorImports st.classValidators
          (if st.apiExtraModels.length ≠ 0 || st.hasApiProperty ||
              st.hasApiRespProperty then
             swaggerImportRecord (st.apiExtraModels.length ≠ 0)
               st.hasApiProperty st.hasApiRespProperty :: st.imports
           else st.imports))
      ?_ r hr n hn
    intro r' hr' n' hn'
    rw [List.mem_append] at hr'
    rcases hr' with hp | hi
    · obtain ⟨x, rfl⟩ := makeImportsFromPrismaClient_raw _ _ _ hp _ hn'
      exact raw_not_artifact _ _
    · rcases addClassValidatorImports_mem _ _ _ hi with hi' | hraw
      · split at hi'
        · rw [List.mem_cons] at hi'
          rcases hi' with rfl | hi'
          · obtain ⟨x, rfl⟩ := swaggerImportRecord_raw _ _ _ _ hn'
            exact raw_not_artifact _ _
          · exact updateFold_imports_safe _ _ _ _ hfold r' hi' n' hn'
        · exact updateFold_imports_safe _ _ _ _ hfold r' hi' n' hn'
      · obtain ⟨x, rfl⟩ := hraw n' hn'
        exact raw_not_artifact _ _

/-- C5: in each of the three pipelines, a relation or nested-structured
-type field whose declared type equals the name of the entity being
processed never contributes a cross-entity import record: no import
record of a successful computation carries any artifact name generated
for that field's declared type (the entity's own name). -/
theorem no_self_import (model : Model) (allModels : List Model)
    (cfg : GeneratorConfig) (f : Field)
    (_hf : f ∈ model.fields)
    (_hk : isRelation f = true ∨ isType f = true)
    (hself : f.type = model.name)
    (outE : EntityParams) (outC : CreateDtoParams) (outU : UpdateDtoParams)
    (hE : computeEntityParams model allModels cfg = .ok outE)
    (hC : computeCreateDtoParams model allModels cfg = .ok outC)
    (hU : computeUpdateDtoParams model allModels cfg = .ok outU) :
    (∀ r ∈ outE.imports, ∀ n ∈ r.destruct, ¬ isArtifactNameOf f.type n) ∧
    (∀ r ∈ outC.imports, ∀ n ∈ r.destruct, ¬ isArtifactNameOf f.type n) ∧
    (∀ r ∈ outU.imports, ∀ n ∈ r.destruct, ¬ isArtifactNameOf f.type n) := by
  rw [hself]
  exact ⟨computeEntityParams_imports_safe _ _ _ _ hE,
         computeCreateDtoParams_imports_safe _ _ _ _ hC,
         computeUpdateDtoParams_imports_safe _ _ _ _ hU⟩

/-- Witness for C5 at a concrete schema: the self-referential relation of
the cat entity yields successful computations in all three pipelines, none
of whose imports name an artifact of the entity itself. -/
theorem no_self_import_witness :
    ∃ f ∈ catModel.fields, isRelation f = true ∧ f.type = catModel.name ∧
      ∃ outE outC outU,
        computeEntityParams catModel [catModel] cfgPlain = .ok outE ∧
        computeCreateDtoParams catModel [catModel] cfgPlain = .ok outC ∧
        computeUpdateDtoParams catModel [catModel] cfgPlain = .ok outU ∧
        ((∀ r ∈ outE.imports, ∀ n ∈ r.destruct,
            ¬ isArtifactNameOf f.type n) ∧
         (∀ r ∈ outC.imports, ∀ n ∈ r.destruct,
            ¬ isArtifactNameOf f.type n) ∧
         (∀ r ∈ outU.imports, ∀ n ∈ r.destruct,
            ¬ isArtifactNameOf f.type n)) := by
  have hEk : (computeEntityParams catModel [catModel] cfgPlain).isOk =
      true := by decide
  have hCk : (computeCreateDtoParams catModel [catModel] cfgPlain).isOk =
      true := by decide
  have hUk : (computeUpdateDtoParams catModel [catModel] cfgPlain).isOk =
      true := by decide
  cases hE : computeEntityParams catModel [catModel] cfgPlain with
  | error e => rw [hE] at hEk; simp [Except.isOk, Except.toBool] at hEk
  | ok outE =>
    cases hC : computeCreateDtoParams catModel [catModel] cfgPlain with
    | error e => rw [hC] at hCk; simp [Except.isOk, Except.toBool] at hCk
    | ok outC =>
      cases hU : computeUpdateDtoParams catModel [catModel] cfgPlain with
      | error e => rw [hU] at hUk; simp [Except.isOk, Except.toBool] at hUk
      | ok outU =>
        have hmain := no_self_import catModel [catModel] cfgPlain
          { baseField "parent" "Cat" FieldKind.relation with
              anns := [DTO_RELATION_CAN_CONNECT_ON_CREATE,
                       DTO_RELATION_CAN_CONNECT_ON_UPDATE] }
          (by decide) (Or.inl (by decide)) (by decide)
          outE outC outU hE hC hU
        exact ⟨{ baseField "parent" "Cat" FieldKind.relation with
                   anns := [DTO_RELATION_CAN_CONNECT_ON_CREATE,
                            DTO_RELATION_CAN_CONNECT_ON_UPDATE] },
               by decide, by decide, by decide,
               outE, outC, outU, rfl, rfl, rfl, hmain⟩


theorem computeUpdateDtoParams_ok (model : Model) (allModels : List Model)
    (cfg : GeneratorConfig) (out : UpdateDtoParams)
    (h : computeUpdateDtoParams model allModels cfg = .ok out) :
    ∃ st, updateFold model allModels cfg = .ok st ∧
      out.fields = st.fields := by
  unfold computeUpdateDtoParams at h
  cases hfold : updateFold model allModels cfg with
  | error e => rw [hfold] at h; cases h
  | ok st =>
    rw [hfold] at h
    cases h
    exact ⟨st, rfl, rfl⟩

theorem updateFold_fields (model : Model) (allModels : List Model)
    (cfg : GeneratorConfig) (st : UpdateState)
    (h : updateFold model allModels cfg = .ok st) :
    st.fields = collectOuts (updateProcessField model allModels cfg)
      (fun o => o.parsed.toList) model.fields := by
  unfold updateFold at h
  have := runFold_stepOf_proj (updateProcessField model allModels cfg)
    applyUpdate (fun s => s.fields) (fun o => o.parsed.toList)
    (fun s o => rfl) _ _ _ h
  simpa using this

/-- The Update reduce body emits parsed fields only under the name of the
incoming field (the type rewrite with dependencies disabled keeps the
name). -/
theorem updateProcessRest_parsed_name (model : Model)
    (allModels : List Model) (cfg : GeneratorConfig) (f1 : Field)
    (o : UpdateOutcome) (pf : ParsedField)
    (h : updateProcessRest model allModels cfg f1 = .ok o)
    (hpf : pf ∈ o.parsed.toList) :
    pf.field.name = f1.name := by
  simp only [updateProcessRest] at h
  split at h
  · cases h
    simp [dropUpdate] at hpf
  · split at h
    · cases h
      simp [dropUpdate] at hpf
    · split at h
      · cases h
      · cases h
        simp [dropUpdate] at hpf
      · split at h
        · cases h
          simp [dropUpdate] at hpf
        · split at h
          · cases h
            simp [dropUpdate] at hpf
          · split at h
            · cases h
            · cases h
              have hpf2 : pf = mapDMMFToParsedField
                  (if cfg.noDependencies then
                     if f1.type = "Json" then { f1 with type := "Object" }
                     else if f1.type = "Decimal" then
                       { f1 with type := "Float" }
                     else f1
                   else f1) _ _ _ := List.mem_singleton.mp hpf
              subst hpf2
              simp only [mapDMMFToParsedField]
              repeat' first | rfl | split

theorem updateProcess_parsed_name (model : Model) (allModels : List Model)
    (cfg : GeneratorConfig) (f : Field) (o : UpdateOutcome)
    (pf : ParsedField)
    (h : updateProcessField model allModels cfg f = .ok o)
    (hpf : pf ∈ o.parsed.toList) :
    pf.field.name = f.name := by
  unfold updateProcessField at h
  have := updateProcessRest_parsed_name _ _ _ _ _ _ h hpf
  simpa using this

/-- A field still read-only after the include-identifier rewrite is
dropped by the Update reduce body. -/
theorem updateProcess_parsed_none_of_readonly (model : Model)
    (allModels : List Model) (cfg : GeneratorConfig) (f : Field)
    (o : UpdateOutcome)
    (hro : readOnlyAfterRewrite model f = true)
    (h : updateProcessField model allModels cfg f = .ok o) :
    o.parsed = none := by
  have hro' : isReadOnly (rewriteIncludeId model f) = true := by
    rw [isReadOnly_rewrite]
    exact hro
  unfold updateProcessField at h
  simp only [updateProcessRest, hro', eq_self_iff_true, if_true] at h
  split at h
  · cases h
    rfl
  · cases h
    rfl

/-- Distinct field names make the name function injective on the field
list. -/
theorem mem_name_inj (fields : List Field)
    (hnd : (fields.map Field.name).Nodup) (f g : Field)
    (hf : f ∈ fields) (hg : g ∈ fields) (h : g.name = f.name) : g = f := by
  have h1 := find_name_nodup fields g hg hnd
  have h2 := find_name_nodup fields f hf hnd
  rw [h] at h1
  rw [h1] at h2
  exact Option.some.inj h2

/-- C6 (amended): in the Update pipeline, a read-only field is excluded
from the output field list unless it is a tracked foreign-key scalar
carrying the relation-include-identifier directive (the counterexample
shows that combination re-includes it). -/
theorem update_readonly_exclusion (model : Model) (allModels : List Model)
    (cfg : GeneratorConfig) (out : UpdateDtoParams) (f : Field)
    (hok : computeUpdateDtoParams model allModels cfg = .ok out)
    (hnd : (model.fields.map Field.name).Nodup)
    (hf : f ∈ model.fields)
    (hro : f.isReadOnly = true)
    (hguard : isAnnotatedWith f DTO_RELATION_INCLUDE_ID = false ∨
      (relationScalarNames model.fields).contains f.name = false) :
    ∀ pf ∈ out.fields, pf.field.name ≠ f.name := by
  intro pf hpf hname
  obtain ⟨st, hfold, hfields⟩ := computeUpdateDtoParams_ok _ _ _ _ hok
  rw [hfields, updateFold_fields _ _ _ _ hfold] at hpf
  obtain ⟨g, hg, o, ho, hpo⟩ := collectOuts_mem _ _ _ _ hpf
  have hgname : pf.field.name = g.name :=
    updateProcess_parsed_name _ _ _ _ _ _ ho hpo
  have hgf : g = f := mem_name_inj model.fields hnd f g hf hg
    (by rw [← hgname]; exact hname)
  subst hgf
  have hnorw : readOnlyAfterRewrite model g = true := by
    unfold readOnlyAfterRewrite
    rcases hguard with hgd | hgd
    · simp [hgd, hro]
    · have hgd' : g.name ∉ relationScalarNames model.fields := by
        simpa using hgd
      simp [hgd', hro]
  have hpn := updateProcess_parsed_none_of_readonly _ _ _ _ _ hnorw ho
  rw [hpn] at hpo
  simp at hpo

/-- Witness for C6 at a concrete schema: the author entity's read-only
tracked foreign-key scalar (without the include-identifier directive) is
absent from the Update pipeline output. -/
theorem update_readonly_exclusion_witness :
    ∃ out, computeUpdateDtoParams authorModel authorBookModels cfgPlain =
        .ok out ∧
      authorBookIdField ∈ authorModel.fields ∧
      authorBookIdField.isReadOnly = true ∧
      ∀ pf ∈ out.fields, pf.field.name ≠ authorBookIdField.name := by
  have hk : (computeUpdateDtoParams authorModel authorBookModels
      cfgPlain).isOk = true := by decide
  cases h : computeUpdateDtoParams authorModel authorBookModels cfgPlain with
  | error e =>
    rw [h] at hk
    simp [Except.isOk, Except.toBool] at hk
  | ok out =>
    refine ⟨out, rfl, by decide, by decide, ?_⟩
    exact update_readonly_exclusion authorModel authorBookModels cfgPlain
      out authorBookIdField h (by decide) (by decide) (by decide)
      (Or.inl (by decide))

/-- Counterexample to C6 as stated: a read-only tracked foreign-key
scalar carrying the relation-include-identifier directive appears in the
Update pipeline output. -/
theorem update_readonly_inclusion_cex :
    ∃ f ∈ postModel.fields, f.isReadOnly = true ∧
      ∃ out, computeUpdateDtoParams postModel [postModel] cfgPlain =
          .ok out ∧
        ∃ pf ∈ out.fields, pf.field.name = f.name := by
  have hk : (computeUpdateDtoParams postModel [postModel] cfgPlain).isOk =
      true := by decide
  cases h : computeUpdateDtoParams postModel [postModel] cfgPlain with
  | error e =>
    rw [h] at hk
    simp [Except.isOk, Except.toBool] at hk
  | ok out =>
    have hb : (match computeUpdateDtoParams postModel [postModel] cfgPlain
               with
               | .ok o =>
                   o.fields.any (fun pf =>
                     decide (pf.field.name = "authorId"))
               | .error _ => false) = true := by decide
    rw [h] at hb
    refine ⟨{ baseField "authorId" "Int" FieldKind.scalar with
                isReadOnly := true, anns := [DTO_RELATION_INCLUDE_ID] },
            by decide, by decide, out, rfl, ?_⟩
    obtain ⟨pf, hpf, hname⟩ := List.any_eq_true.mp hb
    exact ⟨pf, hpf, of_decide_eq_true hname⟩


@[simp] theorem name_setDoc (f : Field) (d : String) :
    ({ f with documentation := d } : Field).name = f.name := rfl

/-- Shape of the Create outcome for a surviving relation field whose
synthesizer result takes the direct branch while reporting a coercion
value: the value becomes the type override and is also stashed,
marker-wrapped, into the field's documentation. -/
theorem createProcessRest_direct (model : Model) (allModels : List Model)
    (cfg : GeneratorConfig) (f1 : Field) (o : CreateOutcome)
    (ri : RelationInput) (cv : IClassValidator) (v : TypeRef)
    (hh : isAnnotatedWith f1 DTO_CREATE_HIDDEN = false)
    (hro : isReadOnly f1 = false)
    (hrel : isRelation f1 = true)
    (hm : isAnnotatedWithOneOf f1 DTO_RELATION_MODIFIERS_ON_CREATE = true)
    (hg : generateRelationInput model allModels cfg true
      DTO_RELATION_CAN_CREATE_ON_CREATE DTO_RELATION_CAN_CONNECT_ON_CREATE
      DTO_RELATION_CAN_UPDATE_ON_UPDATE f1 = .ok ri)
    (hlen : ¬ ri.imports.length > 1)
    (hfind : ri.classValidators.find? (fun x => decide (x.name = "Type")) =
      some cv)
    (hv : cv.value = some v)
    (hfks : isAnnotatedWith f1 DTO_RELATION_INCLUDE_ID = true ∨
      (relationScalarNames model.fields).contains f1.name = false)
    (hsurv : isAnnotatedWith f1 DTO_CREATE_OPTIONAL = true ∨
      (isIdWithDefaultValue f1 || isUpdatedAt f1 ||
        isRequiredWithDefaultValue f1) = false)
    (h : createProcessRest model allModels cfg f1 = .ok o) :
    ∃ pf, o.parsed = some pf ∧ pf.field.name = f1.name ∧
      pf.overrides.type = some v ∧
      pf.field.documentation =
        f1.documentation ++ "\n%" ++
        TypeRef.render ⟨false, v.name⟩ ++ "%" := by
  have hstage : createRelationStage model allModels cfg
      { createApiResp := some false } f1 =
    .ok (some ({ f1 with documentation := f1.documentation ++ "\n%" ++ TypeRef.render ⟨false, v.name⟩ ++ "%" },
      { isRequired := none, isNullable := none, type := some v,
        isList := none, createApiResp := some false,
        updateApiResp := none },
      ri.imports, [], [], [])) := by
    unfold createRelationStage
    rw [hrel, hm, hg]
    simp only [Bool.not_true, Bool.false_eq_true, if_false, if_true]
    rw [if_neg hlen, hfind]
    simp only [hv]
  have hdrop : ((!isAnnotatedWith f1 DTO_RELATION_INCLUDE_ID) &&
      (relationScalarNames model.fields).contains f1.name) = false := by
    rcases hfks with hinc | hcont
    · simp [hinc]
    · have hcont' : f1.name ∉ relationScalarNames model.fields := by
        simpa using hcont
      cases hb : isAnnotatedWith f1 DTO_RELATION_INCLUDE_ID <;>
        simp [hb, hcont']
  have hti := createTypeImport_of_not_type model allModels
    ({ f1 with documentation := f1.documentation ++ "\n%" ++ TypeRef.render ⟨false, v.name⟩ ++ "%" })
    (by rw [isType_setDoc]; exact isType_eq_false_of_isRelation hrel)
  simp only [createProcessRest, hh, hro, hstage] at h
  simp only [Bool.false_eq_true, if_false, isAnnotatedWith_setDoc,
    name_setDoc, isIdWithDefaultValue_setDoc, isUpdatedAt_setDoc,
    isRequiredWithDefaultValue_setDoc] at h
  by_cases hopt : isAnnotatedWith f1 DTO_CREATE_OPTIONAL = true
  · simp only [hdrop, hopt, hti] at h
    simp only [Bool.false_eq_true, if_false, Bool.not_true,
      Bool.false_and] at h
    cases h
    refine ⟨_, rfl, ?_, ?_, ?_⟩
    · simp only [mapDMMFToParsedField]
      repeat' first
      | rfl
      | split
    · simp only [mapDMMFToParsedField]
      repeat' first
      | rfl
      | split
    · simp only [mapDMMFToParsedField]
      repeat' first
      | rfl
      | split
  · have hbad : (isIdWithDefaultValue f1 || isUpdatedAt f1 ||
        isRequiredWithDefaultValue f1) = false := by
      rcases hsurv with h' | h'
      · exact absurd h' hopt
      · exact h'
    simp only [hdrop, hopt, hbad, hti] at h
    simp only [Bool.false_eq_true, if_false, Bool.not_false, Bool.true_and,
      Bool.and_false] at h
    cases h
    refine ⟨_, rfl, ?_, ?_, ?_⟩
    · simp only [mapDMMFToParsedField]
      repeat' first
      | rfl
      | split
    · simp only [mapDMMFToParsedField]
      repeat' first
      | rfl
      | split
    · simp only [mapDMMFToParsedField]
      repeat' first
      | rfl
      | split

/-- C7 (amended): in the Create pipeline, when the synthesizer returns a
direct (non-composite) reference together with a coercion-target value,
the value is used as the field's type override and is additionally
stashed, marker-wrapped, into the field's documentation; and this
happens only for relation fields: a non-relation field passes the
relation stage unchanged, never consulting the synthesizer. -/
theorem create_direct_value_behavior (model : Model)
    (allModels : List Model) (cfg : GeneratorConfig)
    (out : CreateDtoParams) (f : Field) (ri : RelationInput)
    (cv : IClassValidator) (v : TypeRef)
    (hok : computeCreateDtoParams model allModels cfg = .ok out)
    (hf : f ∈ model.fields)
    (hrel : isRelation f = true)
    (hh : isAnnotatedWith f DTO_CREATE_HIDDEN = false)
    (hro : readOnlyAfterRewrite model f = false)
    (hm : isAnnotatedWithOneOf f DTO_RELATION_MODIFIERS_ON_CREATE = true)
    (hg : generateRelationInput model allModels cfg true
      DTO_RELATION_CAN_CREATE_ON_CREATE DTO_RELATION_CAN_CONNECT_ON_CREATE
      DTO_RELATION_CAN_UPDATE_ON_UPDATE f = .ok ri)
    (hlen : ¬ ri.imports.length > 1)
    (hfind : ri.classValidators.find? (fun x => decide (x.name = "Type")) =
      some cv)
    (hv : cv.value = some v)
    (hfks : isAnnotatedWith f DTO_RELATION_INCLUDE_ID = true ∨
      (relationScalarNames model.fields).contains f.name = false)
    (hsurv : isAnnotatedWith f DTO_CREATE_OPTIONAL = true ∨
      (isIdWithDefaultValue f || isUpdatedAt f ||
        isRequiredWithDefaultValue f) = false) :
    (∃ pf ∈ out.fields, pf.field.name = f.name ∧
      pf.overrides.type = some v ∧
      pf.field.documentation =
        f.documentation ++ "\n%" ++
        TypeRef.render ⟨false, v.name⟩ ++ "%") ∧
    ∀ (g : Field) (og : FieldOverrides), isRelation g = false →
      createRelationStage model allModels cfg og g =
        .ok (some (g, og, [], [], [], [])) := by
  constructor
  · obtain ⟨st, hfold, hfields⟩ := computeCreateDtoParams_ok _ _ _ _ hok
    have hfold' := hfold
    unfold createFold at hfold'
    obtain ⟨o, ho⟩ := runFold_stepOf_ok _ _ _ _ _ hfold' f hf
    have ho' : createProcessRest model allModels cfg
        (rewriteIncludeId model f) = .ok o := ho
    obtain ⟨pf, hparsed, hname, htype, hdoc⟩ :=
      createProcessRest_direct model allModels cfg
        (rewriteIncludeId model f) o ri cv v
        (by simpa using hh) (by rw [isReadOnly_rewrite]; exact hro)
        (by simpa using hrel) (by simpa using hm)
        (by rw [generateRelationInput_rewrite]; exact hg) hlen hfind hv
        (by simpa using hfks) (by simpa using hsurv) ho'
    refine ⟨pf, ?_, by simpa using hname, htype, by simpa using hdoc⟩
    rw [hfields, createFold_fields _ _ _ _ hfold]
    exact collectOuts_mem_of _ _ _ f hf o ho pf (by simp [hparsed])
  · intro g og hgrel
    simp [createRelationStage, hgrel]

/-- Witness for C7 at a concrete schema: the paper entity's single-mode
connect relation comes out with the coercion value both as its type
override and stashed into its documentation. -/
theorem create_direct_value_behavior_witness :
    ∃ out, computeCreateDtoParams paperModel paperBookModels cfgValid =
        .ok out ∧
      ∃ pf ∈ out.fields, pf.field.name = "book" ∧
        pf.overrides.type = some ⟨true, TypeName.connectDto "Book"⟩ ∧
        pf.field.documentation = "\n%ConnectBookDto%" := by
  have hk : (computeCreateDtoParams paperModel paperBookModels
      cfgValid).isOk = true := by decide
  cases h : computeCreateDtoParams paperModel paperBookModels cfgValid with
  | error e =>
    rw [h] at hk
    simp [Except.isOk, Except.toBool] at hk
  | ok out =>
    obtain ⟨⟨pf, hpf, hname, htype, hdoc⟩, _⟩ :=
      create_direct_value_behavior paperModel paperBookModels cfgValid out
        { baseField "book" "Book" FieldKind.relation with
            anns := [DTO_RELATION_CAN_CONNECT_ON_CREATE] }
        ⟨⟨false, TypeName.connectDto "Book"⟩,
         [⟨ImportSource.rel "src/author/dto" "src/book/dto"
             (TypeName.connectDto "Book"), [TypeName.connectDto "Book"]⟩],
         [], [],
         [⟨"ValidateNested", none⟩,
          ⟨"Type", some ⟨true, TypeName.connectDto "Book"⟩⟩]⟩
        ⟨"Type", some ⟨true, TypeName.connectDto "Book"⟩⟩
        ⟨true, TypeName.connectDto "Book"⟩
        h (by decide) (by decide) (by decide) (by decide) (by decide)
        rfl (by decide) (by decide) (by decide)
        (Or.inr (by decide)) (Or.inr (by decide))
    refine ⟨out, rfl, pf, hpf, by rw [hname]; rfl, htype, ?_⟩
    rw [hdoc]
    decide

/-- Counterexample to C7 as stated: the synthesizer's direct-branch
coercion value occurs for a relation field (never for a
nested-structured-type field, which cannot reach the synthesizer), and
the value is used as the output field's type override. -/
theorem create_direct_value_cex :
    ∃ f ∈ paperModel.fields, isRelation f = true ∧ isType f = false ∧
      ∃ ri, generateRelationInput paperModel paperBookModels cfgValid true
          DTO_RELATION_CAN_CREATE_ON_CREATE
          DTO_RELATION_CAN_CONNECT_ON_CREATE
          DTO_RELATION_CAN_UPDATE_ON_UPDATE f = .ok ri ∧
        ¬ ri.imports.length > 1 ∧
        (ri.classValidators.find?
          (fun x => decide (x.name = "Type"))).isSome = true ∧
        ∃ out, computeCreateDtoParams paperModel paperBookModels cfgValid =
            .ok out ∧
          ∃ pf ∈ out.fields, pf.field.name = f.name ∧
            pf.overrides.type.isSome = true := by
  have hk : (computeCreateDtoParams paperModel paperBookModels
      cfgValid).isOk = true := by decide
  cases h : computeCreateDtoParams paperModel paperBookModels cfgValid with
  | error e =>
    rw [h] at hk
    simp [Except.isOk, Except.toBool] at hk
  | ok out =>
    have hb : (match computeCreateDtoParams paperModel paperBookModels
                 cfgValid with
               | .ok o => o.fields.any (fun pf =>
                   decide (pf.field.name = "book") &&
                   pf.overrides.type.isSome)
               | .error _ => false) = true := by decide
    rw [h] at hb
    refine ⟨{ baseField "book" "Book" FieldKind.relation with
                anns := [DTO_RELATION_CAN_CONNECT_ON_CREATE] },
            by decide, by decide, by decide,
            ⟨⟨false, TypeName.connectDto "Book"⟩,
             [⟨ImportSource.rel "src/author/dto" "src/book/dto"
                 (TypeName.connectDto "Book"),
               [TypeName.connectDto "Book"]⟩],
             [], [],
             [⟨"ValidateNested", none⟩,
              ⟨"Type", some ⟨true, TypeName.connectDto "Book"⟩⟩]⟩,
            rfl, by decide, by decide, out, rfl, ?_⟩
    obtain ⟨pf, hpf, hprops⟩ := List.any_eq_true.mp hb
    rw [Bool.and_eq_true] at hprops
    exact ⟨pf, hpf, of_decide_eq_true hprops.1, hprops.2⟩


/-- C8: the include-identifier rewrite of the Create pipeline mutates the
shared field record: after a successful fold over the post entity, the
pipeline's record of the processed (shared) field objects holds the
identifier scalar with its read-only flag cleared, though the
caller-supplied field record had it set. -/
theorem create_mutation_leak :
    ∃ f ∈ postModel.fields, f.isReadOnly = true ∧
      ∃ st, createFold postModel [postModel] cfgPlain = .ok st ∧
        ∃ g ∈ st.mutFields, g.name = f.name ∧ g.isReadOnly = false := by
  have hk : (createFold postModel [postModel] cfgPlain).isOk = true := by
    decide
  cases h : createFold postModel [postModel] cfgPlain with
  | error e =>
    rw [h] at hk
    simp [Except.isOk, Except.toBool] at hk
  | ok st =>
    have hb : (match createFold postModel [postModel] cfgPlain with
               | .ok s => s.mutFields.any (fun g =>
                   decide (g.name = "authorId") && !g.isReadOnly)
               | .error _ => false) = true := by decide
    rw [h] at hb
    refine ⟨{ baseField "authorId" "Int" FieldKind.scalar with
                isReadOnly := true, anns := [DTO_RELATION_INCLUDE_ID] },
            by decide, by decide, st, rfl, ?_⟩
    obtain ⟨g, hg, hprops⟩ := List.any_eq_true.mp hb
    rw [Bool.and_eq_true] at hprops
    refine ⟨g, hg, of_decide_eq_true hprops.1, ?_⟩
    simpa using hprops.2

/-- The Create reduce body emits parsed fields only under the name of the
incoming field (the direct-branch documentation mutation and the
dependency-free type rewrite both keep the name). -/
theorem createProcessRest_parsed_name (model : Model)
    (allModels : List Model) (cfg : GeneratorConfig) (f1 : Field)
    (o : CreateOutcome) (pf : ParsedField)
    (h : createProcessRest model allModels cfg f1 = .ok o)
    (hpf : pf ∈ o.parsed.toList) :
    pf.field.name = f1.name := by
  simp only [createProcessRest] at h
  split at h
  · cases h
    simp [dropCreate] at hpf
  · split at h
    · cases h
      simp [dropCreate] at hpf
    · split at h
      · cases h
      · cases h
        simp [dropCreate] at hpf
      · next f2 o1 rims gc xm cv heq =>
          obtain ⟨d, hf2⟩ := createRelationStage_ok_some model allModels cfg
            { createApiResp := some false } f1 f2 (o1, rims, gc, xm, cv) heq
          subst hf2
          split at h
          · cases h
            simp [dropCreate] at hpf
          · split at h
            · cases h
              simp [dropCreate] at hpf
            · split at h
              · cases h
              · cases h
                obtain rfl := List.mem_singleton.mp hpf
                simp only [mapDMMFToParsedField]
                repeat' first
                | rfl
                | split

theorem createProcess_parsed_name (model : Model) (allModels : List Model)
    (cfg : GeneratorConfig) (f : Field) (o : CreateOutcome)
    (pf : ParsedField)
    (h : createProcessField model allModels cfg f = .ok o)
    (hpf : pf ∈ o.parsed.toList) :
    pf.field.name = f.name := by
  unfold createProcessField at h
  have := createProcessRest_parsed_name _ _ _ _ _ _ h hpf
  simpa using this

/-- A field classified identifier-with-default, auto-timestamp or
required-with-default and not carrying create-optional is dropped by the
Create reduce body. -/
theorem createProcess_parsed_none_of_bad (model : Model)
    (allModels : List Model) (cfg : GeneratorConfig) (f : Field)
    (o : CreateOutcome)
    (hbad : (isIdWithDefaultValue f || isUpdatedAt f ||
      isRequiredWithDefaultValue f) = true)
    (hopt : isAnnotatedWith f DTO_CREATE_OPTIONAL = false)
    (h : createProcessField model allModels cfg f = .ok o) :
    o.parsed = none := by
  unfold createProcessField at h
  simp only [createProcessRest] at h
  split at h
  · cases h
    rfl
  · split at h
    · cases h
      rfl
    · split at h
      · cases h
      · cases h
        rfl
      · next f2 o1 rims gc xm cv heq =>
          obtain ⟨d, hf2⟩ := createRelationStage_ok_some model allModels cfg
            { createApiResp := some false } (rewriteIncludeId model f) f2
            (o1, rims, gc, xm, cv) heq
          subst hf2
          split at h
          · cases h
            rfl
          · split at h
            · cases h
              rfl
            · next hcond =>
                exfalso
                apply hcond
                simp only [isAnnotatedWith_setDoc,
                  isIdWithDefaultValue_setDoc, isUpdatedAt_setDoc,
                  isRequiredWithDefaultValue_setDoc,
                  isAnnotatedWith_rewrite, isIdWithDefaultValue_rewrite,
                  isUpdatedAt_rewrite, isRequiredWithDefaultValue_rewrite]
                rw [hopt, hbad]
                rfl

/-- Shape of the Create outcome for a surviving plain field carrying
create-optional: kept, with the requiredness override forced false. -/
theorem createProcessRest_optional (model : Model) (allModels : List Model)
    (cfg : GeneratorConfig) (f1 : Field) (o : CreateOutcome)
    (hh : isAnnotatedWith f1 DTO_CREATE_HIDDEN = false)
    (hro : isReadOnly f1 = false)
    (hrel : isRelation f1 = false)
    (hty : isType f1 = false)
    (hfks : isAnnotatedWith f1 DTO_RELATION_INCLUDE_ID = true ∨
      (relationScalarNames model.fields).contains f1.name = false)
    (hopt : isAnnotatedWith f1 DTO_CREATE_OPTIONAL = true)
    (h : createProcessRest model allModels cfg f1 = .ok o) :
    ∃ pf, o.parsed = some pf ∧ pf.field.name = f1.name ∧
      pf.overrides.isRequired = some false := by
  have hstage : createRelationStage model allModels cfg
      { createApiResp := some false } f1 =
    .ok (some (f1, { createApiResp := some false }, [], [], [], [])) := by
    simp [createRelationStage, hrel]
  have hdrop : ((!isAnnotatedWith f1 DTO_RELATION_INCLUDE_ID) &&
      (relationScalarNames model.fields).contains f1.name) = false := by
    rcases hfks with hinc | hcont
    · simp [hinc]
    · have hcont' : f1.name ∉ relationScalarNames model.fields := by
        simpa using hcont
      cases hb : isAnnotatedWith f1 DTO_RELATION_INCLUDE_ID <;>
        simp [hb, hcont']
  have hti := createTypeImport_of_not_type model allModels f1 hty
  simp only [createProcessRest, hh, hro, hstage] at h
  simp only [Bool.false_eq_true, if_false] at h
  simp only [hdrop, hopt, hti] at h
  simp only [Bool.false_eq_true, if_false, Bool.not_true,
    Bool.false_and] at h
  cases h
  refine ⟨_, rfl, ?_, ?_⟩
  · simp only [mapDMMFToParsedField]
    repeat' first
    | rfl
    | split
  · simp only [mapDMMFToParsedField]
    repeat' first
    | rfl
    | split

/-- C9 (amended): in the Create pipeline, a field classified
identifier-with-default, auto-timestamp or required-with-default is
excluded when it lacks create-optional; when it carries create-optional
it is included with requiredness forced false, provided it survives the
pipeline's earlier drops (not hidden from create, not read-only after the
rewrite, not an untracked foreign-key scalar, and a plain field). -/
theorem create_default_classification (model : Model)
    (allModels : List Model) (cfg : GeneratorConfig)
    (out : CreateDtoParams) (f : Field)
    (hok : computeCreateDtoParams model allModels cfg = .ok out)
    (hnd : (model.fields.map Field.name).Nodup)
    (hf : f ∈ model.fields)
    (hbad : (isIdWithDefaultValue f || isUpdatedAt f ||
      isRequiredWithDefaultValue f) = true) :
    (isAnnotatedWith f DTO_CREATE_OPTIONAL = false →
      ∀ pf ∈ out.fields, pf.field.name ≠ f.name) ∧
    (isAnnotatedWith f DTO_CREATE_OPTIONAL = true →
      isAnnotatedWith f DTO_CREATE_HIDDEN = false →
      readOnlyAfterRewrite model f = false →
      isRelation f = false → isType f = false →
      (isAnnotatedWith f DTO_RELATION_INCLUDE_ID = true ∨
        (relationScalarNames model.fields).contains f.name = false) →
      ∃ pf ∈ out.fields, pf.field.name = f.name ∧
        pf.resolvedRequired = false) := by
  obtain ⟨st, hfold, hfields⟩ := computeCreateDtoParams_ok _ _ _ _ hok
  constructor
  · intro hopt pf hpf hname
    rw [hfields, createFold_fields _ _ _ _ hfold] at hpf
    obtain ⟨g, hg, o, ho, hpo⟩ := collectOuts_mem _ _ _ _ hpf
    have hgname : pf.field.name = g.name :=
      createProcess_parsed_name _ _ _ _ _ _ ho hpo
    have hgf : g = f := mem_name_inj model.fields hnd f g hf hg
      (by rw [← hgname]; exact hname)
    subst hgf
    have hpn := createProcess_parsed_none_of_bad _ _ _ _ _ hbad hopt ho
    rw [hpn] at hpo
    simp at hpo
  · intro hopt hh hro hrel hty hfks
    have hfold' := hfold
    unfold createFold at hfold'
    obtain ⟨o, ho⟩ := runFold_stepOf_ok _ _ _ _ _ hfold' f hf
    have ho' : createProcessRest model allModels cfg
        (rewriteIncludeId model f) = .ok o := ho
    obtain ⟨pf, hparsed, hname, hreq⟩ :=
      createProcessRest_optional model allModels cfg
        (rewriteIncludeId model f) o
        (by simpa using hh) (by rw [isReadOnly_rewrite]; exact hro)
        (by simpa using hrel) (by simpa using hty)
        (by simpa using hfks) (by simpa using hopt) ho'
    refine ⟨pf, ?_, by simpa using hname, ?_⟩
    · rw [hfields, createFold_fields _ _ _ _ hfold]
      exact collectOuts_mem_of _ _ _ f hf o ho pf (by simp [hparsed])
    · simp [ParsedField.resolvedRequired, hreq]

/-- Witness for C9 at a concrete schema: the log entity's
identifier-with-default field is absent from the Create pipeline output,
and its create-optional auto-timestamp comes out not required. -/
theorem create_default_classification_witness :
    ∃ out, computeCreateDtoParams logModel [logModel] cfgPlain = .ok out ∧
      (∀ pf ∈ out.fields, pf.field.name ≠ "id") ∧
      ∃ pf ∈ out.fields, pf.field.name = "createdAt" ∧
        pf.resolvedRequired = false := by
  have hk : (computeCreateDtoParams logModel [logModel] cfgPlain).isOk =
      true := by decide
  cases h : computeCreateDtoParams logModel [logModel] cfgPlain with
  | error e =>
    rw [h] at hk
    simp [Except.isOk, Except.toBool] at hk
  | ok out =>
    have ha := (create_default_classification logModel [logModel] cfgPlain
      out
      { baseField "id" "Int" FieldKind.scalar with
          isId := true, hasDefaultValue := true, isRequired := true }
      h (by decide) (by decide) (by decide)).1 (by decide)
    obtain ⟨pf, hpf, hname, hreq⟩ :=
      (create_default_classification logModel [logModel] cfgPlain out
        { baseField "createdAt" "DateTime" FieldKind.scalar with
            isUpdatedAt := true, anns := [DTO_CREATE_OPTIONAL] }
        h (by decide) (by decide) (by decide)).2 (by decide) (by decide)
        (by decide) (by decide) (by decide) (Or.inr (by decide))
    exact ⟨out, rfl, ha, pf, hpf, hname, hreq⟩

/-- Counterexample to C9 as stated: an auto-timestamp field carrying
create-optional is still excluded from the Create pipeline output when it
also carries hide-from-create (the drops are not mutually exclusive, and
the hidden drop runs first). -/
theorem create_optional_exclusion_cex :
    ∃ f ∈ eventModel.fields,
      (isIdWithDefaultValue f || isUpdatedAt f ||
        isRequiredWithDefaultValue f) = true ∧
      isAnnotatedWith f DTO_CREATE_OPTIONAL = true ∧
      ∃ out, computeCreateDtoParams eventModel [eventModel] cfgPlain =
          .ok out ∧
        ∀ pf ∈ out.fields, pf.field.name ≠ f.name := by
  have hk : (computeCreateDtoParams eventModel [eventModel]
      cfgPlain).isOk = true := by decide
  cases h : computeCreateDtoParams eventModel [eventModel] cfgPlain with
  | error e =>
    rw [h] at hk
    simp [Except.isOk, Except.toBool] at hk
  | ok out =>
    have hb : (match computeCreateDtoParams eventModel [eventModel]
                 cfgPlain with
               | .ok o => o.fields.all (fun pf =>
                   decide (pf.field.name ≠ "createdAt"))
               | .error _ => false) = true := by decide
    rw [h] at hb
    refine ⟨{ baseField "createdAt" "DateTime" FieldKind.scalar with
                isUpdatedAt := true
                anns := [DTO_CREATE_OPTIONAL, DTO_CREATE_HIDDEN] },
            by decide, by decide, by decide, out, rfl, ?_⟩
    intro pf hpf
    exact of_decide_eq_true (List.all_eq_true.mp hb pf hpf)


theorem raw_injective : Function.Injective TypeName.raw := by
  intro a b h
  injection h

theorem relationModeImport_source (model target : Model) (f : Field)
    (m : RelationMode) (r : ImportStatementParams)
    (h : relationModeImport model target f m = some r) :
    r.source = ImportSource.rel model.output.dto target.output.dto
      (modeFile m f.type) := by
  unfold relationModeImport at h
  split at h
  · cases h
  · cases h
    rfl

theorem buildRelationInput_imports_rel (model target : Model)
    (cfg : GeneratorConfig) (b : Bool) (c1 c2 c3 : String) (f : Field)
    (r : ImportStatementParams)
    (hr : r ∈ (buildRelationInput model target cfg b c1 c2 c3 f).imports) :
    ∃ x y z, r.source = ImportSource.rel x y z := by
  rw [buildRelationInput_imports_eq] at hr
  rw [List.mem_filterMap] at hr
  obtain ⟨m, _, hmk⟩ := hr
  exact ⟨_, _, _, relationModeImport_source _ _ _ _ _ hmk⟩

theorem generateRelationInput_imports_rel (model : Model)
    (allModels : List Model) (cfg : GeneratorConfig) (b : Bool)
    (c1 c2 c3 : String) (f : Field) (ri : RelationInput)
    (h : generateRelationInput model allModels cfg b c1 c2 c3 f = .ok ri)
    (r : ImportStatementParams) (hr : r ∈ ri.imports) :
    ∃ x y z, r.source = ImportSource.rel x y z := by
  unfold generateRelationInput at h
  split at h
  · cases h
  · cases h
    exact buildRelationInput_imports_rel _ _ _ _ _ _ _ _ _ hr

theorem createRelationStage_imports_rel (model : Model)
    (allModels : List Model) (cfg : GeneratorConfig) (o0 : FieldOverrides)
    (f1 f2 : Field) (o1 : FieldOverrides)
    (rims : List ImportStatementParams) (gc : List TypeName)
    (xm : List String) (cv : List IClassValidator)
    (h : createRelationStage model allModels cfg o0 f1 =
      .ok (some (f2, o1, rims, gc, xm, cv))) :
    ∀ r ∈ rims, ∃ x y z, r.source = ImportSource.rel x y z := by
  unfold createRelationStage at h
  split at h
  · split at h
    · cases h
    · split at h
      · cases h
      · next ri heq =>
          have hsafe : ∀ r ∈ ri.imports, ∃ x y z,
              r.source = ImportSource.rel x y z :=
            generateRelationInput_imports_rel _ _ _ _ _ _ _ _ _ heq
          split at h
          · cases h
            exact hsafe
          · split at h
            · split at h
              · cases h
                exact hsafe
              · cases h
                exact hsafe
            · cases h
              exact hsafe
  · cases h
    intro r hr
    simp at hr

theorem updateRelationStage_imports_rel (model : Model)
    (allModels : List Model) (cfg : GeneratorConfig) (o0 : FieldOverrides)
    (f1 : Field) (o1 : FieldOverrides)
    (rims : List ImportStatementParams) (gc : List TypeName)
    (xm : List String) (cv : List IClassValidator)
    (h : updateRelationStage model allModels cfg o0 f1 =
      .ok (some (o1, rims, gc, xm, cv))) :
    ∀ r ∈ rims, ∃ x y z, r.source = ImportSource.rel x y z := by
  unfold updateRelationStage at h
  split at h
  · split at h
    · cases h
    · split at h
      · cases h
      · next ri heq =>
          cases h
          exact generateRelationInput_imports_rel _ _ _ _ _ _ _ _ _ heq
  · cases h
    intro r hr
    simp at hr

theorem createTypeImport_source (model : Model) (allModels : List Model)
    (f : Field) (src : ImportSource) (n : TypeName)
    (h : createTypeImport model allModels f = .ok (some (src, n))) :
    ∃ x y z, src = ImportSource.rel x y z := by
  unfold createTypeImport at h
  split at h
  · split at h
    · cases h
    · split at h
      · cases h
      · cases h
        exact ⟨_, _, _, rfl⟩
  · cases h

theorem updateTypeImport_source (model : Model) (allModels : List Model)
    (b : Bool) (f : Field) (src : ImportSource) (n : TypeName)
    (h : updateTypeImport model allModels b f = .ok (some (src, n))) :
    ∃ x y z, src = ImportSource.rel x y z := by
  unfold updateTypeImport at h
  split at h
  · split at h
    · cases h
    · split at h
      · cases h
      · cases h
        exact ⟨_, _, _, rfl⟩
  · cases h

theorem createProcessRest_imports_rel (model : Model)
    (allModels : List Model) (cfg : GeneratorConfig) (f1 : Field)
    (o : CreateOutcome)
    (h : createProcessRest model allModels cfg f1 = .ok o) :
    (∀ r ∈ o.relImports, ∃ x y z,
        r.source = ImportSource.rel x y z) ∧
    (∀ src n, o.fieldImport = some (src, n) →
        ∃ x y z, src = ImportSource.rel x y z) := by
  simp only [createProcessRest] at h
  split at h
  · cases h
    constructor
    · intro r hr
      simp [dropCreate] at hr
    · intro src n hc
      simp [dropCreate] at hc
  · split at h
    · cases h
      constructor
      · intro r hr
        simp [dropCreate] at hr
      · intro src n hc
        simp [dropCreate] at hc
    · split at h
      · cases h
      · cases h
        constructor
        · intro r hr
          simp [dropCreate] at hr
        · intro src n hc
          simp [dropCreate] at hc
      · next f2 o1 rims gc xm cv heq =>
          have hsafe := createRelationStage_imports_rel model allModels cfg
            { createApiResp := some false } f1 f2 o1 rims gc xm cv heq
          split at h
          · cases h
            refine ⟨fun r hr => hsafe r hr, ?_⟩
            intro src n hc
            simp [dropCreate] at hc
          · split at h
            · cases h
              refine ⟨fun r hr => hsafe r hr, ?_⟩
              intro src n hc
              simp [dropCreate] at hc
            · split at h
              · cases h
              · next fi heq2 =>
                  cases h
                  refine ⟨fun r hr => hsafe r hr, ?_⟩
                  intro src n hc
                  have hc' : fi = some (src, n) := hc
                  rw [hc'] at heq2
                  exact createTypeImport_source _ _ _ _ _ heq2

theorem updateProcessRest_imports_rel (model : Model)
    (allModels : List Model) (cfg : GeneratorConfig) (f1 : Field)
    (o : UpdateOutcome)
    (h : updateProcessRest model allModels cfg f1 = .ok o) :
    (∀ r ∈ o.relImports, ∃ x y z,
        r.source = ImportSource.rel x y z) ∧
    (∀ src n, o.fieldImport = some (src, n) →
        ∃ x y z, src = ImportSource.rel x y z) := by
  simp only [updateProcessRest] at h
  split at h
  · cases h
    constructor
    · intro r hr
      simp [dropUpdate] at hr
    · intro src n hc
      simp [dropUpdate] at hc
  · split at h
    · cases h
      constructor
      · intro r hr
        simp [dropUpdate] at hr
      · intro src n hc
        simp [dropUpdate] at hc
    · split at h
      · cases h
      · cases h
        constructor
        · intro r hr
          simp [dropUpdate] at hr
        · intro src n hc
          simp [dropUpdate] at hc
      · next o1 rims gc xm cv heq =>
          have hsafe := updateRelationStage_imports_rel model allModels cfg
            { isRequired := some false, isNullable := some (!f1.isRequired),
              updateApiResp := some false } f1 o1 rims gc xm cv heq
          split at h
          · cases h
            refine ⟨fun r hr => hsafe r hr, ?_⟩
            intro src n hc
            simp [dropUpdate] at hc
          · split at h
            · cases h
              refine ⟨fun r hr => hsafe r hr, ?_⟩
              intro src n hc
              simp [dropUpdate] at hc
            · split at h
              · cases h
              · next fi heq2 =>
                  cases h
                  refine ⟨fun r hr => hsafe r hr, ?_⟩
                  intro src n hc
                  have hc' : fi = some (src, n) := hc
                  rw [hc'] at heq2
                  exact updateTypeImport_source _ _ _ _ _ _ heq2

theorem createFold_imports_rel (model : Model) (allModels : List Model)
    (cfg : GeneratorConfig) (st : CreateState)
    (h : createFold model allModels cfg = .ok st) :
    ∀ r ∈ st.imports, ∃ x y z, r.source = ImportSource.rel x y z := by
  intro r hr
  unfold createFold at h
  have happly : ∀ (s : CreateState) (o : CreateOutcome)
      (b : ImportStatementParams),
      b ∈ (applyCreate s o).imports → b ∈ s.imports ∨
        b ∈ o.relImports ++
            (match o.fieldImport with
             | some (src, m) => [(⟨src, [m]⟩ : ImportStatementParams)]
             | none => []) := by
    intro s o b hb
    simp only [applyCreate] at hb
    rcases mem_pushFieldImport _ _ _ hb with hb' | ⟨src, m, hc, rfl⟩
    · rw [List.mem_append] at hb'
      rcases hb' with hb'' | hb''
      · exact Or.inl hb''
      · exact Or.inr (List.mem_append_left _ hb'')
    · refine Or.inr (List.mem_append_right _ ?_)
      rw [hc]
      simp
  rcases runFold_stepOf_mem _ _ _ _ happly _ _ _ h r hr with
    h0 | ⟨f, _hf, o, ho, hcand⟩
  · simp at h0
  · obtain ⟨hrel, hfi⟩ := createProcessRest_imports_rel model allModels cfg
      (rewriteIncludeId model f) o ho
    rw [List.mem_append] at hcand
    rcases hcand with hri | hpi
    · exact hrel r hri
    · cases hfio : o.fieldImport with
      | none => rw [hfio] at hpi; simp at hpi
      | some p =>
        obtain ⟨src, m⟩ := p
        rw [hfio] at hpi
        obtain rfl := List.mem_singleton.mp hpi
        exact hfi src m hfio

theorem updateFold_imports_rel (model : Model) (allModels : List Model)
    (cfg : GeneratorConfig) (st : UpdateState)
    (h : updateFold model allModels cfg = .ok st) :
    ∀ r ∈ st.imports, ∃ x y z, r.source = ImportSource.rel x y z := by
  intro r hr
  unfold updateFold at h
  have happly : ∀ (s : UpdateState) (o : UpdateOutcome)
      (b : ImportStatementParams),
      b ∈ (applyUpdate s o).imports → b ∈ s.imports ∨
        b ∈ o.relImports ++
            (match o.fieldImport with
             | some (src, m) => [(⟨src, [m]⟩ : ImportStatementParams)]
             | none => []) := by
    intro s o b hb
    simp only [applyUpdate] at hb
    rcases mem_pushFieldImport _ _ _ hb with hb' | ⟨src, m, hc, rfl⟩
    · rw [List.mem_append] at hb'
      rcases hb' with hb'' | hb''
      · exact Or.inl hb''
      · exact Or.inr (List.mem_append_left _ hb'')
    · refine Or.inr (List.mem_append_right _ ?_)
      rw [hc]
      simp
  rcases runFold_stepOf_mem _ _ _ _ happly _ _ _ h r hr with
    h0 | ⟨f, _hf, o, ho, hcand⟩
  · simp at h0
  · obtain ⟨hrel, hfi⟩ := updateProcessRest_imports_rel model allModels cfg
      (rewriteIncludeId model f) o ho
    rw [List.mem_append] at hcand
    rcases hcand with hri | hpi
    · exact hrel r hri
    · cases hfio : o.fieldImport with
      | none => rw [hfio] at hpi; simp at hpi
      | some p =>
        obtain ⟨src, m⟩ := p
        rw [hfio] at hpi
        obtain rfl := List.mem_singleton.mp hpi
        exact hfi src m hfio

theorem createFold_classValidators_nodup (model : Model)
    (allModels : List Model) (cfg : GeneratorConfig) (st : CreateState)
    (h : createFold model allModels cfg = .ok st) :
    (st.classValidators.map (fun v => v.name)).Nodup := by
  unfold createFold at h
  exact runFold_stepOf_inv _ _
    (fun s => ((s.classValidators.map (fun v => v.name)).Nodup))
    (fun s o hs => concatUniqueByName_nodup _ _ hs) _ _ _ h (by simp)

theorem updateFold_classValidators_nodup (model : Model)
    (allModels : List Model) (cfg : GeneratorConfig) (st : UpdateState)
    (h : updateFold model allModels cfg = .ok st) :
    (st.classValidators.map (fun v => v.name)).Nodup := by
  unfold updateFold at h
  exact runFold_stepOf_inv _ _
    (fun s => ((s.classValidators.map (fun v => v.name)).Nodup))
    (fun s o hs => concatUniqueByName_nodup _ _ hs) _ _ _ h (by simp)

theorem addClassValidatorImports_cases (cv : List IClassValidator)
    (ims : List ImportStatementParams) (r : ImportStatementParams)
    (hr : r ∈ addClassValidatorImports cv ims) :
    r = ⟨ImportSource.lib "class-validator",
      (sortStrings ((cv.filter (fun x => decide (x.name ≠ "Type"))).map
        (fun x => x.name))).map TypeName.raw⟩ ∨
    r = ⟨ImportSource.lib "class-transformer", [TypeName.raw "Type"]⟩ ∨
    r ∈ ims := by
  unfold addClassValidatorImports at hr
  split at hr
  · rw [List.mem_cons] at hr
    rcases hr with rfl | hr
    · exact Or.inl rfl
    · split at hr
      · rw [List.mem_cons] at hr
        rcases hr with rfl | hr
        · exact Or.inr (Or.inl rfl)
        · exact Or.inr (Or.inr hr)
      · exact Or.inr (Or.inr hr)
  · exact Or.inr (Or.inr hr)

theorem addClassValidatorImports_head (cv : List IClassValidator)
    (ims : List ImportStatementParams) (hne : cv ≠ []) :
    (⟨ImportSource.lib "class-validator",
      (sortStrings ((cv.filter (fun x => decide (x.name ≠ "Type"))).map
        (fun x => x.name))).map TypeName.raw⟩ : ImportStatementParams) ∈
      addClassValidatorImports cv ims := by
  unfold addClassValidatorImports
  rw [if_pos (fun hc => hne (List.length_eq_zero.mp hc))]
  exact List.mem_cons_self _ _

theorem addClassValidatorImports_type_mem (cv : List IClassValidator)
    (ims : List ImportStatementParams) (hne : cv ≠ [])
    (hty : cv.any (fun v => decide (v.name = "Type")) = true) :
    (⟨ImportSource.lib "class-transformer", [TypeName.raw "Type"]⟩ :
      ImportStatementParams) ∈ addClassValidatorImports cv ims := by
  unfold addClassValidatorImports
  rw [if_pos (fun hc => hne (List.length_eq_zero.mp hc))]
  refine List.mem_cons_of_mem _ ?_
  rw [if_pos hty]
  exact List.mem_cons_self _ _

/-- After canonicalization of an assembled import list (client-module
imports, then the validator-library block over fold imports), the
class-validator record carries exactly the sorted duplicate-free validator
names, and a Type validator implies the class-transformer record. -/
theorem assembly_validator_canonical (fields : List ParsedField)
    (path : String) (cv : List IClassValidator)
    (ims : List ImportStatementParams)
    (hpath1 : path ≠ "class-validator")
    (hpath2 : path ≠ "class-transformer")
    (hsrc : ∀ r ∈ ims, r.source ≠ ImportSource.lib "class-validator" ∧
      r.source ≠ ImportSource.lib "class-transformer")
    (hne : cv ≠ [])
    (hnd : (cv.map (fun v => v.name)).Nodup) :
    (⟨ImportSource.lib "class-validator",
      (sortStrings ((cv.filter (fun x => decide (x.name ≠ "Type"))).map
        (fun x => x.name))).map TypeName.raw⟩ : ImportStatementParams) ∈
      zipImportStatementParams
        (makeImportsFromPrismaClient fields path ++
          addClassValidatorImports cv ims) ∧
    (cv.any (fun v => decide (v.name = "Type")) = true →
      (⟨ImportSource.lib "class-transformer", [TypeName.raw "Type"]⟩ :
        ImportStatementParams) ∈
        zipImportStatementParams
          (makeImportsFromPrismaClient fields path ++
            addClassValidatorImports cv ims)) := by
  have hprisma : ∀ r ∈ makeImportsFromPrismaClient fields path,
      r.source = ImportSource.lib path := by
    intro r hr
    unfold makeImportsFromPrismaClient at hr
    split at hr
    · obtain rfl := List.mem_singleton.mp hr
      rfl
    · simp at hr
  have hfsub : ((cv.filter (fun x => decide (x.name ≠ "Type"))).map
      (fun v => v.name)).Nodup :=
    ((List.filter_sublist cv).map (fun v => v.name)).nodup hnd
  have hsnodup := sortStrings_nodup hfsub
  have hdnodup : ((sortStrings ((cv.filter
      (fun x => decide (x.name ≠ "Type"))).map (fun x => x.name))).map
      TypeName.raw).Nodup := List.Nodup.map raw_injective hsnodup
  constructor
  · have hall : ∀ r ∈ makeImportsFromPrismaClient fields path ++
        addClassValidatorImports cv ims,
        r.source = ImportSource.lib "class-validator" →
          r.destruct = (sortStrings ((cv.filter
            (fun x => decide (x.name ≠ "Type"))).map
            (fun x => x.name))).map TypeName.raw := by
      intro r hr hs
      rw [List.mem_append] at hr
      rcases hr with hp | hi
      · rw [hprisma r hp] at hs
        cases hs
        exact absurd rfl hpath1
      · rcases addClassValidatorImports_cases cv ims r hi with
          rfl | rfl | hmem
        · rfl
        · simp at hs
        · exact absurd hs (hsrc r hmem).1
    have hone : ∃ r ∈ makeImportsFromPrismaClient fields path ++
        addClassValidatorImports cv ims,
        r.source = ImportSource.lib "class-validator" :=
      ⟨_, List.mem_append_right _ (addClassValidatorImports_head cv ims hne),
       rfl⟩
    obtain ⟨hmem, _⟩ := zip_single_source
      (ImportSource.lib "class-validator")
      ((sortStrings ((cv.filter (fun x => decide (x.name ≠ "Type"))).map
        (fun x => x.name))).map TypeName.raw) _ hone hall
    rw [addUniqueNames_nil_of_nodup hdnodup] at hmem
    exact hmem
  · intro hty
    have hall : ∀ r ∈ makeImportsFromPrismaClient fields path ++
        addClassValidatorImports cv ims,
        r.source = ImportSource.lib "class-transformer" →
          r.destruct = [TypeName.raw "Type"] := by
      intro r hr hs
      rw [List.mem_append] at hr
      rcases hr with hp | hi
      · rw [hprisma r hp] at hs
        cases hs
        exact absurd rfl hpath2
      · rcases addClassValidatorImports_cases cv ims r hi with
          rfl | rfl | hmem
        · simp at hs
        · rfl
        · exact absurd hs (hsrc r hmem).2
    have hone : ∃ r ∈ makeImportsFromPrismaClient fields path ++
        addClassValidatorImports cv ims,
        r.source = ImportSource.lib "class-transformer" :=
      ⟨_, List.mem_append_right _
        (addClassValidatorImports_type_mem cv ims hne hty), rfl⟩
    obtain ⟨hmem, _⟩ := zip_single_source
      (ImportSource.lib "class-transformer") [TypeName.raw "Type"] _
      hone hall
    rw [addUniqueNames_nil_of_nodup (by simp)] at hmem
    exact hmem


/-- C10: in the Create and Update pipelines, whenever at least one
class-validator spec is collected, the canonicalized import list holds a
class-validator record whose names are exactly the collected validator
names except Type, sorted ascending without duplicates; a collected Type
validator additionally yields the class-transformer Type record
(provided the client-module path is not one of the two validation
libraries, which would merge with them in the canonicalizer). -/
theorem validator_library_imports (model : Model) (allModels : List Model)
    (cfg : GeneratorConfig) (stC : CreateState) (outC : CreateDtoParams)
    (stU : UpdateState) (outU : UpdateDtoParams)
    (hpath1 : cfg.prismaClientImportPath ≠ "class-validator")
    (hpath2 : cfg.prismaClientImportPath ≠ "class-transformer")
    (hfoldC : createFold model allModels cfg = .ok stC)
    (hokC : computeCreateDtoParams model allModels cfg = .ok outC)
    (hneC : stC.classValidators ≠ [])
    (hfoldU : updateFold model allModels cfg = .ok stU)
    (hokU : computeUpdateDtoParams model allModels cfg = .ok outU)
    (hneU : stU.classValidators ≠ []) :
    ((⟨ImportSource.lib "class-validator",
       (sortStrings ((stC.classValidators.filter
         (fun x => decide (x.name ≠ "Type"))).map
         (fun x => x.name))).map TypeName.raw⟩ :
       ImportStatementParams) ∈ outC.imports ∧
     (sortStrings ((stC.classValidators.filter
       (fun x => decide (x.name ≠ "Type"))).map
       (fun x => x.name))).Sorted (· ≤ ·) ∧
     (sortStrings ((stC.classValidators.filter
       (fun x => decide (x.name ≠ "Type"))).map
       (fun x => x.name))).Nodup ∧
     (∀ x, x ∈ sortStrings ((stC.classValidators.filter
         (fun x => decide (x.name ≠ "Type"))).map (fun x => x.name)) ↔
       ∃ v ∈ stC.classValidators, v.name = x ∧ x ≠ "Type") ∧
     ((∃ v ∈ stC.classValidators, v.name = "Type") →
       (⟨ImportSource.lib "class-transformer", [TypeName.raw "Type"]⟩ :
         ImportStatementParams) ∈ outC.imports)) ∧
    ((⟨ImportSource.lib "class-validator",
       (sortStrings ((stU.classValidators.filter
         (fun x => decide (x.name ≠ "Type"))).map
         (fun x => x.name))).map TypeName.raw⟩ :
       ImportStatementParams) ∈ outU.imports ∧
     (sortStrings ((stU.classValidators.filter
       (fun x => decide (x.name ≠ "Type"))).map
       (fun x => x.name))).Sorted (· ≤ ·) ∧
     (sortStrings ((stU.classValidators.filter
       (fun x => decide (x.name ≠ "Type"))).map
       (fun x => x.name))).Nodup ∧
     (∀ x, x ∈ sortStrings ((stU.classValidators.filter
         (fun x => decide (x.name ≠ "Type"))).map (fun x => x.name)) ↔
       ∃ v ∈ stU.classValidators, v.name = x ∧ x ≠ "Type") ∧
     ((∃ v ∈ stU.classValidators, v.name = "Type") →
       (⟨ImportSource.lib "class-transformer", [TypeName.raw "Type"]⟩ :
         ImportStatementParams) ∈ outU.imports)) := by
  constructor
  · unfold computeCreateDtoParams at hokC
    rw [hfoldC] at hokC
    cases hokC
    have hnd := createFold_classValidators_nodup _ _ _ _ hfoldC
    have hsrc : ∀ r ∈ (if stC.apiExtraModels.length ≠ 0 ||
        stC.hasApiProperty || stC.hasApiRespProperty then
          swaggerImportRecord (stC.apiExtraModels.length ≠ 0)
            stC.hasApiProperty stC.hasApiRespProperty :: stC.imports
        else stC.imports),
        r.source ≠ ImportSource.lib "class-validator" ∧
        r.source ≠ ImportSource.lib "class-transformer" := by
      intro r hr
      split at hr
      · rcases List.mem_cons.mp hr with rfl | hr'
        · exact ⟨by simp [swaggerImportRecord], by simp [swaggerImportRecord]⟩
        · obtain ⟨x, y, z, hs'⟩ := createFold_imports_rel _ _ _ _ hfoldC r hr'
          exact ⟨by rw [hs']; simp, by rw [hs']; simp⟩
      · obtain ⟨x, y, z, hs'⟩ := createFold_imports_rel _ _ _ _ hfoldC r hr
        exact ⟨by rw [hs']; simp, by rw [hs']; simp⟩
    obtain ⟨hmem, htype⟩ := assembly_validator_canonical stC.fields
      cfg.prismaClientImportPath stC.classValidators
      (if stC.apiExtraModels.length ≠ 0 ||
          stC.hasApiProperty || stC.hasApiRespProperty then
         swaggerImportRecord (stC.apiExtraModels.length ≠ 0)
           stC.hasApiProperty stC.hasApiRespProperty :: stC.imports
       else stC.imports)
      hpath1 hpath2 hsrc hneC hnd
    refine ⟨hmem, sortStrings_sorted _, ?_, ?_, ?_⟩
    · have hsub : List.Sublist ((stC.classValidators.filter
          (fun x => decide (x.name ≠ "Type"))).map (fun v => v.name))
          (stC.classValidators.map (fun v => v.name)) :=
        List.Sublist.map _ (List.filter_sublist _)
      exact sortStrings_nodup (hsub.nodup hnd)
    · intro x
      rw [mem_sortStrings, List.mem_map]
      constructor
      · rintro ⟨v, hv, rfl⟩
        rw [List.mem_filter] at hv
        exact ⟨v, hv.1, rfl, by simpa using hv.2⟩
      · rintro ⟨v, hv, rfl, hne'⟩
        exact ⟨v, List.mem_filter.mpr ⟨hv, by simpa using hne'⟩, rfl⟩
    · intro hex
      obtain ⟨v, hv, hvn⟩ := hex
      exact htype (List.any_eq_true.mpr ⟨v, hv, by simp [hvn]⟩)
  · unfold computeUpdateDtoParams at hokU
    rw [hfoldU] at hokU
    cases hokU
    have hnd := updateFold_classValidators_nodup _ _ _ _ hfoldU
    have hsrc : ∀ r ∈ (if stU.apiExtraModels.length ≠ 0 ||
        stU.hasApiProperty || stU.hasApiRespProperty then
          swaggerImportRecord (stU.apiExtraModels.length ≠ 0)
            stU.hasApiProperty stU.hasApiRespProperty :: stU.imports
        else stU.imports),
        r.source ≠ ImportSource.lib "class-validator" ∧
        r.source ≠ ImportSource.lib "class-transformer" := by
      intro r hr
      split at hr
      · rcases List.mem_cons.mp hr with rfl | hr'
        · exact ⟨by simp [swaggerImportRecord], by simp [swaggerImportRecord]⟩
        · obtain ⟨x, y, z, hs'⟩ := updateFold_imports_rel _ _ _ _ hfoldU r hr'
          exact ⟨by rw [hs']; simp, by rw [hs']; simp⟩
      · obtain ⟨x, y, z, hs'⟩ := updateFold_imports_rel _ _ _ _ hfoldU r hr
        exact ⟨by rw [hs']; simp, by rw [hs']; simp⟩
    obtain ⟨hmem, htype⟩ := assembly_validator_canonical stU.fields
      cfg.prismaClientImportPath stU.classValidators
      (if stU.apiExtraModels.length ≠ 0 ||
          stU.hasApiProperty || stU.hasApiRespProperty then
         swaggerImportRecord (stU.apiExtraModels.length ≠ 0)
           stU.hasApiProperty stU.hasApiRespProperty :: stU.imports
       else stU.imports)
      hpath1 hpath2 hsrc hneU hnd
    refine ⟨hmem, sortStrings_sorted _, ?_, ?_, ?_⟩
    · have hsub : List.Sublist ((stU.classValidators.filter
          (fun x => decide (x.name ≠ "Type"))).map (fun v => v.name))
          (stU.classValidators.map (fun v => v.name)) :=
        List.Sublist.map _ (List.filter_sublist _)
      exact sortStrings_nodup (hsub.nodup hnd)
    · intro x
      rw [mem_sortStrings, List.mem_map]
      constructor
      · rintro ⟨v, hv, rfl⟩
        rw [List.mem_filter] at hv
        exact ⟨v, hv.1, rfl, by simpa using hv.2⟩
      · rintro ⟨v, hv, rfl, hne'⟩
        exact ⟨v, List.mem_filter.mpr ⟨hv, by simpa using hne'⟩, rfl⟩
    · intro hex
      obtain ⟨v, hv, hvn⟩ := hex
      exact htype (List.any_eq_true.mpr ⟨v, hv, by simp [hvn]⟩)

/-- Witness for C10 at a concrete schema: the author entity's Create and
Update computations with validation enabled come out with the sorted
class-validator record and the class-transformer Type record. -/
theorem validator_library_imports_witness :
    ∃ stC outC stU outU,
      createFold authorModel authorBookModels cfgValid = .ok stC ∧
      computeCreateDtoParams authorModel authorBookModels cfgValid =
        .ok outC ∧
      stC.classValidators ≠ [] ∧
      updateFold authorModel authorBookModels cfgValid = .ok stU ∧
      computeUpdateDtoParams authorModel authorBookModels cfgValid =
        .ok outU ∧
      stU.classValidators ≠ [] ∧
      (⟨ImportSource.lib "class-validator",
        (sortStrings ((stC.classValidators.filter
          (fun x => decide (x.name ≠ "Type"))).map
          (fun x => x.name))).map TypeName.raw⟩ :
        ImportStatementParams) ∈ outC.imports ∧
      (⟨ImportSource.lib "class-transformer", [TypeName.raw "Type"]⟩ :
        ImportStatementParams) ∈ outC.imports ∧
      (⟨ImportSource.lib "class-validator",
        (sortStrings ((stU.classValidators.filter
          (fun x => decide (x.name ≠ "Type"))).map
          (fun x => x.name))).map TypeName.raw⟩ :
        ImportStatementParams) ∈ outU.imports ∧
      (⟨ImportSource.lib "class-transformer", [TypeName.raw "Type"]⟩ :
        ImportStatementParams) ∈ outU.imports := by
  have hkC : (createFold authorModel authorBookModels cfgValid).isOk =
      true := by decide
  have hkC2 : (computeCreateDtoParams authorModel authorBookModels
      cfgValid).isOk = true := by decide
  have hkU : (updateFold authorModel authorBookModels cfgValid).isOk =
      true := by decide
  have hkU2 : (computeUpdateDtoParams authorModel authorBookModels
      cfgValid).isOk = true := by decide
  cases hfC : createFold authorModel authorBookModels cfgValid with
  | error e =>
    rw [hfC] at hkC
    simp [Except.isOk, Except.toBool] at hkC
  | ok stC =>
    cases hoC : computeCreateDtoParams authorModel authorBookModels
        cfgValid with
    | error e =>
      rw [hoC] at hkC2
      simp [Except.isOk, Except.toBool] at hkC2
    | ok outC =>
      cases hfU : updateFold authorModel authorBookModels cfgValid with
      | error e =>
        rw [hfU] at hkU
        simp [Except.isOk, Except.toBool] at hkU
      | ok stU =>
        cases hoU : computeUpdateDtoParams authorModel authorBookModels
            cfgValid with
        | error e =>
          rw [hoU] at hkU2
          simp [Except.isOk, Except.toBool] at hkU2
        | ok outU =>
          have hcvC0 : (match createFold authorModel authorBookModels
                cfgValid with
              | .ok s => decide (s.classValidators =
                  [⟨"IsNotEmpty", none⟩, ⟨"IsString", none⟩,
                   ⟨"ValidateNested", none⟩,
                   ⟨"Type", some ⟨true,
                     TypeName.relationInput "Author" "books" true⟩⟩,
                   ⟨"IsOptional", none⟩])
              | .error _ => false) = true := by decide
          have hcvU0 : (match updateFold authorModel authorBookModels
                cfgValid with
              | .ok s => decide (s.classValidators =
                  [⟨"IsOptional", none⟩, ⟨"IsString", none⟩,
                   ⟨"ValidateNested", none⟩,
                   ⟨"Type", some ⟨true,
                     TypeName.relationInput "Author" "books" false⟩⟩])
              | .error _ => false) = true := by decide
          rw [hfC] at hcvC0
          rw [hfU] at hcvU0
          have hcvC : stC.classValidators =
              [⟨"IsNotEmpty", none⟩, ⟨"IsString", none⟩,
               ⟨"ValidateNested", none⟩,
               ⟨"Type", some ⟨true,
                 TypeName.relationInput "Author" "books" true⟩⟩,
               ⟨"IsOptional", none⟩] := of_decide_eq_true hcvC0
          have hcvU : stU.classValidators =
              [⟨"IsOptional", none⟩, ⟨"IsString", none⟩,
               ⟨"ValidateNested", none⟩,
               ⟨"Type", some ⟨true,
                 TypeName.relationInput "Author" "books" false⟩⟩] :=
            of_decide_eq_true hcvU0
          have hneC : stC.classValidators ≠ [] := by
            rw [hcvC]
            simp
          have hneU : stU.classValidators ≠ [] := by
            rw [hcvU]
            simp
          obtain ⟨⟨hm1, _, _, _, hm2⟩, ⟨hm3, _, _, _, hm4⟩⟩ :=
            validator_library_imports authorModel authorBookModels cfgValid
              stC outC stU outU (by decide) (by decide)
              hfC hoC hneC hfU hoU hneU
          have hexC : ∃ v ∈ stC.classValidators, v.name = "Type" := by
            rw [hcvC]
            exact ⟨⟨"Type", some ⟨true,
              TypeName.relationInput "Author" "books" true⟩⟩,
              by simp, rfl⟩
          have hexU : ∃ v ∈ stU.classValidators, v.name = "Type" := by
            rw [hcvU]
            exact ⟨⟨"Type", some ⟨true,
              TypeName.relationInput "Author" "books" false⟩⟩,
              by simp, rfl⟩
          exact ⟨stC, outC, stU, outU, rfl, rfl, hneC, rfl, rfl, hneU,
                 hm1, hm2 hexC, hm3, hm4 hexU⟩

end PgDto
